import Mathlib

/-!
# Powermon bridge: command dispatcher, connection flags and streaming engine

A shallow embedding of `device-manager/package/src/powermon_bridge.cpp` (the
line-protocol bridge) and of `PowermonWrapper::Connect` from
`device-manager/src/powermon_wrapper.cpp` (the object binding).

* Every call of `output_event`, `output_error`, `output_fatal`, `output_result`
  is recorded as one `Msg`; `Msg.render` is the `printf` of that call.
* The three global flags, the log of written messages and the log of SDK
  operations form a `World`.
* The SDK is asynchronous.  Whatever it does while the command thread sleeps in
  one `usleep(10 * 1000)` is a `Tick`: the list, in order, of the callbacks and
  signals that ran during that sleep.  The command thread sees their effect
  when it wakes, so events take effect at the sleeps and nowhere else.  A
  handler consumes a schedule of ticks; a handler that would sleep when the
  schedule is exhausted is reported as not returned (`Run.returned = false`)
  together with everything it did so far.
* The payload encoders (`device_info_to_json`, `monitor_data_to_json`, ...)
  format floating-point fields; a reply carries the text they produce.
* Strings are sequences of `Char`, one per byte.

The statements about a handler describe its run up to the moment it returns.
-/

namespace Powermon

/-! ## Messages written to standard output -/

/-- One written message: the arguments of one call of `output_event`,
`output_error`, `output_fatal` or `output_result`. -/
inductive Msg where
  | event (event : String) (data : Option String)
  | error (cmd_id : String) (message : String)
  | fatal (message : String)
  | result (cmd_id : String) (success : Bool) (code : Int) (data : Option String)
  deriving DecidableEq, Repr

/-- What `%s` prints of a `const char*`: the bytes before the first NUL. -/
def c_str (s : String) : String :=
  String.mk (s.toList.takeWhile (fun c => c != Char.ofNat 0))

/-- The `printf` line of each output function. -/
def Msg.render : Msg → String
  | .event e (some d) =>
      "\x7b\"type\":\"event\",\"event\":\"" ++ c_str e ++ "\"," ++ c_str d ++ "\x7d\n"
  | .event e none =>
      "\x7b\"type\":\"event\",\"event\":\"" ++ c_str e ++ "\"\x7d\n"
  | .error i m =>
      "\x7b\"type\":\"error\",\"id\":\"" ++ c_str i ++ "\",\"message\":\"" ++ c_str m ++ "\"\x7d\n"
  | .fatal m =>
      "\x7b\"type\":\"fatal\",\"message\":\"" ++ c_str m ++ "\"\x7d\n"
  | .result i s c (some d) =>
      "\x7b\"type\":\"result\",\"id\":\"" ++ c_str i ++ "\",\"success\":"
        ++ (if s then "true" else "false") ++ ",\"code\":" ++ toString c
        ++ ",\"data\":" ++ c_str d ++ "\x7d\n"
  | .result i s c none =>
      "\x7b\"type\":\"result\",\"id\":\"" ++ c_str i ++ "\",\"success\":"
        ++ (if s then "true" else "false") ++ ",\"code\":" ++ toString c ++ "\x7d\n"

/-- A terminal message is a Result or an Error (the two that carry an id). -/
def Msg.isTerminal : Msg → Bool
  | .result _ _ _ _ => true
  | .error _ _ => true
  | _ => false

/-- An event message. -/
def Msg.isEvent : Msg → Bool
  | .event _ _ => true
  | _ => false

/-- The id argument of a message, if it has one. -/
def Msg.id? : Msg → Option String
  | .result i _ _ _ => some i
  | .error i _ => some i
  | _ => none

/-! ## SDK data -/

/-- The enumeration `Powermon::DisconnectReason` (powermon.h). -/
inductive DisconnectReason where
  | CLOSED
  | NO_ROUTE
  | FAILED
  | UNEXPECTED_ERROR
  | UNEXPECTED_RESPONSE
  | WRITE_ERROR
  | READ_ERROR
  deriving DecidableEq, Repr

/-- The numeric value of the enumerator (`CLOSED = 0`, then counting up). -/
def DisconnectReason.toNat : DisconnectReason → Nat
  | .CLOSED => 0
  | .NO_ROUTE => 1
  | .FAILED => 2
  | .UNEXPECTED_ERROR => 3
  | .UNEXPECTED_RESPONSE => 4
  | .WRITE_ERROR => 5
  | .READ_ERROR => 6

/-- The response code `Powermon::RSP_SUCCESS = 0x0000`. -/
def RSP_SUCCESS : Nat := 0x0000

def CHANNEL_ID_SIZE : Nat := 16

def ENCRYPTION_KEY_SIZE : Nat := 32

/-- The struct `Powermon::WifiAccessKey`: two byte arrays. -/
structure WifiAccessKey where
  channel_id : List Nat
  encryption_key : List Nat
  deriving DecidableEq, Repr

/-- The struct `Powermon::DeviceIdentifier`. -/
structure DeviceIdentifier where
  name : String
  serial : Nat
  hardware_revision_bcd : Nat
  address : Nat
  access_key : WifiAccessKey
  deriving DecidableEq, Repr

/-- The pure functions of the SDK that the bridge calls.  They are not part of
this repository's sources, so they are parameters.  `fromURL u` is `some d`
when `DeviceIdentifier::fromURL` returns true and leaves `d` in the object. -/
structure Sdk where
  getVersion : Nat
  fromURL : String → Option DeviceIdentifier
  getHardwareString : Nat → String

/-- What a request callback receives: the response code and the payload.
`json` is the text the matching `*_to_json` encoder produces for the typed
payload (device info, monitor data, statistics, fuel-gauge statistics, log-file
list); `data` and `len` are the byte pointer (`none` is `nullptr`) and length
handed to the `requestReadLogFile` callback. -/
structure Reply where
  code : Nat
  json : String
  data : Option (List Nat)
  len : Nat
  deriving DecidableEq, Repr

/-- An SDK operation invoked by the bridge.  An argument `none` of
`requestReadLogFile` is an uninitialised local that was never written. -/
inductive SdkCall where
  | connectWifi (key : WifiAccessKey)
  | disconnect
  | requestGetInfo
  | requestGetMonitorData
  | requestGetStatistics
  | requestGetFgStatistics
  | requestGetLogFileList
  | requestReadLogFile (file_id offset size : Option Nat)
  deriving DecidableEq, Repr

/-- The lambda handed to the SDK with a request, named after the handler that
created it; `id_copy` is the captured copy of the command id. -/
inductive Callback where
  | get_info (id_copy : String)
  | get_monitor_data (id_copy : String)
  | get_statistics (id_copy : String)
  | get_fg_statistics (id_copy : String)
  | get_log_files (id_copy : String)
  | read_log_file (id_copy : String)
  | stream_monitor
  deriving DecidableEq, Repr

/-! ## The bridge state -/

/-- The globals `connected`, `connecting`, `should_exit`; the callback of the
request the SDK has not answered yet (`done` of the waiting handler is false
exactly while it is there); everything written to stdout and every SDK
operation invoked, oldest first. -/
structure World where
  connected : Bool
  connecting : Bool
  should_exit : Bool
  pending : Option Callback
  out : List Msg
  calls : List SdkCall
  deriving DecidableEq, Repr

def output_event (event : String) (data : Option String) (w : World) : World :=
  { w with out := w.out ++ [Msg.event event data] }

def output_error (cmd_id : String) (message : String) (w : World) : World :=
  { w with out := w.out ++ [Msg.error cmd_id message] }

def output_fatal (message : String) (w : World) : World :=
  { w with out := w.out ++ [Msg.fatal message] }

def output_result (cmd_id : String) (success : Bool) (code : Int) (data : Option String)
    (w : World) : World :=
  { w with out := w.out ++ [Msg.result cmd_id success code data] }

/-- Invoke an SDK operation. -/
def World.call (w : World) (c : SdkCall) : World :=
  { w with calls := w.calls ++ [c] }

/-- Hand a callback to the SDK (`done` starts false). -/
def World.register (w : World) (cb : Callback) : World :=
  { w with pending := some cb }

/-! ## Number and string formatting -/

/-- Digits of `n` in base 16, `std::hex` (lower case). -/
def hex_digits (n : Nat) : List Char := Nat.toDigits 16 n

/-- Padding by `std::setfill('0') << std::setw(width)` of a digit string. -/
def zero_fill (width : Nat) (ds : List Char) : List Char :=
  List.replicate (width - ds.length) '0' ++ ds

/-- Output of `std::hex << std::setfill('0') << std::setw(width) << n`. -/
def hex_lower (width n : Nat) : String :=
  String.mk (zero_fill width (hex_digits n))

/-- Output of `std::hex << std::uppercase << std::setfill('0') << std::setw(width) << n`. -/
def hex_upper (width n : Nat) : String :=
  String.mk (zero_fill width ((hex_digits n).map Char.toUpper))

/-- One character of `escape_json_string`. -/
def escape_json_char (c : Char) : String :=
  if c = '"' then "\\\""
  else if c = '\\' then "\\\\"
  else if c = Char.ofNat 8 then "\\b"
  else if c = Char.ofNat 12 then "\\f"
  else if c = '\n' then "\\n"
  else if c = '\r' then "\\r"
  else if c = '\t' then "\\t"
  else if c.toNat ≤ 0x1f then "\\u" ++ hex_lower 4 c.toNat
  else String.singleton c

def escape_json_string (s : String) : String :=
  s.toList.foldl (fun o c => o ++ escape_json_char c) ""

/-- The hex string of a log-file read: `"` then two lower-case hex digits per
byte `data[i]`, `i < len`, then `"`. -/
def log_bytes_to_json (data : List Nat) (len : Nat) : String :=
  "\"" ++ (List.range len).foldl (fun ss i => ss ++ hex_lower 2 (data.getD i 0)) "" ++ "\""

/-! ## Asynchronous events and the polling waits -/

/-- Run the body of a request callback on a reply (without the final
`done = true`). -/
def Callback.invoke (cb : Callback) (r : Reply) (w : World) : World :=
  match cb with
  | .get_info id_copy
  | .get_monitor_data id_copy
  | .get_statistics id_copy
  | .get_fg_statistics id_copy
  | .get_log_files id_copy =>
      if r.code = RSP_SUCCESS then output_result id_copy true r.code (some r.json) w
      else output_result id_copy false r.code none w
  | .read_log_file id_copy =>
      if r.code = RSP_SUCCESS ∧ r.data.isSome ∧ r.len > 0 then
        output_result id_copy true r.code
          (some (log_bytes_to_json (r.data.getD []) r.len)) w
      else output_result id_copy (decide (r.code = RSP_SUCCESS)) r.code none w
  | .stream_monitor =>
      if r.code = RSP_SUCCESS then output_event "monitor" (some ("\"data\":" ++ r.json)) w
      else w

/-- Something that happens on another thread while the command thread sleeps:
the SDK answers the outstanding request, a termination signal runs
`handle_signal`, or the SDK runs the connect or the disconnect callback
installed in `main`. -/
inductive Async where
  | response (r : Reply)
  | signal
  | onConnect
  | onDisconnect (reason : DisconnectReason)
  deriving DecidableEq, Repr

/-- The effect of one asynchronous event.  The SDK calls a request callback
once, so a response with no request outstanding does nothing. -/
def World.deliver (w : World) : Async → World
  | .response r =>
      match w.pending with
      | some cb => { cb.invoke r w with pending := none }
      | none => w
  | .signal => { w with should_exit := true }
  | .onConnect =>
      output_event "connected" none { w with connected := true, connecting := false }
  | .onDisconnect reason =>
      output_event "disconnected" (some ("\"reason\":" ++ toString reason.toNat))
        { w with connected := false, connecting := false }

/-- The events of one `usleep(10 * 1000)`, in the order they ran. -/
abbrev Tick := List Async

/-- One `usleep(10 * 1000)`. -/
def World.usleep (w : World) (t : Tick) : World :=
  t.foldl World.deliver w

/-- A handler's run: the state reached, the ticks not consumed, and whether the
handler returned (false: it is still sleeping at the end of the schedule). -/
structure Run where
  world : World
  rest : List Tick
  returned : Bool
  deriving DecidableEq, Repr

/-- The poll `while (!done && !should_exit) usleep(10 * 1000);` -/
def wait_done : World → List Tick → Run
  | w, [] =>
      if w.pending.isSome && !w.should_exit then ⟨w, [], false⟩ else ⟨w, [], true⟩
  | w, t :: ts =>
      if w.pending.isSome && !w.should_exit then wait_done (w.usleep t) ts
      else ⟨w, t :: ts, true⟩

/-- The wait `for (int i = 0; i < n && !should_exit; i++) usleep(10 * 1000);`
started at `i`. -/
def wait_interval (n : Int) : Int → World → List Tick → Run
  | i, w, [] =>
      if decide (i < n) && !w.should_exit then ⟨w, [], false⟩ else ⟨w, [], true⟩
  | i, w, t :: ts =>
      if decide (i < n) && !w.should_exit then wait_interval n (i + 1) (w.usleep t) ts
      else ⟨w, t :: ts, true⟩

/-! ## Reading the command line (`std::istringstream`) -/

/-- The test `std::isspace` in the "C" locale. -/
def isspace (c : Char) : Bool :=
  c == ' ' || c == '\t' || c == '\n' || c == Char.ofNat 11 || c == Char.ofNat 12 || c == '\r'

/-- The unread characters of the stream and its `failbit`.  (`eofbit` is not
kept: it is set exactly when nothing is left to read, and an extraction from
an exhausted stream fails in the same way with or without it.) -/
structure IStream where
  buf : List Char
  fail : Bool
  deriving DecidableEq, Repr

/-- Extraction `iss >> str`: skip white space, then read up to the next white
space.  On failure `str` keeps its value `init`. -/
def extract_string (init : String) (iss : IStream) : String × IStream :=
  if iss.fail then (init, iss)
  else
    let b := iss.buf.dropWhile isspace
    if b.isEmpty then (init, ⟨[], true⟩)
    else
      (String.mk (b.takeWhile (fun c => !isspace c)),
        ⟨b.dropWhile (fun c => !isspace c), false⟩)

/-- The call `std::getline(iss >> std::ws, url)` into an empty `url`: skip
white space, then read up to the end of the line. -/
def getline_ws (iss : IStream) : String :=
  if iss.fail then ""
  else String.mk ((iss.buf.dropWhile isspace).takeWhile (fun c => c != '\n'))

/-- The value of a string of decimal digits. -/
def digits_value (ds : List Char) : Nat :=
  ds.foldl (fun v c => 10 * v + (c.toNat - '0'.toNat)) 0

def INT_MAX : Int := 2147483647

def INT_MIN : Int := -2147483648

def UINT32_MAX : Nat := 4294967295

/-- Extraction `iss >> value` for an `int` (C++11 `num_get`, decimal): an
exhausted or failed stream leaves `value` as it was; no digit after the
optional sign stores 0 and fails; a value out of range stores the nearest
limit and fails. -/
def extract_int (init : Int) (iss : IStream) : Int × IStream :=
  if iss.fail then (init, iss)
  else
    let b := iss.buf.dropWhile isspace
    if b.isEmpty then (init, ⟨[], true⟩)
    else
      let negative := b.head? == some '-'
      let b := if negative || b.head? == some '+' then b.tail else b
      let ds := b.takeWhile Char.isDigit
      let b := b.dropWhile Char.isDigit
      if ds.isEmpty then (0, ⟨b, true⟩)
      else
        let v : Int := digits_value ds
        if negative then
          if v > -INT_MIN then (INT_MIN, ⟨b, true⟩) else (-v, ⟨b, false⟩)
        else
          if v > INT_MAX then (INT_MAX, ⟨b, true⟩) else (v, ⟨b, false⟩)

/-- Extraction `iss >> value` for a `uint32_t`; `none` is an uninitialised
local that was never written.  A leading minus sign negates modulo 2^32. -/
def extract_u32 (init : Option Nat) (iss : IStream) : Option Nat × IStream :=
  if iss.fail then (init, iss)
  else
    let b := iss.buf.dropWhile isspace
    if b.isEmpty then (init, ⟨[], true⟩)
    else
      let negative := b.head? == some '-'
      let b := if negative || b.head? == some '+' then b.tail else b
      let ds := b.takeWhile Char.isDigit
      let b := b.dropWhile Char.isDigit
      if ds.isEmpty then (some 0, ⟨b, true⟩)
      else
        let v := digits_value ds
        if v > UINT32_MAX then (some UINT32_MAX, ⟨b, true⟩)
        else if negative then (some ((UINT32_MAX + 1 - v) % (UINT32_MAX + 1)), ⟨b, false⟩)
        else (some v, ⟨b, false⟩)

/-! ## Command handlers -/

def cmd_version (sdk : Sdk) (cmd_id : String) (w : World) : World :=
  let version := sdk.getVersion % 65536
  output_result cmd_id true 0
    (some ("\x7b\"major\":" ++ toString (version >>> 8) ++ ",\"minor\":"
      ++ toString (version &&& 0xFF) ++ ",\"string\":\"" ++ toString (version >>> 8)
      ++ "." ++ toString (version &&& 0xFF) ++ "\"\x7d")) w

/-- The two-digit upper-case hex dump of the first `n` bytes of an array. -/
def hex_dump (n : Nat) (bytes : List Nat) : String :=
  (List.range n).foldl (fun ss i => ss ++ hex_upper 2 (bytes.getD i 0)) ""

/-- The JSON object `cmd_parse_url` builds for a decoded identifier. -/
def device_identifier_to_json (sdk : Sdk) (id : DeviceIdentifier) : String :=
  "\x7b"
    ++ "\"name\":\"" ++ escape_json_string id.name ++ "\","
    ++ "\"serial\":\"" ++ hex_upper 16 id.serial ++ "\","
    ++ "\"hardwareRevision\":" ++ toString id.hardware_revision_bcd ++ ","
    ++ "\"hardwareString\":\""
    ++ escape_json_string (sdk.getHardwareString id.hardware_revision_bcd) ++ "\","
    ++ "\"channelId\":\"" ++ hex_dump CHANNEL_ID_SIZE id.access_key.channel_id ++ "\","
    ++ "\"encryptionKey\":\"" ++ hex_dump ENCRYPTION_KEY_SIZE id.access_key.encryption_key
    ++ "\"" ++ "\x7d"

def cmd_parse_url (sdk : Sdk) (cmd_id : String) (url : String) (w : World) : World :=
  match sdk.fromURL (c_str url) with
  | none => output_result cmd_id false (-1) (some "null") w
  | some id => output_result cmd_id true 0 (some (device_identifier_to_json sdk id)) w

def cmd_connect (sdk : Sdk) (cmd_id : String) (url : String) (w : World) : World :=
  if w.connected || w.connecting then
    output_error cmd_id "Already connected or connecting" w
  else
    match sdk.fromURL (c_str url) with
    | none => output_error cmd_id "Invalid access URL" w
    | some id =>
        output_result cmd_id true 0 none
          (({ w with connecting := true }).call (.connectWifi id.access_key))

def cmd_disconnect (cmd_id : String) (w : World) : World :=
  let w := if w.connected || w.connecting then w.call .disconnect else w
  output_result cmd_id true 0 none w

def cmd_status (cmd_id : String) (w : World) : World :=
  output_result cmd_id true 0
    (some ("\x7b\"connected\":" ++ (if w.connected then "true" else "false")
      ++ ",\"connecting\":" ++ (if w.connecting then "true" else "false") ++ "\x7d")) w

/-- The common shape of the single-shot data handlers: refuse when not
connected, otherwise issue the request with its callback and poll. -/
def cmd_single_shot (cmd_id : String) (request : SdkCall) (cb : Callback)
    (w : World) (ticks : List Tick) : Run :=
  if !w.connected then ⟨output_error cmd_id "Not connected" w, ticks, true⟩
  else wait_done ((w.call request).register cb) ticks

def cmd_get_info (cmd_id : String) (w : World) (ticks : List Tick) : Run :=
  cmd_single_shot cmd_id .requestGetInfo (.get_info cmd_id) w ticks

def cmd_get_monitor_data (cmd_id : String) (w : World) (ticks : List Tick) : Run :=
  cmd_single_shot cmd_id .requestGetMonitorData (.get_monitor_data cmd_id) w ticks

def cmd_get_statistics (cmd_id : String) (w : World) (ticks : List Tick) : Run :=
  cmd_single_shot cmd_id .requestGetStatistics (.get_statistics cmd_id) w ticks

def cmd_get_fg_statistics (cmd_id : String) (w : World) (ticks : List Tick) : Run :=
  cmd_single_shot cmd_id .requestGetFgStatistics (.get_fg_statistics cmd_id) w ticks

def cmd_get_log_files (cmd_id : String) (w : World) (ticks : List Tick) : Run :=
  cmd_single_shot cmd_id .requestGetLogFileList (.get_log_files cmd_id) w ticks

def cmd_read_log_file (cmd_id : String) (file_id offset size : Option Nat)
    (w : World) (ticks : List Tick) : Run :=
  cmd_single_shot cmd_id (.requestReadLogFile file_id offset size) (.read_log_file cmd_id)
    w ticks

/-- The loop test of `cmd_stream_monitor`:
`!should_exit && connected && (count == 0 || samples < count)`. -/
def stream_continues (count samples : Int) (w : World) : Bool :=
  !w.should_exit && w.connected && (count == 0 || decide (samples < count))

/-- One pass through the loop body of `cmd_stream_monitor`: issue the request,
poll for `done`, count the sample, and wait for the interval unless this was
the last sample. -/
def stream_body (interval_ms count samples : Int) (w : World) (ticks : List Tick) : Run :=
  let r := wait_done ((w.call .requestGetMonitorData).register .stream_monitor) ticks
  if !r.returned then r
  else
    let samples := samples + 1
    if count == 0 || decide (samples < count) then
      wait_interval (Int.tdiv interval_ms 10) 0 r.world r.rest
    else r

/-- The `while` loop of `cmd_stream_monitor`, entered with `samples` samples
taken, and the `output_result` after it.  `fuel` bounds the number of loop
tests; every pass sleeps at least once, so `ticks.length + 1` tests are never
exceeded.  `samples` is read only when `count` is not 0, and then it never
passes `count`, so the `int` counter is an `Int` here. -/
def stream_loop (cmd_id : String) (interval_ms count : Int) :
    Nat → Int → World → List Tick → Run
  | 0, _, w, ticks => ⟨w, ticks, false⟩
  | fuel + 1, samples, w, ticks =>
      if stream_continues count samples w then
        let r := stream_body interval_ms count samples w ticks
        if !r.returned then r
        else stream_loop cmd_id interval_ms count fuel (samples + 1) r.world r.rest
      else ⟨output_result cmd_id true 0 none w, ticks, true⟩

def cmd_stream_monitor (cmd_id : String) (interval_ms count : Int)
    (w : World) (ticks : List Tick) : Run :=
  if !w.connected then ⟨output_error cmd_id "Not connected" w, ticks, true⟩
  else stream_loop cmd_id interval_ms count (ticks.length + 1) 0 w ticks

/-- The signal handler `handle_signal`. -/
def handle_signal (w : World) : World :=
  { w with should_exit := true }

/-- The first token of a line (`iss >> cmd_id`). -/
def line_id (line : String) : String :=
  (extract_string "" ⟨line.toList, false⟩).1

/-- The second token of a line (`iss >> cmd`). -/
def line_cmd (line : String) : String :=
  (extract_string "" (extract_string "" ⟨line.toList, false⟩).2).1

/-- The stream `iss` after `iss >> cmd_id >> cmd`. -/
def line_args (line : String) : IStream :=
  (extract_string "" (extract_string "" ⟨line.toList, false⟩).2).2

/-- The body of `parse_command` after `iss >> cmd_id >> cmd`. -/
def dispatch (sdk : Sdk) (cmd_id cmd : String) (iss : IStream) (w : World)
    (ticks : List Tick) : Run :=
  if cmd_id = "" ∨ cmd = "" then ⟨w, ticks, true⟩
  else if cmd = "version" then ⟨cmd_version sdk cmd_id w, ticks, true⟩
  else if cmd = "parse" then ⟨cmd_parse_url sdk cmd_id (getline_ws iss) w, ticks, true⟩
  else if cmd = "connect" then ⟨cmd_connect sdk cmd_id (getline_ws iss) w, ticks, true⟩
  else if cmd = "disconnect" then ⟨cmd_disconnect cmd_id w, ticks, true⟩
  else if cmd = "status" then ⟨cmd_status cmd_id w, ticks, true⟩
  else if cmd = "info" then cmd_get_info cmd_id w ticks
  else if cmd = "monitor" then cmd_get_monitor_data cmd_id w ticks
  else if cmd = "statistics" then cmd_get_statistics cmd_id w ticks
  else if cmd = "fgstatistics" then cmd_get_fg_statistics cmd_id w ticks
  else if cmd = "logfiles" then cmd_get_log_files cmd_id w ticks
  else if cmd = "readlog" then
    let (file_id, iss) := extract_u32 none iss
    let (offset, iss) := extract_u32 none iss
    let (size, _) := extract_u32 none iss
    cmd_read_log_file cmd_id file_id offset size w ticks
  else if cmd = "stream" then
    let (interval_ms, iss) := extract_int 2000 iss
    let (count, _) := extract_int 0 iss
    cmd_stream_monitor cmd_id interval_ms count w ticks
  else if cmd = "quit" ∨ cmd = "exit" then
    ⟨output_result cmd_id true 0 none { w with should_exit := true }, ticks, true⟩
  else ⟨output_error cmd_id "Unknown command" w, ticks, true⟩

/-- Dispatch one input line. -/
def parse_command (sdk : Sdk) (line : String) (w : World) (ticks : List Tick) : Run :=
  dispatch sdk (line_id line) (line_cmd line) (line_args line) w ticks

/-! ## The object binding: `PowermonWrapper` -/

/-- The members of `PowermonWrapper`: `powermon_` is whether the SDK instance
pointer is non-null, the two `tsfn_` flags whether a thread-safe function is
held, `calls` the SDK operations invoked. -/
structure Wrapper where
  powermon_ : Bool
  connected_ : Bool
  connecting_ : Bool
  ble_available_ : Bool
  access_key_ : WifiAccessKey
  on_connect_tsfn_ : Bool
  on_disconnect_tsfn_ : Bool
  calls : List SdkCall
  deriving DecidableEq, Repr

/-- The `accessKey` option: each field is the bytes of the typed array, or
`none` when the property is absent or not a typed array. -/
structure AccessKeyOption where
  channelId : Option (List Nat)
  encryptionKey : Option (List Nat)
  deriving DecidableEq, Repr

/-- The options object of `connect`: `onConnect` / `onDisconnect` say whether
the property is a function, `accessKey` is present when the property is an
object, `url` when it is a string. -/
structure ConnectOptions where
  onConnect : Bool
  onDisconnect : Bool
  accessKey : Option AccessKeyOption
  url : Option String
  deriving DecidableEq, Repr

/-- The method `PowermonWrapper::Connect`.  The argument is `none` when `info[0]` is
missing or not an object.  The second component is the message of the
`TypeError` thrown, if any. -/
def PowermonWrapper.Connect (sdk : Sdk) (self : Wrapper) (info : Option ConnectOptions) :
    Wrapper × Option String :=
  if !self.ble_available_ || !self.powermon_ then
    (self, some "Bluetooth not available - cannot connect to devices")
  else if self.connected_ || self.connecting_ then
    (self, some "Already connected or connecting")
  else
    match info with
    | none => (self, some "Options object expected")
    | some options =>
        let self := if options.onConnect then { self with on_connect_tsfn_ := true } else self
        let self :=
          if options.onDisconnect then { self with on_disconnect_tsfn_ := true } else self
        match options.accessKey with
        | some ak =>
            let self :=
              match ak.channelId with
              | some channel =>
                  if channel.length ≥ CHANNEL_ID_SIZE then
                    { self with access_key_ :=
                        { self.access_key_ with channel_id := channel.take CHANNEL_ID_SIZE } }
                  else self
              | none => self
            let self :=
              match ak.encryptionKey with
              | some enc =>
                  if enc.length ≥ ENCRYPTION_KEY_SIZE then
                    { self with access_key_ :=
                        { self.access_key_ with
                          encryption_key := enc.take ENCRYPTION_KEY_SIZE } }
                  else self
              | none => self
            ({ self with connecting_ := true,
                         calls := self.calls ++ [.connectWifi self.access_key_] }, none)
        | none =>
            match options.url with
            | some url =>
                match sdk.fromURL (c_str url) with
                | none => (self, some "Invalid access URL")
                | some id =>
                    ({ self with access_key_ := id.access_key, connecting_ := true,
                                 calls := self.calls ++ [.connectWifi id.access_key] }, none)
            | none => (self, some "Either \x27accessKey\x27 or \x27url\x27 option required")

/-! ## Connection state -/

/-- The enumeration `Powermon::State`. -/
inductive State where
  | Disconnected
  | Connecting
  | Connected
  deriving DecidableEq, Repr

/-- The state the two flags stand for. -/
def World.state (w : World) : State :=
  if w.connected then .Connected else if w.connecting then .Connecting else .Disconnected

/-- The state the two flags of the binding stand for. -/
def Wrapper.state (self : Wrapper) : State :=
  if self.connected_ then .Connected
  else if self.connecting_ then .Connecting
  else .Disconnected

/-- The transitions the connection state machine allows in one step. -/
def State.allowed : State → State → Bool
  | .Disconnected, .Connecting => true
  | .Connecting, .Connected => true
  | .Connecting, .Disconnected => true
  | .Connected, .Disconnected => true
  | s, t => decide (s = t)

/-! ## Vocabulary for schedules and output logs -/

/-- A `monitor` event. -/
def Msg.isMonitor : Msg → Bool
  | .event e _ => e == "monitor"
  | _ => false

/-- The id a callback will put into its Result (the stream callback writes
an event, without id). -/
def Callback.id? : Callback → Option String
  | .get_info i => some i
  | .get_monitor_data i => some i
  | .get_statistics i => some i
  | .get_fg_statistics i => some i
  | .get_log_files i => some i
  | .read_log_file i => some i
  | .stream_monitor => none

/-- How many terminal messages the outstanding callback will still write. -/
def World.owed (w : World) : Nat :=
  match w.pending with
  | some cb => if cb.id?.isSome then 1 else 0
  | none => 0

/-- How many monitor events the outstanding callback will still write when it
is answered with `RSP_SUCCESS`. -/
def World.owed_monitor (w : World) : Nat :=
  if w.pending = some .stream_monitor then 1 else 0

def Async.isSignal : Async → Bool
  | .signal => true
  | _ => false

def Async.isResponse : Async → Bool
  | .response _ => true
  | _ => false

/-- A connect or disconnect notification. -/
def Async.isNotification : Async → Bool
  | .onConnect => true
  | .onDisconnect _ => true
  | _ => false

/-- An event under which a stream keeps running and every answer is
`RSP_SUCCESS`: no signal, no disconnect notification, no failed response. -/
def Async.isCalm : Async → Bool
  | .response r => decide (r.code = RSP_SUCCESS)
  | .onConnect => true
  | _ => false

/-- Every event of the schedule satisfies `p`. -/
def Schedule.all (p : Async → Bool) (ticks : List Tick) : Prop :=
  ∀ t ∈ ticks, ∀ e ∈ t, p e = true

/-- Some event of the schedule satisfies `p`. -/
def Schedule.any (p : Async → Bool) (ticks : List Tick) : Prop :=
  ∃ t ∈ ticks, ∃ e ∈ t, p e = true

/-- The messages of `l` are events, or terminal messages with id `id`. -/
def Msg.eventsOrId (id : String) (l : List Msg) : Prop :=
  ∀ m ∈ l, m.isEvent = true ∨ (m.isTerminal = true ∧ m.id? = some id)

/-- The log of `w` extends `base` by events and by terminal messages with id
`id`, and the terminal messages written since `base` plus the one still owed
by the outstanding callback are `k`. -/
def Tracks (base : List Msg) (id : String) (k : Nat) (w : World) : Prop :=
  (∀ cb, w.pending = some cb → cb.id? = none ∨ cb.id? = some id) ∧
    ∃ l, w.out = base ++ l ∧ Msg.eventsOrId id l ∧
      (l.filter Msg.isTerminal).length + w.owed = k

/-- The log of `w` extends `base` by events only, `k` of them monitor events
when the one still owed by the outstanding stream callback is counted, and no
callback other than the stream callback is outstanding. -/
def Streams (base : List Msg) (k : Nat) (w : World) : Prop :=
  (w.pending = none ∨ w.pending = some .stream_monitor) ∧
    ∃ l, w.out = base ++ l ∧ (∀ m ∈ l, m.isEvent = true) ∧
      (l.filter Msg.isMonitor).length + w.owed_monitor = k

/-- Shutdown is raised already, or a signal arrives within the schedule. -/
def Raised (w : World) (ticks : List Tick) : Prop :=
  w.should_exit = true ∨ Schedule.any Async.isSignal ticks

/-- The sample values used in the concrete instances below. -/
def sample_key : WifiAccessKey := ⟨List.replicate 16 0xAB, List.replicate 32 0x01⟩

def sample_sdk : Sdk :=
  ⟨0x0111,
   fun u => if u = "pm://good" then some ⟨"pm", 0x1234, 0x41, 0, sample_key⟩ else none,
   fun _ => "PowerMon-W"⟩

/-- The state `main` starts with: both flags false, nothing written. -/
def idle_world : World := ⟨false, false, false, none, [], []⟩

/-- A connected bridge with nothing outstanding. -/
def connected_world : World := ⟨true, false, false, none, [], []⟩

/-- A successful reply with payload text `{}`. -/
def ok_reply : Reply := ⟨RSP_SUCCESS, "\x7b\x7d", none, 0⟩

/-- The ticks of one inter-sample wait. -/
def interval_ticks (interval_ms : Int) : Nat := (Int.tdiv interval_ms 10).toNat

/-- The monitor event written for `ok_reply`. -/
def ok_event : Msg := Msg.event "monitor" (some "\"data\":\x7b\x7d")

/-- The tick at index `i` brings a response (beyond the schedule nothing
arrives). -/
def answers_at (ticks : List Tick) (i : Nat) : Bool :=
  (ticks.getD i []).any Async.isResponse

/-- Each of the `n` requests of a stream is answered during the first sleep
after it is issued; successive requests are issued (interval ticks + 1) ticks
apart. -/
def PromptAnswers (interval_ms : Int) (n : Nat) (ticks : List Tick) : Prop :=
  ∀ k < n, answers_at ticks (k * (interval_ticks interval_ms + 1)) = true

/-- Three answers `ok_reply`, each followed by ten idle ticks. -/
def spaced_schedule : List Tick :=
  ([Async.response ok_reply] :: List.replicate 10 [])
    ++ ([Async.response ok_reply] :: List.replicate 10 [])
    ++ ([Async.response ok_reply] :: List.replicate 10 [])

/-- The handler wrote exactly one message, a terminal one with id `id`. -/
def OneTerminal (id : String) (w v : World) : Prop :=
  ∃ m, v.out = w.out ++ [m] ∧ m.isTerminal = true ∧ m.id? = some id

/-- The handler left the flags alone, or it is a `connect` that set
`connecting` from Disconnected; it left `pending` alone. -/
def FlagStep (w v : World) : Prop :=
  v.pending = w.pending ∧
    ((v.connected = w.connected ∧ v.connecting = w.connecting)
      ∨ (w.connected = false ∧ w.connecting = false ∧ v.connected = false
          ∧ v.connecting = true))

/-- The output account of a handler: it appended `l`, made of events and of
terminal messages with the id, at most one of them, and exactly one once it
has returned. -/
def Account (cmd_id : String) (w : World) (r : Run) : Prop :=
  ∃ l, r.world.out = w.out ++ l ∧ Msg.eventsOrId cmd_id l
    ∧ (l.filter Msg.isTerminal).length ≤ 1
    ∧ (r.returned = true → (l.filter Msg.isTerminal).length = 1)

/-- Connect options that carry the decodable sample URL. -/
def url_options : ConnectOptions := ⟨false, false, none, some "pm://good"⟩

/-! ## Further members of the object binding -/

/-- The method `PowermonWrapper::Disconnect`: the SDK disconnect is called when
one of the two flags is set; nothing else changes. -/
def PowermonWrapper.Disconnect (self : Wrapper) : Wrapper :=
  if self.connected_ || self.connecting_ then
    { self with calls := self.calls ++ [.disconnect] }
  else self

/-- The object handed to the JavaScript callback of `readLogFile`. -/
structure ReadLogResult where
  success : Bool
  code : Nat
  data : Option (List Nat)
  deriving DecidableEq, Repr

/-- The callback that `PowermonWrapper::ReadLogFile` gives to the SDK: copy
`size` bytes when the code is `RSP_SUCCESS`, the pointer is not null and
`size > 0`; set `data` when the code is `RSP_SUCCESS` and the copy is not
empty. -/
def PowermonWrapper.ReadLogFile_result (r : Reply) : ReadLogResult :=
  let data_copy : List Nat :=
    if r.code = RSP_SUCCESS ∧ r.data.isSome ∧ r.len > 0 then
      (List.range r.len).map (fun i => (r.data.getD []).getD i 0)
    else []
  { success := decide (r.code = RSP_SUCCESS),
    code := r.code,
    data := if r.code = RSP_SUCCESS ∧ !data_copy.isEmpty then some data_copy else none }

/-- The response code `Powermon::RSP_SUCCESS_MORE = 0x0100`. -/
def RSP_SUCCESS_MORE : Nat := 0x0100

/-- The payload of a reply is really there: a positive length comes with a
pointer that is not null. -/
def Reply.hasPayload (r : Reply) : Prop :=
  r.len > 0 → r.data.isSome = true

/-! ## Decoders used to state the codec properties -/

/-- The value of a hexadecimal digit, either case. -/
def hex_val (c : Char) : Option Nat :=
  if '0' ≤ c ∧ c ≤ '9' then some (c.toNat - '0'.toNat)
  else if 'a' ≤ c ∧ c ≤ 'f' then some (c.toNat - 'a'.toNat + 10)
  else if 'A' ≤ c ∧ c ≤ 'F' then some (c.toNat - 'A'.toNat + 10)
  else none

/-- Hex-decoding: two digits per byte, high nibble first. -/
def hex_decode : List Char → Option (List Nat)
  | [] => some []
  | [_] => none
  | a :: b :: rest =>
      match hex_val a, hex_val b, hex_decode rest with
      | some x, some y, some r => some ((16 * x + y) :: r)
      | _, _, _ => none

/-- The two lower-case hex digits of a byte, high nibble first. -/
def byte_digits (b : Nat) : List Char :=
  [Nat.digitChar (b / 16), Nat.digitChar (b % 16)]

/-- The character an escape letter stands for in a JSON string: the letters of
`\" \\ \/ \b \f \n \r \t`. -/
def json_escape_letter (x : Char) : Option Char :=
  if x = '"' then some '"'
  else if x = '\\' then some '\\'
  else if x = '/' then some '/'
  else if x = 'b' then some (Char.ofNat 8)
  else if x = 'f' then some (Char.ofNat 12)
  else if x = 'n' then some '\n'
  else if x = 'r' then some '\r'
  else if x = 't' then some '\t'
  else none

/-- Standard JSON string unescaping of the text between the quotes.  It fails
on a raw double quote, on a raw control character (below 0x20) and on a
backslash that does not start an escape; `\uXXXX` takes four hex digits
(escapes in the surrogate range are not decoded here). -/
def json_unescape : List Char → Option (List Char)
  | [] => some []
  | c :: rest =>
      if c = '\\' then
        match rest with
        | [] => none
        | x :: tail =>
            if x = 'u' then
              match tail with
              | h1 :: h2 :: h3 :: h4 :: tail4 =>
                  match hex_val h1, hex_val h2, hex_val h3, hex_val h4, json_unescape tail4 with
                  | some a, some b, some c, some d, some r =>
                      if 0xD800 ≤ ((a * 16 + b) * 16 + c) * 16 + d
                          ∧ ((a * 16 + b) * 16 + c) * 16 + d ≤ 0xDFFF then none
                      else some (Char.ofNat (((a * 16 + b) * 16 + c) * 16 + d) :: r)
                  | _, _, _, _, _ => none
              | _ => none
            else
              match json_escape_letter x, json_unescape tail with
              | some y, some r => some (y :: r)
              | _, _ => none
      else if c = '"' ∨ c.toNat < 0x20 then none
      else
        match json_unescape rest with
        | some r => some (c :: r)
        | none => none

/-- Read a JSON string literal from just after its opening quote: the raw text
up to the first quote that is not preceded by an escaping backslash, and what
follows that quote. -/
def json_string_end : List Char → Option (List Char × List Char)
  | [] => none
  | c :: rest =>
      if c = '"' then some ([], rest)
      else if c = '\\' then
        match rest with
        | [] => none
        | x :: tail =>
            match json_string_end tail with
            | some (body, after) => some (c :: x :: body, after)
            | none => none
      else
        match json_string_end rest with
        | some (body, after) => some (c :: body, after)
        | none => none

/-! ## Vocabulary for stream accounting -/

/-- An event under which a stream keeps running: no signal and no disconnect
notification; a response may carry any code. -/
def Async.isHeld : Async → Bool
  | .signal => false
  | .onDisconnect _ => false
  | _ => true

/-- The request and monitor-event account of a stream: `s` data requests were
issued after `calls0`; events only were written after `base`, and at most `s`
of them are monitor events when the one the outstanding callback may still
write is counted; no callback other than the stream callback is outstanding. -/
def Sampling (base : List Msg) (calls0 : List SdkCall) (s : Nat) (w : World) : Prop :=
  (w.pending = none ∨ w.pending = some .stream_monitor)
    ∧ w.calls = calls0 ++ List.replicate s SdkCall.requestGetMonitorData
    ∧ ∃ l, w.out = base ++ l ∧ (∀ m ∈ l, m.isEvent = true)
        ∧ (l.filter Msg.isMonitor).length + w.owed_monitor ≤ s

/-- The monitor event the stream callback writes for a successful reply. -/
def monitor_event (r : Reply) : Msg :=
  Msg.event "monitor" (some ("\"data\":" ++ r.json))

/-- The monitor events written for a sequence of answers: one for each answer
with `RSP_SUCCESS`, none for any other code. -/
def monitor_events (rs : List (Nat × Reply)) : List Msg :=
  (rs.filter (fun a => decide (a.2.code = RSP_SUCCESS))).map (fun a => monitor_event a.2)

/-- A schedule that answers the requests of a stream one by one: the request
number `j` is answered with the reply `rs[j].2` after `rs[j].1` idle sleeps,
and the sleeps of one inter-sample wait follow, idle as well. -/
def stream_schedule (interval_ms : Int) (rs : List (Nat × Reply)) : List Tick :=
  rs.flatMap (fun a =>
    List.replicate a.1 [] ++ [Async.response a.2] :: List.replicate (interval_ticks interval_ms) [])

/-- The response code `Powermon::RSP_TIMEOUT = 0x0008`. -/
def RSP_TIMEOUT : Nat := 0x0008

/-- A reply that reports a timeout. -/
def timeout_reply : Reply := ⟨RSP_TIMEOUT, "\x7b\x7d", none, 0⟩

/-! ## The command loop -/

/-- One pass of the command loop of `main` after a successful `read_line`:
`before` are the events that ran on the other threads while the read was
blocked, `line` is the line read; `if (!line.empty()) parse_command(line);` -/
def command_step (sdk : Sdk) (before : Tick) (line : String) (w : World)
    (ticks : List Tick) : Run :=
  if line = "" then ⟨w.usleep before, ticks, true⟩
  else parse_command sdk line (w.usleep before) ticks

/-- The command loop of `main`:
`while (!should_exit && read_line(line)) { if (!line.empty()) parse_command(line); }`.
Each element of `input` is one successful `read_line`; the end of `input` is
the read that fails. -/
def command_loop (sdk : Sdk) : List (Tick × String) → World → List Tick → Run
  | [], w, ticks => ⟨w, ticks, true⟩
  | (before, line) :: input, w, ticks =>
      if w.should_exit then ⟨w, ticks, true⟩
      else
        let r := command_step sdk before line w ticks
        if !r.returned then r else command_loop sdk input r.world r.rest

/-- A correlated request: an SDK call that takes a completion callback. -/
def SdkCall.isRequest : SdkCall → Bool
  | .connectWifi _ => false
  | .disconnect => false
  | _ => true

/-- The states in which the loop of `cmd_stream_monitor` issues its requests:
the state at each loop test that succeeds (same recursion as `stream_loop`). -/
def stream_issue_points (interval_ms count : Int) :
    Nat → Int → World → List Tick → List World
  | 0, _, _, _ => []
  | fuel + 1, samples, w, ticks =>
      if stream_continues count samples w then
        let r := stream_body interval_ms count samples w ticks
        w :: (if !r.returned then []
              else stream_issue_points interval_ms count fuel (samples + 1) r.world r.rest)
      else []

/-- The states in which the body of `parse_command` issues a correlated
request: the state at entry for a single-shot data command issued while
connected, the loop tests that succeed for a `stream`, none for the other
commands. -/
def dispatch_issue_points (cmd_id cmd : String) (iss : IStream) (w : World)
    (ticks : List Tick) : List World :=
  if cmd_id = "" ∨ cmd = "" then []
  else if cmd ∈ ["info", "monitor", "statistics", "fgstatistics", "logfiles", "readlog"] then
    if w.connected then [w] else []
  else if cmd = "stream" then
    if w.connected then
      stream_issue_points (extract_int 2000 iss).1 (extract_int 0 (extract_int 2000 iss).2).1
        (ticks.length + 1) 0 w ticks
    else []
  else []

/-- The states in which `parse_command` issues a correlated request. -/
def issue_points (line : String) (w : World) (ticks : List Tick) : List World :=
  dispatch_issue_points (line_id line) (line_cmd line) (line_args line) w ticks

/-- The states in which the command loop issues a correlated request, in
order (same recursion as `command_loop`). -/
def command_issue_points (sdk : Sdk) : List (Tick × String) → World → List Tick → List World
  | [], _, _ => []
  | (before, line) :: input, w, ticks =>
      if w.should_exit then []
      else
        let r := command_step sdk before line w ticks
        (if line = "" then [] else issue_points line (w.usleep before) ticks)
          ++ (if !r.returned then [] else command_issue_points sdk input r.world r.rest)

/-- The number of correlated requests in a log of SDK calls. -/
def request_count (calls : List SdkCall) : Nat :=
  (calls.filter SdkCall.isRequest).length

/-- Three lines read with the events during each read: a connect, a data
request after the connected notification, and a stream of two samples. -/
def sample_input : List (Tick × String) :=
  [([], "1 connect pm://good"), ([Async.onConnect], "2 info"), ([], ""),
    ([], "3 stream 20 2"), ([], "4 status")]

/-- Sleeps that answer the three requests of `sample_input`, and a signal
during the last poll. -/
def sample_ticks : List Tick :=
  [[], [Async.response ok_reply], [Async.response ok_reply], [], [],
    [Async.signal], [], []]

/-! ## BCD numbers (`powermon.h`) -/

/-- The loop of `Powermon::checkBCD` with `n` passes left:
`if ((bcd & 0xF) > 0x9) return false; bcd >>= 4;` on a `uint16_t`. -/
def checkBCD_loop : Nat → Nat → Bool
  | 0, _ => true
  | n + 1, bcd =>
      if bcd &&& 0xF > 0x9 then false
      else checkBCD_loop n ((bcd >>> 4) % 65536)

/-- The function `Powermon::checkBCD(uint16_t bcd)`: four passes of the loop. -/
def checkBCD (bcd : Nat) : Bool :=
  checkBCD_loop 4 (bcd % 65536)

/-- The 4-bit nibble number `i` of `v` (nibble 0 is the lowest). -/
def nibble (v i : Nat) : Nat := (v / 16 ^ i) % 16

/-- The BCD encoding of a number below 10000: one decimal digit per nibble. -/
def bcd_encode (n : Nat) : Nat :=
  (n / 1000 % 10) * 4096 + (n / 100 % 10) * 256 + (n / 10 % 10) * 16 + n % 10

/-! ## The program `main` -/

/-- The exit status `EXIT_SUCCESS`. -/
def EXIT_SUCCESS : Int := 0

/-- The exit status `EXIT_FAILURE`. -/
def EXIT_FAILURE : Int := 1

/-- The final poll of `main`: `while (connected && !should_exit) usleep(50 * 1000);` -/
def wait_disconnected : World → List Tick → Run
  | w, [] =>
      if w.connected && !w.should_exit then ⟨w, [], false⟩ else ⟨w, [], true⟩
  | w, t :: ts =>
      if w.connected && !w.should_exit then wait_disconnected (w.usleep t) ts
      else ⟨w, t :: ts, true⟩

/-- A run of the program: the state reached, the ticks not consumed, and the
exit status (`none`: still running at the end of the schedule). -/
structure MainRun where
  world : World
  rest : List Tick
  exit_code : Option Int
  deriving DecidableEq, Repr

/-- The function `main`.  `created` says whether `Powermon::createInstance()`
returned an instance; `input` are the successful reads of the command loop,
`ticks` the sleeps of the handlers and of the final poll. -/
def main (sdk : Sdk) (created : Bool) (input : List (Tick × String)) (ticks : List Tick) :
    MainRun :=
  if !created then
    ⟨output_fatal "Failed to create Powermon instance" idle_world, ticks, some EXIT_FAILURE⟩
  else
    let r := command_loop sdk input (output_event "ready" none idle_world) ticks
    if !r.returned then ⟨r.world, r.rest, none⟩
    else if r.world.connected then
      let r2 := wait_disconnected (r.world.call .disconnect) r.rest
      ⟨r2.world, r2.rest, if r2.returned then some EXIT_SUCCESS else none⟩
    else ⟨r.world, r.rest, some EXIT_SUCCESS⟩

/-- An input in which a `quit` is followed by two more lines. -/
def quit_input : List (Tick × String) :=
  [([], "1 version"), ([], "2 quit"), ([], "3 status"), ([], "4 exit")]

/-! ## Vocabulary for the shape of an input line -/

/-- White space only (possibly nothing). -/
def Blank (l : List Char) : Prop := ∀ c ∈ l, isspace c = true

/-- A token: at least one character, none of them white space. -/
def Token (t : List Char) : Prop := t ≠ [] ∧ ∀ c ∈ t, isspace c = false

/-- Nothing, or something that starts with white space: what may follow a
token. -/
def Break (rest : List Char) : Prop := ∀ c ∈ rest.head?, isspace c = true

/-- A line with exactly one token. -/
def OneToken (l : List Char) : Prop :=
  ∃ ws tok ws', Blank ws ∧ Token tok ∧ Blank ws' ∧ l = ws ++ (tok ++ ws')

/-- A line with at least two tokens: the first two are `t1` and `t2`, and
`args` is what follows the second. -/
def TwoTokens (l t1 t2 args : List Char) : Prop :=
  ∃ ws sep, Blank ws ∧ Token t1 ∧ Blank sep ∧ sep ≠ [] ∧ Token t2 ∧ Break args
    ∧ l = ws ++ (t1 ++ (sep ++ (t2 ++ args)))

/-- The command names that `parse_command` knows. -/
def command_names : List String :=
  ["version", "parse", "connect", "disconnect", "status", "info", "monitor", "statistics",
    "fgstatistics", "logfiles", "readlog", "stream", "quit", "exit"]

/-! ## Vocabulary for decimal arguments -/

/-- A string of decimal digits, at least one. -/
def Digits (ds : List Char) : Prop := ds ≠ [] ∧ ∀ c ∈ ds, c.isDigit = true

/-- Nothing, or something that does not start with a digit: what may follow a
number. -/
def NoDigit (rest : List Char) : Prop := ∀ c ∈ rest.head?, c.isDigit = false

/-- The text of a decimal integer: an optional minus sign and the digits. -/
def int_text (negative : Bool) (ds : List Char) : List Char :=
  (if negative then ['-'] else []) ++ ds

/-- The value of a decimal integer. -/
def int_value (negative : Bool) (ds : List Char) : Int :=
  if negative then -(digits_value ds : Int) else (digits_value ds : Int)

/-- The value fits an `int`. -/
def InRange (negative : Bool) (ds : List Char) : Prop :=
  INT_MIN ≤ int_value negative ds ∧ int_value negative ds ≤ INT_MAX

/-! ## Construction of the object binding -/

/-- The constructor `PowermonWrapper::PowermonWrapper`.  `created` says whether
`Powermon::createInstance()` returned an instance, `initBle` is the value of
`powermon_->initBle()` (`none`: it throws), `key0` the initial contents of the
member `access_key_`, which the constructor does not set. -/
def PowermonWrapper.new (created : Bool) (initBle : Option Bool) (key0 : WifiAccessKey) :
    Wrapper :=
  { powermon_ := created,
    connected_ := false,
    connecting_ := false,
    ble_available_ := if created then initBle.getD false else false,
    access_key_ := key0,
    on_connect_tsfn_ := false,
    on_disconnect_tsfn_ := false,
    calls := [] }

/-! ## The lifetime of `done` -/

/-- Every request callback captures the flag `done` by reference
(`[&done, id_copy]`, `[&done]`), and `done` is a local variable of the handler
that polls it.  When the handler has returned with its callback still
registered, the SDK holds a reference to a variable that no longer exists. -/
def Run.dangling_done (r : Run) : Bool :=
  r.returned && r.world.pending.isSome

/-- The event `e` runs a callback whose handler has returned: its last
statement `done = true` stores through the dangling reference. -/
def late_store (r : Run) (e : Async) : Bool :=
  r.dangling_done && e.isResponse

/-! ## The notifications and the guards, access by access

The flags are separate `std::atomic<bool>` objects and nothing locks the pair:
the SDK thread runs the statements of a notification one by one, and the
command thread may run between any two of them. -/

/-- The first statement of the connect callback installed in `main`:
`connected = true;` -/
def onConnect_first (w : World) : World :=
  { w with connected := true }

/-- The rest of the connect callback: `connecting = false;
output_event("connected");` -/
def onConnect_rest (w : World) : World :=
  output_event "connected" none { w with connecting := false }

/-- The first statement of the disconnect callback installed in `main`:
`connected = false;` -/
def onDisconnect_first (w : World) : World :=
  { w with connected := false }

/-- The rest of the disconnect callback: `connecting = false;` and the
`disconnected` event with the reason. -/
def onDisconnect_rest (reason : DisconnectReason) (w : World) : World :=
  output_event "disconnected" (some ("\"reason\":" ++ toString reason.toNat))
    { w with connecting := false }

/-- The handler `cmd_connect` with the loads of its guard apart: the test
`connected || connecting` loads `connected` and, when that is false, loads
`connecting`.  `seen` is the value the first load returned; `w` is the state
from the second load on (the SDK thread may have run between the two). -/
def cmd_connect_loads (sdk : Sdk) (cmd_id : String) (url : String) (seen : Bool)
    (w : World) : World :=
  if seen || w.connecting then
    output_error cmd_id "Already connected or connecting" w
  else
    match sdk.fromURL (c_str url) with
    | none => output_error cmd_id "Invalid access URL" w
    | some id =>
        output_result cmd_id true 0 none
          (({ w with connecting := true }).call (.connectWifi id.access_key))

/-- The first statement of the connect callback installed by
`PowermonWrapper::SetupCallbacks`: `connected_ = true;` -/
def PowermonWrapper.onConnect_first (self : Wrapper) : Wrapper :=
  { self with connected_ := true }

/-- The rest of that callback: `connecting_ = false;` (the call of the
thread-safe function changes no member). -/
def PowermonWrapper.onConnect_rest (self : Wrapper) : Wrapper :=
  { self with connecting_ := false }

/-- The first statement of the disconnect callback installed by
`PowermonWrapper::SetupCallbacks`: `connected_ = false;` -/
def PowermonWrapper.onDisconnect_first (self : Wrapper) : Wrapper :=
  { self with connected_ := false }

/-- The rest of that callback: `connecting_ = false;` (the call of the
thread-safe function changes no member). -/
def PowermonWrapper.onDisconnect_rest (self : Wrapper) (_reason : DisconnectReason) :
    Wrapper :=
  { self with connecting_ := false }

/-- The connect callback of the binding, run without interruption. -/
def PowermonWrapper.onConnect (self : Wrapper) : Wrapper :=
  PowermonWrapper.onConnect_rest (PowermonWrapper.onConnect_first self)

/-- The disconnect callback of the binding, run without interruption. -/
def PowermonWrapper.onDisconnect (self : Wrapper) (reason : DisconnectReason) : Wrapper :=
  PowermonWrapper.onDisconnect_rest (PowermonWrapper.onDisconnect_first self) reason

/-- The method `PowermonWrapper::Connect` with the loads of its guard
`connected_ || connecting_` apart: `seen` is the value the load of `connected_`
returned, `self` the state from the load of `connecting_` on.  The method reads
`connected_` nowhere else and never writes it, so this is `Connect` run with
`connected_` read as `seen`. -/
def PowermonWrapper.Connect_loads (sdk : Sdk) (seen : Bool) (self : Wrapper)
    (info : Option ConnectOptions) : Wrapper × Option String :=
  let r := PowermonWrapper.Connect sdk { self with connected_ := seen } info
  ({ r.1 with connected_ := self.connected_ }, r.2)

/-- The method `PowermonWrapper::Disconnect` with the loads of its guard apart,
in the same way. -/
def PowermonWrapper.Disconnect_loads (seen : Bool) (self : Wrapper) : Wrapper :=
  if seen || self.connecting_ then
    { self with calls := self.calls ++ [.disconnect] }
  else self

/-- An SDK call that requests a connection. -/
def SdkCall.isConnect : SdkCall → Bool
  | .connectWifi _ => true
  | _ => false

/-- The number of connections requested so far. -/
def connect_count (calls : List SdkCall) : Nat :=
  (calls.filter SdkCall.isConnect).length

/-- The states the binding can be in.  The JavaScript thread runs `Connect` and
`Disconnect`, whose first load may be older than the state in which the rest
runs (`seen` is any value), and the data methods (`getInfo` to `readLogFile`),
which issue a request when `connected_` is set and write no member.  The SDK
thread runs the statements of its two callbacks, one store at a time;
`powermon.h` documents the connect callback as called "when a connection to
the PowerMon device is fully established" and the disconnect callback as
called when the connection is disconnected, so both run only after a
connection has been requested.  Every interleaving of the two threads is a
sequence of these steps. -/
inductive Wrapper.Reachable (sdk : Sdk) : Wrapper → Prop where
  | start (created : Bool) (initBle : Option Bool) (key0 : WifiAccessKey) :
      Wrapper.Reachable sdk (PowermonWrapper.new created initBle key0)
  | connect (self : Wrapper) (seen : Bool) (info : Option ConnectOptions) :
      Wrapper.Reachable sdk self →
      Wrapper.Reachable sdk (PowermonWrapper.Connect_loads sdk seen self info).1
  | disconnect (self : Wrapper) (seen : Bool) :
      Wrapper.Reachable sdk self →
      Wrapper.Reachable sdk (PowermonWrapper.Disconnect_loads seen self)
  | request (self : Wrapper) (c : SdkCall) :
      Wrapper.Reachable sdk self → self.connected_ = true → c.isRequest = true →
      Wrapper.Reachable sdk { self with calls := self.calls ++ [c] }
  | store_connected (self : Wrapper) (b : Bool) :
      Wrapper.Reachable sdk self → 0 < connect_count self.calls →
      Wrapper.Reachable sdk { self with connected_ := b }
  | store_connecting (self : Wrapper) :
      Wrapper.Reachable sdk self → 0 < connect_count self.calls →
      Wrapper.Reachable sdk { self with connecting_ := false }

/-! ## The SDK's side of a connection -/

/-- What the SDK is doing about the connection, as `powermon.h` documents it:
`connectWifi` starts a connection attempt; the connect callback is called
"when a connection to the PowerMon device is fully established", that is for
an attempt; the disconnect callback is called "when a connection to the
PowerMon device is disconnected". -/
inductive Link where
  | down
  | attempting
  | up
  deriving DecidableEq, Repr

/-- The link after the command thread has gone from the calls `before` to the
calls `after`: a `connectWifi` among the new calls starts an attempt. -/
def Link.after (before after : List SdkCall) (link : Link) : Link :=
  if connect_count before < connect_count after then .attempting else link

/-- The flags agree with the link: `connecting` alone is set during an
attempt, `connected` alone while the connection is up. -/
def Coherent (w : World) (link : Link) : Prop :=
  (link = .attempting → w.connected = false ∧ w.connecting = true)
    ∧ (link = .up → w.connected = true ∧ w.connecting = false)

/-- The bridge after `1 connect pm://good` in the initial state: Connecting,
with the connection requested. -/
def connecting_world : World :=
  (parse_command sample_sdk "1 connect pm://good" idle_world []).world

/-- The binding after `connect` with the sample URL on a new object with BLE:
Connecting, with the connection requested. -/
def connecting_wrapper : Wrapper :=
  (PowermonWrapper.Connect sample_sdk (PowermonWrapper.new true (some true) sample_key)
    (some url_options)).1

/-! ## What is written after a stream has returned -/

/-- The log of `w` extends `base` by events only, at most `k` of them monitor
events when the one the outstanding stream callback may still write is
counted, and no callback other than the stream callback is outstanding. -/
def Trailing (base : List Msg) (k : Nat) (w : World) : Prop :=
  (w.pending = none ∨ w.pending = some .stream_monitor)
    ∧ ∃ l, w.out = base ++ l ∧ (∀ m ∈ l, m.isEvent = true)
        ∧ (l.filter Msg.isMonitor).length + w.owed_monitor ≤ k

/-- What a handler does to the connection: nothing (flags as before, no
connection requested), or it is a `connect` that found both flags false, set
`connecting` and requested one connection. -/
def ConnectStep (w v : World) : Prop :=
  (v.connected = w.connected ∧ v.connecting = w.connecting
      ∧ connect_count v.calls = connect_count w.calls)
    ∨ (w.connected = false ∧ w.connecting = false ∧ v.connected = false
        ∧ v.connecting = true ∧ connect_count v.calls = connect_count w.calls + 1)

/-- The bridge in the middle of the disconnect notification that ends the
connection made from `connecting_world`: `connected = false` is stored,
`connecting = false` is not yet. -/
def half_disconnected_world : World :=
  onDisconnect_first (connecting_world.deliver .onConnect)

/-- The line `2 connect pm://good` handled in that state, and then the rest of
the disconnect notification. -/
def reconnecting_world : World :=
  onDisconnect_rest .CLOSED
    (parse_command sample_sdk "2 connect pm://good" half_disconnected_world []).world

/-! ## Lemmas -/

theorem usleep_nil (w : World) : w.usleep [] = w := rfl

theorem usleep_cons (w : World) (e : Async) (t : Tick) :
    w.usleep (e :: t) = (w.deliver e).usleep t := rfl

/-- An invariant of every event of a tick is an invariant of the sleep. -/
theorem usleep_inv (P : World → Prop) (p : Async → Bool)
    (hstep : ∀ w e, p e = true → P w → P (w.deliver e)) :
    ∀ (t : Tick) (w : World), (∀ e ∈ t, p e = true) → P w → P (w.usleep t) := by
  intro t
  induction t with
  | nil => intro w _ h; exact h
  | cons e t ih =>
      intro w he h
      rw [usleep_cons]
      exact ih _ (fun e' h' => he e' (List.mem_cons_of_mem _ h'))
        (hstep w e (he e (List.mem_cons_self _ _)) h)

/-- An invariant of every event of the schedule holds when the poll ends. -/
theorem wait_done_inv (P : World → Prop) (p : Async → Bool)
    (hstep : ∀ w e, p e = true → P w → P (w.deliver e)) :
    ∀ (ticks : List Tick) (w : World), Schedule.all p ticks → P w →
      P (wait_done w ticks).world := by
  intro ticks
  induction ticks with
  | nil => intro w _ h; unfold wait_done; split <;> exact h
  | cons t ts ih =>
      intro w hall h
      unfold wait_done
      split
      · exact ih _ (fun t' h' => hall t' (List.mem_cons_of_mem _ h'))
          (usleep_inv P p hstep t w (hall t (List.mem_cons_self _ _)) h)
      · exact h

theorem wait_interval_inv (P : World → Prop) (p : Async → Bool)
    (hstep : ∀ w e, p e = true → P w → P (w.deliver e)) (n : Int) :
    ∀ (ticks : List Tick) (i : Int) (w : World), Schedule.all p ticks → P w →
      P (wait_interval n i w ticks).world := by
  intro ticks
  induction ticks with
  | nil => intro i w _ h; unfold wait_interval; split <;> exact h
  | cons t ts ih =>
      intro i w hall h
      unfold wait_interval
      split
      · exact ih _ _ (fun t' h' => hall t' (List.mem_cons_of_mem _ h'))
          (usleep_inv P p hstep t w (hall t (List.mem_cons_self _ _)) h)
      · exact h

/-- The unconsumed ticks are a suffix of the schedule. -/
theorem wait_done_rest : ∀ (ticks : List Tick) (w : World),
    (wait_done w ticks).rest <:+ ticks := by
  intro ticks
  induction ticks with
  | nil => intro w; unfold wait_done; split <;> exact List.suffix_refl _
  | cons t ts ih =>
      intro w
      unfold wait_done
      split
      · exact (ih _).trans (List.suffix_cons t ts)
      · exact List.suffix_refl _

theorem wait_interval_rest (n : Int) : ∀ (ticks : List Tick) (i : Int) (w : World),
    (wait_interval n i w ticks).rest <:+ ticks := by
  intro ticks
  induction ticks with
  | nil => intro i w; unfold wait_interval; split <;> exact List.suffix_refl _
  | cons t ts ih =>
      intro i w
      unfold wait_interval
      split
      · exact (ih _ _).trans (List.suffix_cons t ts)
      · exact List.suffix_refl _

theorem Schedule.all_suffix {p : Async → Bool} {a b : List Tick} (h : a <:+ b)
    (hb : Schedule.all p b) : Schedule.all p a :=
  fun t ht => hb t (h.subset ht)

/-- When the poll ends by itself the request is answered or shutdown is raised. -/
theorem wait_done_exit : ∀ (ticks : List Tick) (w : World),
    (wait_done w ticks).returned = true →
      (wait_done w ticks).world.pending = none
        ∨ (wait_done w ticks).world.should_exit = true := by
  intro ticks
  induction ticks with
  | nil =>
      intro w
      unfold wait_done
      split
      · simp
      · rename_i h
        intro _
        cases hp : w.pending <;> cases hs : w.should_exit <;> simp_all
  | cons t ts ih =>
      intro w
      unfold wait_done
      split
      · exact ih _
      · rename_i h
        intro _
        cases hp : w.pending <;> cases hs : w.should_exit <;> simp_all

/-- A poll that sleeps at all consumes a tick. -/
theorem wait_done_consumes (ticks : List Tick) (w : World) (cb : Callback)
    (hp : w.pending = some cb) (hs : w.should_exit = false)
    (hr : (wait_done w ticks).returned = true) :
    (wait_done w ticks).rest.length < ticks.length := by
  cases ticks with
  | nil => unfold wait_done at hr; simp [hp, hs] at hr
  | cons t ts =>
      unfold wait_done
      simp only [hp, hs, Option.isSome_some, Bool.not_false, Bool.and_self, if_true]
      exact Nat.lt_succ_of_le (wait_done_rest ts _).length_le

theorem deliver_should_exit (w : World) (e : Async) :
    (w.deliver e).should_exit = (w.should_exit || e.isSignal) := by
  cases e with
  | response r =>
      cases hp : w.pending with
      | none => simp [World.deliver, hp, Async.isSignal]
      | some cb =>
          cases cb <;> simp only [World.deliver, hp, Callback.invoke, output_result, output_event,
            Async.isSignal, Bool.or_false] <;> split_ifs <;> rfl
  | signal => simp [World.deliver, Async.isSignal]
  | onConnect => simp [World.deliver, Async.isSignal, output_event]
  | onDisconnect r => simp [World.deliver, Async.isSignal, output_event]

theorem deliver_pending (w : World) (e : Async) :
    (w.deliver e).pending = if e.isResponse then none else w.pending := by
  cases e with
  | response r =>
      cases hp : w.pending with
      | none => simp [World.deliver, hp, Async.isResponse]
      | some cb => simp [World.deliver, hp, Async.isResponse]
  | signal => simp [World.deliver, Async.isResponse]
  | onConnect => simp [World.deliver, Async.isResponse, output_event]
  | onDisconnect r => simp [World.deliver, Async.isResponse, output_event]

theorem deliver_calls (w : World) (e : Async) : (w.deliver e).calls = w.calls := by
  cases e with
  | response r =>
      cases hp : w.pending with
      | none => simp [World.deliver, hp]
      | some cb =>
          cases cb <;> simp only [World.deliver, hp, Callback.invoke, output_result, output_event]
            <;> split_ifs <;> rfl
  | signal => simp [World.deliver]
  | onConnect => simp [World.deliver, output_event]
  | onDisconnect r => simp [World.deliver, output_event]

theorem deliver_flags (w : World) (e : Async) (h : e.isNotification = false) :
    (w.deliver e).connected = w.connected ∧ (w.deliver e).connecting = w.connecting := by
  cases e with
  | response r =>
      cases hp : w.pending with
      | none => simp [World.deliver, hp]
      | some cb =>
          cases cb <;> simp only [World.deliver, hp, Callback.invoke, output_result, output_event]
            <;> split_ifs <;> exact ⟨rfl, rfl⟩
  | signal => simp [World.deliver]
  | onConnect => simp [Async.isNotification] at h
  | onDisconnect r => simp [Async.isNotification] at h

theorem eventsOrId_append {id : String} {l : List Msg} {m : Msg} (hl : Msg.eventsOrId id l)
    (hm : m.isEvent = true ∨ (m.isTerminal = true ∧ m.id? = some id)) :
    Msg.eventsOrId id (l ++ [m]) := by
  intro x hx
  rcases List.mem_append.mp hx with h | h
  · exact hl x h
  · rw [List.mem_singleton.mp h]; exact hm

theorem tracks_answer_result {base : List Msg} {id : String} {k : Nat} {w : World}
    (h : Tracks base id k w) (cb : Callback) (hp : w.pending = some cb)
    (hid : cb.id? = some id) (s : Bool) (c : Int) (d : Option String) :
    Tracks base id k { output_result id s c d w with pending := none } := by
  obtain ⟨_, l, hout, hl, hk⟩ := h
  refine ⟨by intro cb' h'; simp at h', l ++ [Msg.result id s c d], ?_,
    eventsOrId_append hl (Or.inr ⟨rfl, rfl⟩), ?_⟩
  · simp [output_result, hout]
  · simpa [World.owed, hp, hid, Msg.isTerminal] using hk

theorem tracks_answer_event {base : List Msg} {id : String} {k : Nat} {w : World}
    (h : Tracks base id k w) (hp : w.pending = some .stream_monitor)
    (e : String) (d : Option String) :
    Tracks base id k { output_event e d w with pending := none } := by
  obtain ⟨_, l, hout, hl, hk⟩ := h
  refine ⟨by intro cb' h'; simp at h', l ++ [Msg.event e d], ?_,
    eventsOrId_append hl (Or.inl rfl), ?_⟩
  · simp [output_event, hout]
  · simpa [World.owed, hp, Callback.id?, Msg.isTerminal] using hk

theorem tracks_answer_nothing {base : List Msg} {id : String} {k : Nat} {w : World}
    (h : Tracks base id k w) (hp : w.pending = some .stream_monitor) :
    Tracks base id k { w with pending := none } := by
  obtain ⟨_, l, hout, hl, hk⟩ := h
  refine ⟨by intro cb' h'; simp at h', l, hout, hl, ?_⟩
  simpa [World.owed, hp, Callback.id?] using hk

/-- Every asynchronous event keeps the terminal-message account. -/
theorem deliver_tracks (base : List Msg) (id : String) (k : Nat) (w : World) (e : Async)
    (h : Tracks base id k w) : Tracks base id k (w.deliver e) := by
  cases e with
  | signal => exact h
  | onConnect =>
      obtain ⟨hcb, l, hout, hl, hk⟩ := h
      refine ⟨hcb, l ++ [Msg.event "connected" none], ?_, eventsOrId_append hl (Or.inl rfl), ?_⟩
      · simp [World.deliver, output_event, hout]
      · simpa [World.deliver, output_event, World.owed, Msg.isTerminal] using hk
  | onDisconnect r =>
      obtain ⟨hcb, l, hout, hl, hk⟩ := h
      refine ⟨hcb, l ++ [Msg.event "disconnected" (some ("\"reason\":" ++ toString r.toNat))],
        ?_, eventsOrId_append hl (Or.inl rfl), ?_⟩
      · simp [World.deliver, output_event, hout]
      · simpa [World.deliver, output_event, World.owed, Msg.isTerminal] using hk
  | response r =>
      cases hp : w.pending with
      | none =>
          have : w.deliver (.response r) = w := by simp [World.deliver, hp]
          rw [this]; exact h
      | some cb =>
          have hid := h.1 cb hp
          cases cb <;> simp only [Callback.id?, Option.some.injEq, reduceCtorEq, false_or,
            true_or] at hid <;>
            (try subst hid) <;>
            simp only [World.deliver, hp, Callback.invoke] <;>
            split_ifs <;>
            first
              | exact tracks_answer_result h _ hp rfl _ _ _
              | exact tracks_answer_event h hp _ _
              | exact tracks_answer_nothing h hp

/-- The stream invariant under calm events: the connection is held, shutdown
is not raised, and the monitor-event account is kept. -/
theorem deliver_streams (base : List Msg) (k : Nat) (w : World) (e : Async)
    (he : e.isCalm = true)
    (h : Streams base k w ∧ w.connected = true ∧ w.should_exit = false) :
    Streams base k (w.deliver e) ∧ (w.deliver e).connected = true
      ∧ (w.deliver e).should_exit = false := by
  obtain ⟨⟨hp, l, hout, hl, hk⟩, hc, hs⟩ := h
  cases e with
  | signal => simp [Async.isCalm] at he
  | onDisconnect r => simp [Async.isCalm] at he
  | onConnect =>
      refine ⟨⟨hp, l ++ [Msg.event "connected" none], ?_, ?_, ?_⟩, rfl, hs⟩
      · simp [World.deliver, output_event, hout]
      · intro m hm
        rcases List.mem_append.mp hm with h | h
        · exact hl m h
        · rw [List.mem_singleton.mp h]; rfl
      · have : Msg.isMonitor (Msg.event "connected" none) = false := by decide
        simpa [World.deliver, output_event, World.owed_monitor, this] using hk
  | response r =>
      have hr : r.code = RSP_SUCCESS := by simpa [Async.isCalm] using he
      rcases hp with hp | hp
      · have : w.deliver (.response r) = w := by simp [World.deliver, hp]
        rw [this]; exact ⟨⟨Or.inl hp, l, hout, hl, hk⟩, hc, hs⟩
      · refine ⟨⟨Or.inl (by simp [deliver_pending, Async.isResponse]),
          l ++ [Msg.event "monitor" (some ("\"data\":" ++ r.json))], ?_, ?_, ?_⟩, ?_, ?_⟩
        · simp [World.deliver, hp, Callback.invoke, hr, output_event, hout]
        · intro m hm
          rcases List.mem_append.mp hm with h | h
          · exact hl m h
          · rw [List.mem_singleton.mp h]; rfl
        · have : Msg.isMonitor (Msg.event "monitor" (some ("\"data\":" ++ r.json))) = true := by
            simp [Msg.isMonitor]
          simpa [World.deliver, hp, Callback.invoke, hr, output_event, World.owed_monitor,
            this] using hk
        · simpa [World.deliver, hp, Callback.invoke, hr, output_event] using hc
        · simpa [World.deliver, hp, Callback.invoke, hr, output_event] using hs

theorem deliver_pending_none (w : World) (e : Async) (h : w.pending = none) :
    (w.deliver e).pending = none := by
  rw [deliver_pending]; split <;> simp [h]

theorem stream_loop_run (cmd_id : String) (interval_ms count : Int) (fuel : Nat)
    (samples : Int) (w : World) (ticks : List Tick)
    (h : stream_continues count samples w = true) :
    stream_loop cmd_id interval_ms count (fuel + 1) samples w ticks
      = if (stream_body interval_ms count samples w ticks).returned = true then
          stream_loop cmd_id interval_ms count fuel (samples + 1)
            (stream_body interval_ms count samples w ticks).world
            (stream_body interval_ms count samples w ticks).rest
        else stream_body interval_ms count samples w ticks := by
  rw [stream_loop]
  simp only [h, if_true]
  cases (stream_body interval_ms count samples w ticks).returned <;> simp

theorem stream_loop_exit (cmd_id : String) (interval_ms count : Int) (fuel : Nat)
    (samples : Int) (w : World) (ticks : List Tick)
    (h : stream_continues count samples w = false) :
    stream_loop cmd_id interval_ms count (fuel + 1) samples w ticks
      = ⟨output_result cmd_id true 0 none w, ticks, true⟩ := by
  rw [stream_loop]
  simp [h]

/-- An invariant of the events that holds once the request is registered holds
after the loop body. -/
theorem stream_body_inv (P : World → Prop) (p : Async → Bool)
    (hstep : ∀ w e, p e = true → P w → P (w.deliver e))
    (interval_ms count samples : Int) (w : World) (ticks : List Tick)
    (hall : Schedule.all p ticks)
    (h : P ((w.call .requestGetMonitorData).register .stream_monitor)) :
    P (stream_body interval_ms count samples w ticks).world := by
  have h1 := wait_done_inv P p hstep ticks _ hall h
  unfold stream_body
  simp only []
  split
  · exact h1
  · split
    · exact wait_interval_inv P p hstep _ _ _ _
        (Schedule.all_suffix (wait_done_rest ticks _) hall) h1
    · exact h1

theorem stream_body_rest (interval_ms count samples : Int) (w : World) (ticks : List Tick) :
    (stream_body interval_ms count samples w ticks).rest <:+ ticks := by
  unfold stream_body
  simp only []
  split
  · exact wait_done_rest ticks _
  · split
    · exact (wait_interval_rest _ _ _ _).trans (wait_done_rest ticks _)
    · exact wait_done_rest ticks _

/-- When the loop body is left, the request is answered or shutdown is raised. -/
theorem stream_body_exit (interval_ms count samples : Int) (w : World) (ticks : List Tick)
    (hr : (stream_body interval_ms count samples w ticks).returned = true) :
    (stream_body interval_ms count samples w ticks).world.pending = none
      ∨ (stream_body interval_ms count samples w ticks).world.should_exit = true := by
  unfold stream_body at hr ⊢
  simp only [] at hr ⊢
  cases h1 : (wait_done ((w.call .requestGetMonitorData).register .stream_monitor)
    ticks).returned with
  | false => simp [h1] at hr
  | true =>
      have hx := wait_done_exit ticks _ h1
      simp only [h1, Bool.not_true, Bool.false_eq_true, if_false] at hr ⊢
      split
      · exact wait_interval_inv (fun w => w.pending = none ∨ w.should_exit = true)
          (fun _ => true)
          (fun w e _ h => by
            rcases h with h | h
            · exact Or.inl (deliver_pending_none w e h)
            · exact Or.inr (by simp [deliver_should_exit, h]))
          _ _ _ _ (fun _ _ _ _ => rfl) hx
      · exact hx

/-- The stream loop under a calm schedule: if it returns, the log holds
`n - s` further monitor events and then the Result. -/
theorem stream_loop_calm (cmd_id : String) (interval_ms : Int) (n : Nat) (base : List Msg)
    (hn : 0 < n) :
    ∀ (fuel s k : Nat) (w : World) (ticks : List Tick),
      Schedule.all Async.isCalm ticks → w.pending = none →
      (Streams base k w ∧ w.connected = true ∧ w.should_exit = false) → s ≤ n →
      (stream_loop cmd_id interval_ms n fuel s w ticks).returned = true →
      ∃ l, (stream_loop cmd_id interval_ms n fuel s w ticks).world.out
            = base ++ l ++ [Msg.result cmd_id true 0 none]
        ∧ (∀ m ∈ l, m.isEvent = true)
        ∧ (l.filter Msg.isMonitor).length = k + (n - s) := by
  intro fuel
  induction fuel with
  | zero => intro s k w ticks _ _ _ _ hr; simp [stream_loop] at hr
  | succ fuel ih =>
      intro s k w ticks hall hpend hinv hsn hr
      obtain ⟨hst, hc, hs⟩ := hinv
      have hn0 : ((n : Int) == 0) = false := by
        simp only [beq_eq_false_iff_ne, ne_eq, Nat.cast_eq_zero]; omega
      by_cases hlt : s < n
      · have hlt' : ((s : Int) < (n : Int)) := by exact_mod_cast hlt
        have hcont : stream_continues n s w = true := by
          simp [stream_continues, hs, hc, hlt']
        rw [stream_loop_run _ _ _ _ _ _ _ hcont] at hr ⊢
        have h1 : Streams base (k + 1)
              ((w.call .requestGetMonitorData).register .stream_monitor)
            ∧ ((w.call .requestGetMonitorData).register .stream_monitor).connected = true
            ∧ ((w.call .requestGetMonitorData).register .stream_monitor).should_exit = false := by
          obtain ⟨_, l, hout, hl, hk⟩ := hst
          refine ⟨⟨Or.inr rfl, l, hout, hl, ?_⟩, hc, hs⟩
          simpa [World.owed_monitor, World.register, World.call, hpend] using hk
        have hb := stream_body_inv
          (fun w => Streams base (k + 1) w ∧ w.connected = true ∧ w.should_exit = false)
          Async.isCalm (fun w e he h => deliver_streams base (k + 1) w e he h)
          interval_ms n s w ticks hall h1
        have hrest := stream_body_rest interval_ms n s w ticks
        cases hret : (stream_body interval_ms n s w ticks).returned with
        | false => simp [hret] at hr
        | true =>
            simp only [hret, if_true] at hr ⊢
            have hp : (stream_body interval_ms n s w ticks).world.pending = none := by
              rcases stream_body_exit interval_ms n s w ticks hret with h | h
              · exact h
              · rw [hb.2.2] at h; cases h
            have hcast : ((s : Int) + 1) = ((s + 1 : Nat) : Int) := by push_cast; rfl
            rw [hcast] at hr ⊢
            obtain ⟨l, hl1, hl2, hl3⟩ := ih (s + 1) (k + 1) _ _
              (Schedule.all_suffix hrest hall) hp hb (by omega) hr
            exact ⟨l, hl1, hl2, by omega⟩
      · have hge : ¬ ((s : Int) < (n : Int)) := by exact_mod_cast hlt
        have hcont : stream_continues n s w = false := by
          simp [stream_continues, hs, hc, hge, hn0]
        rw [stream_loop_exit _ _ _ _ _ _ _ hcont]
        obtain ⟨_, l, hout, hl, hk⟩ := hst
        refine ⟨l, by simp [output_result, hout], hl, ?_⟩
        simp only [World.owed_monitor, hpend, reduceCtorEq, if_false, Nat.add_zero] at hk
        omega

theorem usleep_should_exit_mono (t : Tick) (w : World) (h : w.should_exit = true) :
    (w.usleep t).should_exit = true :=
  usleep_inv (fun w => w.should_exit = true) (fun _ => true)
    (fun w e _ h => by simp [deliver_should_exit, h]) t w (fun _ _ => rfl) h

theorem usleep_signal : ∀ (t : Tick) (w : World), (∃ e ∈ t, e.isSignal = true) →
    (w.usleep t).should_exit = true := by
  intro t
  induction t with
  | nil => intro w h; obtain ⟨e, he, _⟩ := h; cases he
  | cons a t ih =>
      intro w h
      obtain ⟨e, he, hs⟩ := h
      rw [usleep_cons]
      rcases List.mem_cons.mp he with h1 | h1
      · subst h1
        exact usleep_should_exit_mono t _ (by simp [deliver_should_exit, hs])
      · exact ih _ ⟨e, h1, hs⟩

/-- Sleeping through a tick keeps `Raised` for the rest of the schedule. -/
theorem raised_usleep (w : World) (t : Tick) (ts : List Tick) (h : Raised w (t :: ts)) :
    Raised (w.usleep t) ts := by
  rcases h with h | ⟨t', ht', e, he, hs⟩
  · exact Or.inl (usleep_should_exit_mono t w h)
  · rcases List.mem_cons.mp ht' with h1 | h1
    · subst h1; exact Or.inl (usleep_signal _ w ⟨e, he, hs⟩)
    · exact Or.inr ⟨t', h1, e, he, hs⟩

/-- A poll returns once shutdown is raised. -/
theorem wait_done_raised : ∀ (ticks : List Tick) (w : World), Raised w ticks →
    (wait_done w ticks).returned = true
      ∧ Raised (wait_done w ticks).world (wait_done w ticks).rest := by
  intro ticks
  induction ticks with
  | nil =>
      intro w h
      have hs : w.should_exit = true := by
        rcases h with h | ⟨t, ht, _⟩
        · exact h
        · cases ht
      simp [wait_done, hs, Raised]
  | cons t ts ih =>
      intro w h
      unfold wait_done
      split
      · exact ih _ (raised_usleep w t ts h)
      · exact ⟨rfl, h⟩

theorem wait_interval_raised (n : Int) : ∀ (ticks : List Tick) (i : Int) (w : World),
    Raised w ticks →
    (wait_interval n i w ticks).returned = true
      ∧ Raised (wait_interval n i w ticks).world (wait_interval n i w ticks).rest := by
  intro ticks
  induction ticks with
  | nil =>
      intro i w h
      have hs : w.should_exit = true := by
        rcases h with h | ⟨t, ht, _⟩
        · exact h
        · cases ht
      simp [wait_interval, hs, Raised]
  | cons t ts ih =>
      intro i w h
      unfold wait_interval
      split
      · exact ih _ _ (raised_usleep w t ts h)
      · exact ⟨rfl, h⟩

theorem stream_body_raised (interval_ms count samples : Int) (w : World) (ticks : List Tick)
    (h : Raised w ticks) :
    (stream_body interval_ms count samples w ticks).returned = true
      ∧ Raised (stream_body interval_ms count samples w ticks).world
          (stream_body interval_ms count samples w ticks).rest := by
  have h1 := wait_done_raised ticks ((w.call .requestGetMonitorData).register .stream_monitor) h
  unfold stream_body
  simp only [h1.1, Bool.not_true, Bool.false_eq_true, if_false]
  split
  · exact wait_interval_raised _ _ _ _ h1.2
  · exact h1

/-- A loop body entered with shutdown not raised consumes a tick. -/
theorem stream_body_consumes (interval_ms count samples : Int) (w : World)
    (ticks : List Tick) (hs : w.should_exit = false)
    (hr : (stream_body interval_ms count samples w ticks).returned = true) :
    (stream_body interval_ms count samples w ticks).rest.length < ticks.length := by
  unfold stream_body at hr ⊢
  simp only [] at hr ⊢
  cases h1 : (wait_done ((w.call .requestGetMonitorData).register .stream_monitor)
    ticks).returned with
  | false => simp [h1] at hr
  | true =>
      have hc := wait_done_consumes ticks
        ((w.call .requestGetMonitorData).register .stream_monitor) .stream_monitor rfl hs h1
      simp only [Bool.not_true, Bool.false_eq_true, if_false]
      split
      · exact lt_of_le_of_lt (wait_interval_rest _ _ _ _).length_le hc
      · exact hc

/-- With enough fuel the stream returns once shutdown is raised. -/
theorem stream_loop_raised (cmd_id : String) (interval_ms count : Int) :
    ∀ (fuel : Nat) (samples : Int) (w : World) (ticks : List Tick),
      ticks.length < fuel → Raised w ticks →
      (stream_loop cmd_id interval_ms count fuel samples w ticks).returned = true := by
  intro fuel
  induction fuel with
  | zero => intro _ _ ticks h; omega
  | succ fuel ih =>
      intro samples w ticks hf hraised
      cases hc : stream_continues count samples w with
      | false => rw [stream_loop_exit _ _ _ _ _ _ _ hc]
      | true =>
          rw [stream_loop_run _ _ _ _ _ _ _ hc]
          have hs : w.should_exit = false := by
            cases h : w.should_exit
            · rfl
            · simp [stream_continues, h] at hc
          have hb := stream_body_raised interval_ms count samples w ticks hraised
          have hlen := stream_body_consumes interval_ms count samples w ticks hs hb.1
          simp only [hb.1, if_true]
          exact ih _ _ _ (by omega) hb.2

/-- A poll that has not returned sleeps at the end of the schedule. -/
theorem wait_done_blocked : ∀ (ticks : List Tick) (w : World),
    (wait_done w ticks).returned = false → (wait_done w ticks).rest = [] := by
  intro ticks
  induction ticks with
  | nil => intro w _; unfold wait_done; split <;> rfl
  | cons t ts ih =>
      intro w h
      unfold wait_done at h ⊢
      split
      · rename_i hc; rw [if_pos hc] at h; exact ih _ h
      · rename_i hc; rw [if_neg hc] at h; cases h

theorem wait_interval_blocked (n : Int) : ∀ (ticks : List Tick) (i : Int) (w : World),
    (wait_interval n i w ticks).returned = false → (wait_interval n i w ticks).rest = [] := by
  intro ticks
  induction ticks with
  | nil => intro i w _; unfold wait_interval; split <;> rfl
  | cons t ts ih =>
      intro i w h
      unfold wait_interval at h ⊢
      split
      · rename_i hc; rw [if_pos hc] at h; exact ih _ _ h
      · rename_i hc; rw [if_neg hc] at h; cases h

theorem stream_body_blocked (interval_ms count samples : Int) (w : World) (ticks : List Tick)
    (hr : (stream_body interval_ms count samples w ticks).returned = false) :
    (stream_body interval_ms count samples w ticks).rest = [] := by
  unfold stream_body at hr ⊢
  simp only [] at hr ⊢
  cases h1 : (wait_done ((w.call .requestGetMonitorData).register .stream_monitor)
    ticks).returned with
  | false =>
      simp only [Bool.not_false, if_true]
      exact wait_done_blocked _ _ h1
  | true =>
      simp only [h1, Bool.not_true, Bool.false_eq_true, if_false] at hr ⊢
      split
      · rename_i hc; rw [if_pos hc] at hr; exact wait_interval_blocked _ _ _ _ hr
      · rename_i hc; rw [if_neg hc] at hr; rw [h1] at hr; cases hr

/-- With enough fuel a stream that has not returned sleeps at the end of the
schedule. -/
theorem stream_loop_blocked (cmd_id : String) (interval_ms count : Int) :
    ∀ (fuel : Nat) (samples : Int) (w : World) (ticks : List Tick),
      ticks.length < fuel →
      (stream_loop cmd_id interval_ms count fuel samples w ticks).returned = false →
      (stream_loop cmd_id interval_ms count fuel samples w ticks).rest = [] := by
  intro fuel
  induction fuel with
  | zero => intro _ _ ticks h; omega
  | succ fuel ih =>
      intro samples w ticks hf hr
      cases hc : stream_continues count samples w with
      | false => rw [stream_loop_exit _ _ _ _ _ _ _ hc] at hr; cases hr
      | true =>
          rw [stream_loop_run _ _ _ _ _ _ _ hc] at hr ⊢
          have hs : w.should_exit = false := by
            cases h : w.should_exit
            · rfl
            · simp [stream_continues, h] at hc
          cases hb : (stream_body interval_ms count samples w ticks).returned with
          | true =>
              have hlen := stream_body_consumes interval_ms count samples w ticks hs hb
              simp only [hb, if_true] at hr ⊢
              exact ih _ _ _ (by omega) hr
          | false =>
              simp only [hb, Bool.false_eq_true, if_false]
              exact stream_body_blocked _ _ _ _ _ hb

/-- If the log of `w` is tracked with nothing owed, a stream that returns has
added events only and then its Result. -/
theorem stream_loop_tracks (cmd_id : String) (interval_ms count : Int) (base : List Msg) :
    ∀ (fuel : Nat) (samples : Int) (w : World) (ticks : List Tick),
      Tracks base cmd_id 0 w →
      (stream_loop cmd_id interval_ms count fuel samples w ticks).returned = true →
      ∃ l, (stream_loop cmd_id interval_ms count fuel samples w ticks).world.out
            = base ++ l ++ [Msg.result cmd_id true 0 none]
        ∧ (∀ m ∈ l, m.isEvent = true) := by
  intro fuel
  induction fuel with
  | zero => intro _ _ _ _ hr; simp [stream_loop] at hr
  | succ fuel ih =>
      intro samples w ticks ht hr
      cases hc : stream_continues count samples w with
      | false =>
          rw [stream_loop_exit _ _ _ _ _ _ _ hc]
          obtain ⟨_, l, hout, hl, hk⟩ := ht
          refine ⟨l, by simp [output_result, hout], ?_⟩
          intro m hm
          rcases hl m hm with h | ⟨h, _⟩
          · exact h
          · have h0 : (l.filter Msg.isTerminal).length = 0 := by omega
            have hmem : m ∈ l.filter Msg.isTerminal := List.mem_filter.mpr ⟨hm, h⟩
            rw [List.length_eq_zero.mp h0] at hmem
            cases hmem
      | true =>
          rw [stream_loop_run _ _ _ _ _ _ _ hc] at hr ⊢
          cases hb : (stream_body interval_ms count samples w ticks).returned with
          | false => simp [hb] at hr
          | true =>
              simp only [hb, if_true] at hr ⊢
              refine ih _ _ _ ?_ hr
              refine stream_body_inv (Tracks base cmd_id 0) (fun _ => true)
                (fun w e _ h => deliver_tracks base cmd_id 0 w e h) _ _ _ w ticks
                (fun _ _ _ _ => rfl) ?_
              obtain ⟨_, l, hout, hl, hk⟩ := ht
              refine ⟨?_, l, hout, hl, ?_⟩
              · intro cb h
                simp only [World.register, Option.some.injEq] at h
                subst h; exact Or.inl rfl
              · have h0 : (l.filter Msg.isTerminal).length = 0 := by omega
                simp [World.owed, World.register, Callback.id?, h0]

theorem wait_done_idle (w : World) (ticks : List Tick)
    (h : w.pending = none ∨ w.should_exit = true) :
    wait_done w ticks = ⟨w, ticks, true⟩ := by
  cases ticks <;> rcases h with h | h <;> simp [wait_done, h]

theorem usleep_pending_none (t : Tick) (w : World) (h : w.pending = none) :
    (w.usleep t).pending = none :=
  usleep_inv (fun w => w.pending = none) (fun _ => true)
    (fun w e _ h => deliver_pending_none w e h) t w (fun _ _ => rfl) h

/-- A tick that brings a response leaves no request outstanding. -/
theorem usleep_answered : ∀ (t : Tick) (w : World), (∃ e ∈ t, e.isResponse = true) →
    (w.usleep t).pending = none := by
  intro t
  induction t with
  | nil => intro w h; obtain ⟨e, he, _⟩ := h; cases he
  | cons a t ih =>
      intro w h
      obtain ⟨e, he, hs⟩ := h
      rw [usleep_cons]
      rcases List.mem_cons.mp he with h1 | h1
      · subst h1
        exact usleep_pending_none t _ (by simp [deliver_pending, hs])
      · exact ih _ ⟨e, h1, hs⟩

/-- A poll returns once the request is answered. -/
theorem wait_done_answered : ∀ (ticks : List Tick) (w : World),
    Schedule.any Async.isResponse ticks → (wait_done w ticks).returned = true := by
  intro ticks
  induction ticks with
  | nil => intro w h; obtain ⟨t, ht, _⟩ := h; cases ht
  | cons t ts ih =>
      intro w h
      unfold wait_done
      split
      · obtain ⟨t', ht', e, he, hr⟩ := h
        rcases List.mem_cons.mp ht' with h1 | h1
        · subst h1
          rw [wait_done_idle _ _ (Or.inl (usleep_answered _ w ⟨e, he, hr⟩))]
        · exact ih _ ⟨t', h1, e, he, hr⟩
      · rfl

/-- A poll whose next tick brings the response takes exactly that tick. -/
theorem wait_done_prompt (w : World) (t : Tick) (ts : List Tick)
    (cb : Callback) (hp : w.pending = some cb) (hs : w.should_exit = false)
    (ht : ∃ e ∈ t, e.isResponse = true) :
    wait_done w (t :: ts) = ⟨w.usleep t, ts, true⟩ := by
  unfold wait_done
  simp only [hp, hs, Option.isSome_some, Bool.not_false, Bool.and_self, if_true]
  exact wait_done_idle _ _ (Or.inl (usleep_answered t w ht))

theorem deliver_calm_flags (w : World) (e : Async) (he : e.isCalm = true)
    (h : w.connected = true ∧ w.should_exit = false) :
    (w.deliver e).connected = true ∧ (w.deliver e).should_exit = false := by
  refine ⟨?_, ?_⟩
  · cases e with
    | signal => simp [Async.isCalm] at he
    | onDisconnect r => simp [Async.isCalm] at he
    | onConnect => rfl
    | response r => rw [(deliver_flags w (.response r) rfl).1]; exact h.1
  · rw [deliver_should_exit, h.2]
    cases e <;> simp_all [Async.isCalm, Async.isSignal]

/-- Under a calm schedule the inter-sample wait takes exactly the ticks of the
interval. -/
theorem wait_interval_calm (n : Int) : ∀ (ticks : List Tick) (i : Int) (w : World),
    Schedule.all Async.isCalm ticks → (w.connected = true ∧ w.should_exit = false) →
    (n - i).toNat ≤ ticks.length →
    (wait_interval n i w ticks).returned = true
      ∧ (wait_interval n i w ticks).rest = ticks.drop (n - i).toNat := by
  intro ticks
  induction ticks with
  | nil =>
      intro i w _ hw hlen
      have : ¬ (i < n) := by simp at hlen; omega
      simp [wait_interval, this]
  | cons t ts ih =>
      intro i w hall hw hlen
      unfold wait_interval
      by_cases hlt : i < n
      · simp only [hlt, hw.2, decide_True, Bool.not_false, Bool.and_self, if_true]
        have hw' := usleep_inv (fun w => w.connected = true ∧ w.should_exit = false)
          Async.isCalm deliver_calm_flags t w (hall t (List.mem_cons_self _ _)) hw
        have := ih (i + 1) (w.usleep t) (fun t' h' => hall t' (List.mem_cons_of_mem _ h')) hw'
          (by simp only [List.length_cons] at hlen; omega)
        refine ⟨this.1, ?_⟩
        have hsucc : (n - i).toNat = (n - (i + 1)).toNat + 1 := by omega
        rw [this.2, hsucc, List.drop_succ_cons]
      · have h0 : (n - i).toNat = 0 := by omega
        simp [hlt, h0]

theorem answers_at_lt {ticks : List Tick} {i : Nat} (h : answers_at ticks i = true) :
    i < ticks.length := by
  by_contra hge
  have : ticks.getD i [] = [] := by
    rw [List.getD_eq_getElem?_getD, List.getElem?_eq_none (by omega)]
    rfl
  rw [answers_at, this] at h
  cases h

theorem answers_at_drop (ticks : List Tick) (a i : Nat) :
    answers_at (ticks.drop a) i = answers_at ticks (a + i) := by
  simp [answers_at, List.getD_eq_getElem?_getD, List.getElem?_drop]

/-- Under a calm schedule whose first tick brings the answer, the loop body
returns, having taken that tick and the interval unless the sample was the
last. -/
theorem stream_body_prompt (interval_ms : Int) (n s : Nat) (w : World) (ticks : List Tick)
    (hall : Schedule.all Async.isCalm ticks) (hans : answers_at ticks 0 = true)
    (hw : w.connected = true ∧ w.should_exit = false)
    (hlen : s + 1 < n → interval_ticks interval_ms < ticks.length) (hn : 0 < n) :
    (stream_body interval_ms n s w ticks).returned = true
      ∧ (stream_body interval_ms n s w ticks).rest
          = ticks.drop (if s + 1 < n then interval_ticks interval_ms + 1 else 1) := by
  cases ticks with
  | nil => simp [answers_at] at hans
  | cons t ts =>
      have hn0 : ((n : Int) == 0) = false := by
        simp only [beq_eq_false_iff_ne, ne_eq, Nat.cast_eq_zero]; omega
      have ht : ∃ e ∈ t, Async.isResponse e = true := by
        simpa [answers_at] using hans
      unfold stream_body
      simp only []
      rw [wait_done_prompt ((w.call .requestGetMonitorData).register .stream_monitor) t ts
        .stream_monitor rfl hw.2 ht]
      simp only [Bool.not_true, Bool.false_eq_true, if_false, hn0, Bool.false_or]
      have hw1 := usleep_inv (fun w => w.connected = true ∧ w.should_exit = false)
          Async.isCalm deliver_calm_flags t
          ((w.call .requestGetMonitorData).register .stream_monitor)
          (hall t (List.mem_cons_self _ _)) hw
      by_cases hlt : s + 1 < n
      · have hlt' : ((s : Int) + 1 < (n : Int)) := by exact_mod_cast hlt
        have hl := hlen hlt
        simp only [List.length_cons, interval_ticks] at hl
        simp only [hlt', hlt, decide_True, if_true]
        have := wait_interval_calm (Int.tdiv interval_ms 10) ts 0 _
          (fun t' h' => hall t' (List.mem_cons_of_mem _ h')) hw1
          (by simp only [sub_zero]; omega)
        refine ⟨this.1, ?_⟩
        rw [this.2, List.drop_succ_cons]
        simp [interval_ticks]
      · have hlt' : ¬ ((s : Int) + 1 < (n : Int)) := by exact_mod_cast hlt
        simp [hlt', hlt]

/-- Under a calm schedule that answers each of the `q` remaining requests in
the first sleep after it, the stream takes its `q` samples and returns. -/
theorem stream_loop_prompt (cmd_id : String) (interval_ms : Int) (n : Nat) (hn : 0 < n) :
    ∀ (fuel q s : Nat) (w : World) (ticks : List Tick),
      Schedule.all Async.isCalm ticks → PromptAnswers interval_ms q ticks →
      (w.connected = true ∧ w.should_exit = false) →
      s + q = n → q < fuel →
      (stream_loop cmd_id interval_ms n fuel s w ticks).returned = true := by
  intro fuel
  induction fuel with
  | zero => intro q _ _ _ _ _ _ _ h; omega
  | succ fuel ih =>
      intro q s w ticks hall hprompt hw hsq hf
      have hn0 : ((n : Int) == 0) = false := by
        simp only [beq_eq_false_iff_ne, ne_eq, Nat.cast_eq_zero]; omega
      cases q with
      | zero =>
          have hge : ¬ ((s : Int) < (n : Int)) := by
            have : ¬ s < n := by omega
            exact_mod_cast this
          rw [stream_loop_exit _ _ _ _ _ _ _
            (by simp [stream_continues, hw.1, hw.2, hge, hn0])]
      | succ q =>
          have hlt : ((s : Int) < (n : Int)) := by
            have : s < n := by omega
            exact_mod_cast this
          rw [stream_loop_run _ _ _ _ _ _ _ (by simp [stream_continues, hw.1, hw.2, hlt])]
          have h0 : answers_at ticks 0 = true := by
            simpa using hprompt 0 (Nat.succ_pos q)
          have hlen : s + 1 < n → interval_ticks interval_ms < ticks.length := by
            intro hs1
            have h1 := answers_at_lt (hprompt 1 (by omega))
            omega
          have hb := stream_body_prompt interval_ms n s w ticks hall h0 hw hlen hn
          have hrest := stream_body_rest interval_ms n s w ticks
          have hw' := stream_body_inv (fun w => w.connected = true ∧ w.should_exit = false)
            Async.isCalm deliver_calm_flags interval_ms n s w ticks hall hw
          simp only [hb.1, if_true]
          have hcast : ((s : Int) + 1) = ((s + 1 : Nat) : Int) := by push_cast; rfl
          rw [hcast]
          refine ih q (s + 1) _ _ (Schedule.all_suffix hrest hall) ?_ hw' (by omega) (by omega)
          intro k hk
          rw [hb.2]
          have hs1 : s + 1 < n := by omega
          rw [if_pos hs1, answers_at_drop]
          have := hprompt (k + 1) (by omega)
          rw [Nat.succ_mul, Nat.add_comm] at this
          exact this

theorem tracks_start (w : World) (id : String) (hp : w.pending = none) :
    Tracks w.out id 0 w := by
  refine ⟨by simp [hp], [], by simp, ?_, by simp [World.owed, hp]⟩
  intro m hm
  cases hm

theorem events_of_no_terminal {id : String} {l : List Msg} (hl : Msg.eventsOrId id l)
    (h0 : (l.filter Msg.isTerminal).length = 0) : ∀ m ∈ l, m.isEvent = true := by
  intro m hm
  rcases hl m hm with h | ⟨h, _⟩
  · exact h
  · have hmem : m ∈ l.filter Msg.isTerminal := List.mem_filter.mpr ⟨hm, h⟩
    rw [List.length_eq_zero.mp h0] at hmem
    cases hmem

/-- The six single-shot data commands dispatch to `cmd_single_shot` with a
callback that carries the command id. -/
theorem dispatch_single_shot (sdk : Sdk) (cmd_id cmd : String) (iss : IStream)
    (hid : cmd_id ≠ "")
    (hcmd : cmd ∈ ["info", "monitor", "statistics", "fgstatistics", "logfiles", "readlog"]) :
    ∃ request cb, Callback.id? cb = some cmd_id ∧ ∀ w ticks,
      dispatch sdk cmd_id cmd iss w ticks = cmd_single_shot cmd_id request cb w ticks := by
  simp only [List.mem_cons, List.mem_singleton, List.not_mem_nil, or_false] at hcmd
  rcases hcmd with h | h | h | h | h | h <;> subst h
  · exact ⟨.requestGetInfo, .get_info cmd_id, rfl,
      fun w ticks => by simp [dispatch, hid, cmd_get_info]⟩
  · exact ⟨.requestGetMonitorData, .get_monitor_data cmd_id, rfl,
      fun w ticks => by simp [dispatch, hid, cmd_get_monitor_data]⟩
  · exact ⟨.requestGetStatistics, .get_statistics cmd_id, rfl,
      fun w ticks => by simp [dispatch, hid, cmd_get_statistics]⟩
  · exact ⟨.requestGetFgStatistics, .get_fg_statistics cmd_id, rfl,
      fun w ticks => by simp [dispatch, hid, cmd_get_fg_statistics]⟩
  · exact ⟨.requestGetLogFileList, .get_log_files cmd_id, rfl,
      fun w ticks => by simp [dispatch, hid, cmd_get_log_files]⟩
  · exact ⟨.requestReadLogFile (extract_u32 none iss).1
        (extract_u32 none (extract_u32 none iss).2).1
        (extract_u32 none (extract_u32 none (extract_u32 none iss).2).2).1,
      .read_log_file cmd_id, rfl,
      fun w ticks => by simp [dispatch, hid, cmd_read_log_file]⟩

theorem cmd_parse_url_one (sdk : Sdk) (cmd_id url : String) (w : World) :
    OneTerminal cmd_id w (cmd_parse_url sdk cmd_id url w)
      ∧ FlagStep w (cmd_parse_url sdk cmd_id url w) := by
  unfold cmd_parse_url
  cases sdk.fromURL (c_str url) <;>
    exact ⟨⟨_, rfl, rfl, rfl⟩, rfl, Or.inl ⟨rfl, rfl⟩⟩

theorem cmd_connect_one (sdk : Sdk) (cmd_id url : String) (w : World) :
    OneTerminal cmd_id w (cmd_connect sdk cmd_id url w)
      ∧ FlagStep w (cmd_connect sdk cmd_id url w) := by
  unfold cmd_connect
  split
  · exact ⟨⟨_, rfl, rfl, rfl⟩, rfl, Or.inl ⟨rfl, rfl⟩⟩
  · rename_i h
    have hc : w.connected = false := by cases hh : w.connected <;> simp_all
    have hg : w.connecting = false := by cases hh : w.connecting <;> simp_all
    cases sdk.fromURL (c_str url)
    · exact ⟨⟨_, rfl, rfl, rfl⟩, rfl, Or.inl ⟨rfl, rfl⟩⟩
    · exact ⟨⟨_, rfl, rfl, rfl⟩, rfl, Or.inr ⟨hc, hg, hc, rfl⟩⟩

theorem cmd_disconnect_one (cmd_id : String) (w : World) :
    OneTerminal cmd_id w (cmd_disconnect cmd_id w) ∧ FlagStep w (cmd_disconnect cmd_id w) := by
  unfold cmd_disconnect
  simp only []
  split <;> exact ⟨⟨_, rfl, rfl, rfl⟩, rfl, Or.inl ⟨rfl, rfl⟩⟩

/-- The three kinds of command: those that answer at once with one terminal
message, the six single-shot data requests, and `stream`. -/
theorem dispatch_cases (sdk : Sdk) (cmd_id cmd : String) (iss : IStream) (w : World)
    (hid : cmd_id ≠ "") (hcmd : cmd ≠ "") :
    (∃ v, (∀ ticks, dispatch sdk cmd_id cmd iss w ticks = ⟨v, ticks, true⟩)
        ∧ OneTerminal cmd_id w v ∧ FlagStep w v)
    ∨ (cmd ∈ ["info", "monitor", "statistics", "fgstatistics", "logfiles", "readlog"]
        ∧ ∃ request cb, Callback.id? cb = some cmd_id ∧ ∀ ticks,
          dispatch sdk cmd_id cmd iss w ticks = cmd_single_shot cmd_id request cb w ticks)
    ∨ (cmd = "stream" ∧ ∃ interval_ms count, ∀ ticks,
        dispatch sdk cmd_id cmd iss w ticks
          = cmd_stream_monitor cmd_id interval_ms count w ticks) := by
  by_cases hsix : cmd ∈ ["info", "monitor", "statistics", "fgstatistics", "logfiles", "readlog"]
  · obtain ⟨request, cb, hcb, hd⟩ := dispatch_single_shot sdk cmd_id cmd iss hid hsix
    exact Or.inr (Or.inl ⟨hsix, request, cb, hcb, fun ticks => hd w ticks⟩)
  · by_cases hstream : cmd = "stream"
    · subst hstream
      exact Or.inr (Or.inr ⟨rfl, _, _, fun ticks => by simp [dispatch, hid]; rfl⟩)
    · left
      simp only [List.mem_cons, List.mem_singleton, List.not_mem_nil, or_false, not_or] at hsix
      obtain ⟨h1, h2, h3, h4, h5, h6⟩ := hsix
      unfold dispatch
      simp only [hid, hcmd, h1, h2, h3, h4, h5, h6, hstream, or_self, if_false]
      split_ifs
      · exact ⟨_, fun _ => rfl, ⟨_, rfl, rfl, rfl⟩, rfl, Or.inl ⟨rfl, rfl⟩⟩
      · exact ⟨_, fun _ => rfl, cmd_parse_url_one sdk cmd_id _ w⟩
      · exact ⟨_, fun _ => rfl, cmd_connect_one sdk cmd_id _ w⟩
      · exact ⟨_, fun _ => rfl, cmd_disconnect_one cmd_id w⟩
      · exact ⟨_, fun _ => rfl, ⟨_, rfl, rfl, rfl⟩, rfl, Or.inl ⟨rfl, rfl⟩⟩
      · exact ⟨_, fun _ => rfl, ⟨_, rfl, rfl, rfl⟩, rfl, Or.inl ⟨rfl, rfl⟩⟩
      · exact ⟨_, fun _ => rfl, ⟨_, rfl, rfl, rfl⟩, rfl, Or.inl ⟨rfl, rfl⟩⟩

theorem filter_terminal_events {l : List Msg} (h : ∀ m ∈ l, m.isEvent = true) :
    l.filter Msg.isTerminal = [] := by
  rw [List.filter_eq_nil_iff]
  intro m hm
  have := h m hm
  cases m <;> simp_all [Msg.isEvent, Msg.isTerminal]

theorem account_of_one {cmd_id : String} {w v : World} (ticks : List Tick)
    (h : OneTerminal cmd_id w v) : Account cmd_id w ⟨v, ticks, true⟩ := by
  obtain ⟨m, hout, ht, hi⟩ := h
  refine ⟨[m], hout, ?_, ?_, ?_⟩
  · intro x hx; rw [List.mem_singleton.mp hx]; exact Or.inr ⟨ht, hi⟩
  · simp [List.filter, ht]
  · intro _; simp [List.filter, ht]

theorem deliver_no_signal (w : World) (e : Async) (he : (!Async.isSignal e) = true)
    (h : w.should_exit = false) : (w.deliver e).should_exit = false := by
  rw [deliver_should_exit, h]
  simpa using he

theorem cmd_single_shot_account (cmd_id : String) (request : SdkCall) (cb : Callback)
    (hcb : cb.id? = some cmd_id) (w : World) (ticks : List Tick)
    (hs : w.should_exit = false)
    (hnosig : Schedule.all (fun e => !Async.isSignal e) ticks) :
    Account cmd_id w (cmd_single_shot cmd_id request cb w ticks) := by
  unfold cmd_single_shot
  split
  · exact account_of_one ticks ⟨_, rfl, rfl, rfl⟩
  · have h0 : Tracks w.out cmd_id 1 ((w.call request).register cb) := by
      refine ⟨?_, [], by simp [World.register, World.call], ?_,
        by simp [World.owed, World.register, hcb]⟩
      · intro cb' h'
        simp only [World.register, Option.some.injEq] at h'
        subst h'; exact Or.inr hcb
      · intro m hm; cases hm
    have h := wait_done_inv (fun v => Tracks w.out cmd_id 1 v ∧ v.should_exit = false)
      (fun e => !Async.isSignal e)
      (fun v e he hv => ⟨deliver_tracks _ _ _ v e hv.1, deliver_no_signal v e he hv.2⟩)
      ticks _ hnosig ⟨h0, hs⟩
    obtain ⟨⟨_, l, hout, hl, hk⟩, hs'⟩ := h
    refine ⟨l, hout, hl, by omega, ?_⟩
    intro hr
    rcases wait_done_exit ticks _ hr with hp | hx
    · simp only [World.owed, hp] at hk
      omega
    · rw [hs'] at hx; cases hx

/-- A stream that has not returned has written events only. -/
theorem stream_loop_tracks_blocked (cmd_id : String) (interval_ms count : Int)
    (base : List Msg) :
    ∀ (fuel : Nat) (samples : Int) (w : World) (ticks : List Tick),
      Tracks base cmd_id 0 w →
      (stream_loop cmd_id interval_ms count fuel samples w ticks).returned = false →
      Tracks base cmd_id 0 (stream_loop cmd_id interval_ms count fuel samples w ticks).world := by
  intro fuel
  induction fuel with
  | zero => intro _ _ _ ht _; simpa [stream_loop] using ht
  | succ fuel ih =>
      intro samples w ticks ht hr
      cases hc : stream_continues count samples w with
      | false => rw [stream_loop_exit _ _ _ _ _ _ _ hc] at hr; cases hr
      | true =>
          rw [stream_loop_run _ _ _ _ _ _ _ hc] at hr ⊢
          have hb : Tracks base cmd_id 0 (stream_body interval_ms count samples w ticks).world := by
            refine stream_body_inv (Tracks base cmd_id 0) (fun _ => true)
              (fun w e _ h => deliver_tracks base cmd_id 0 w e h) _ _ _ w ticks
              (fun _ _ _ _ => rfl) ?_
            obtain ⟨_, l, hout, hl, hk⟩ := ht
            refine ⟨?_, l, hout, hl, ?_⟩
            · intro cb h
              simp only [World.register, Option.some.injEq] at h
              subst h; exact Or.inl rfl
            · have h0 : (l.filter Msg.isTerminal).length = 0 := by omega
              simp [World.owed, World.register, Callback.id?, h0]
          cases hbr : (stream_body interval_ms count samples w ticks).returned with
          | false => simpa [hbr] using hb
          | true =>
              simp only [hbr, if_true] at hr ⊢
              exact ih _ _ _ hb hr

theorem cmd_stream_monitor_account (cmd_id : String) (interval_ms count : Int) (w : World)
    (ticks : List Tick) (hp : w.pending = none) :
    Account cmd_id w (cmd_stream_monitor cmd_id interval_ms count w ticks) := by
  unfold cmd_stream_monitor
  split
  · exact account_of_one ticks ⟨_, rfl, rfl, rfl⟩
  · cases hr : (stream_loop cmd_id interval_ms count (ticks.length + 1) 0 w ticks).returned with
    | true =>
        obtain ⟨l, hout, hl⟩ := stream_loop_tracks cmd_id interval_ms count w.out _ _ w ticks
          (tracks_start w cmd_id hp) hr
        have hf : (l ++ [Msg.result cmd_id true 0 none]).filter Msg.isTerminal
            = [Msg.result cmd_id true 0 none] := by
          rw [List.filter_append, filter_terminal_events hl]; rfl
        refine ⟨l ++ [Msg.result cmd_id true 0 none], by rw [hout, List.append_assoc], ?_,
          by rw [hf]; simp, fun _ => by rw [hf]; simp⟩
        intro m hm
        rcases List.mem_append.mp hm with h | h
        · exact Or.inl (hl m h)
        · rw [List.mem_singleton.mp h]; exact Or.inr ⟨rfl, rfl⟩
    | false =>
        obtain ⟨_, l, hout, hl, hk⟩ := stream_loop_tracks_blocked cmd_id interval_ms count w.out
          _ _ w ticks (tracks_start w cmd_id hp) hr
        exact ⟨l, hout, hl, by omega, fun h => by rw [hr] at h; cases h⟩

/-- An invariant of the events, of issuing the request and of writing the
Result is an invariant of the stream. -/
theorem stream_loop_inv (P : World → Prop) (p : Async → Bool)
    (hstep : ∀ w e, p e = true → P w → P (w.deliver e))
    (hreg : ∀ w, P w → P ((w.call .requestGetMonitorData).register .stream_monitor))
    (cmd_id : String) (hres : ∀ w, P w → P (output_result cmd_id true 0 none w))
    (interval_ms count : Int) :
    ∀ (fuel : Nat) (samples : Int) (w : World) (ticks : List Tick),
      Schedule.all p ticks → P w →
      P (stream_loop cmd_id interval_ms count fuel samples w ticks).world := by
  intro fuel
  induction fuel with
  | zero => intro _ _ _ _ h; simpa [stream_loop] using h
  | succ fuel ih =>
      intro samples w ticks hall h
      cases hc : stream_continues count samples w with
      | false => rw [stream_loop_exit _ _ _ _ _ _ _ hc]; exact hres w h
      | true =>
          rw [stream_loop_run _ _ _ _ _ _ _ hc]
          have hb := stream_body_inv P p hstep interval_ms count samples w ticks hall (hreg w h)
          split
          · exact ih _ _ _ (Schedule.all_suffix (stream_body_rest _ _ _ _ _) hall) hb
          · exact hb

theorem State.allowed_refl (s : State) : State.allowed s s = true := by
  cases s <;> rfl

theorem state_eq_of_flags {w v : World} (hc : v.connected = w.connected)
    (hg : v.connecting = w.connecting) : v.state = w.state := by
  simp [World.state, hc, hg]

/-- Without notifications a handler leaves the flags alone, unless it is a
`connect` that sets `connecting` from Disconnected. -/
theorem dispatch_flags (sdk : Sdk) (cmd_id cmd : String) (iss : IStream) (w : World)
    (ticks : List Tick)
    (hquiet : Schedule.all (fun e => !Async.isNotification e) ticks) :
    State.allowed w.state (dispatch sdk cmd_id cmd iss w ticks).world.state = true := by
  have keep : ∀ v : World, v.connected = w.connected ∧ v.connecting = w.connecting →
      State.allowed w.state v.state = true := by
    intro v hv
    rw [state_eq_of_flags hv.1 hv.2]
    exact State.allowed_refl _
  have hstep : ∀ (v : World) (e : Async), (!Async.isNotification e) = true →
      (v.connected = w.connected ∧ v.connecting = w.connecting) →
      ((v.deliver e).connected = w.connected ∧ (v.deliver e).connecting = w.connecting) := by
    intro v e he hv
    have := deliver_flags v e (by simpa using he)
    exact ⟨this.1.trans hv.1, this.2.trans hv.2⟩
  by_cases hid : cmd_id = ""
  · simp only [dispatch, hid, true_or, if_true]; exact State.allowed_refl _
  by_cases hcmd : cmd = ""
  · simp only [dispatch, hcmd, or_true, if_true]; exact State.allowed_refl _
  rcases dispatch_cases sdk cmd_id cmd iss w hid hcmd with
    ⟨v, hd, _, _, hf⟩ | ⟨_, request, cb, _, hd⟩ | ⟨_, interval_ms, count, hd⟩
  · rw [hd]
    rcases hf with h | ⟨h1, h2, h3, h4⟩
    · exact keep v h
    · simp [World.state, h1, h2, h3, h4, State.allowed]
  · rw [hd]
    unfold cmd_single_shot
    split
    · exact keep _ ⟨rfl, rfl⟩
    · exact keep _ (wait_done_inv _ _ hstep ticks _ hquiet ⟨rfl, rfl⟩)
  · rw [hd]
    unfold cmd_stream_monitor
    split
    · exact keep _ ⟨rfl, rfl⟩
    · exact keep _ (stream_loop_inv _ _ hstep (fun _ h => h) cmd_id (fun _ h => h)
        interval_ms count _ _ w ticks hquiet ⟨rfl, rfl⟩)

/-- An unbounded stream on a calm schedule never leaves its loop. -/
theorem stream_loop_unbounded (cmd_id : String) (interval_ms : Int) :
    ∀ (fuel : Nat) (samples : Int) (w : World) (ticks : List Tick),
      Schedule.all Async.isCalm ticks → (w.connected = true ∧ w.should_exit = false) →
      (stream_loop cmd_id interval_ms 0 fuel samples w ticks).returned = false := by
  intro fuel
  induction fuel with
  | zero => intro _ _ _ _ _; rfl
  | succ fuel ih =>
      intro samples w ticks hall hw
      rw [stream_loop_run _ _ _ _ _ _ _ (by simp [stream_continues, hw.1, hw.2])]
      have hb := stream_body_inv (fun w => w.connected = true ∧ w.should_exit = false)
        Async.isCalm deliver_calm_flags interval_ms 0 samples w ticks hall hw
      cases hr : (stream_body interval_ms 0 samples w ticks).returned with
      | false => simp [hr]
      | true =>
          simp only [if_true]
          exact ih _ _ _ (Schedule.all_suffix (stream_body_rest _ _ _ _ _) hall) hb

/-! ## Lemmas on answered requests -/

/-- A poll with a request outstanding sleeps through idle ticks and takes the
tick that brings the response. -/
theorem wait_done_after_idle (k : Nat) (w : World) (cb : Callback) (r : Reply)
    (rest : List Tick) (hp : w.pending = some cb) (hs : w.should_exit = false) :
    wait_done w (List.replicate k [] ++ [Async.response r] :: rest)
      = ⟨{ cb.invoke r w with pending := none }, rest, true⟩ := by
  induction k with
  | zero =>
      rw [List.replicate_zero, List.nil_append,
        wait_done_prompt w _ rest cb hp hs
          ⟨Async.response r, List.mem_singleton.mpr rfl, rfl⟩]
      simp [World.usleep, World.deliver, hp]
  | succ k ih =>
      rw [List.replicate_succ, List.cons_append, wait_done]
      simp only [hp, hs, Option.isSome_some, Bool.not_false, Bool.and_self, if_true]
      exact ih

/-- A single-shot handler issued while Connected and answered after `k` idle
sleeps: the request is logged, the callback body has run, nothing is
outstanding. -/
theorem cmd_single_shot_answered (cmd_id : String) (request : SdkCall) (cb : Callback)
    (w : World) (k : Nat) (r : Reply) (rest : List Tick)
    (hc : w.connected = true) (hs : w.should_exit = false) :
    cmd_single_shot cmd_id request cb w (List.replicate k [] ++ [Async.response r] :: rest)
      = ⟨{ cb.invoke r ((w.call request).register cb) with pending := none }, rest, true⟩ := by
  unfold cmd_single_shot
  simp only [hc, Bool.not_true, Bool.false_eq_true, if_false]
  exact wait_done_after_idle k _ cb r rest rfl hs


/-- The same for a callback that writes the payload text on success and the
bare code otherwise. -/
theorem cmd_single_shot_json (cmd_id : String) (request : SdkCall) (cb : Callback)
    (w : World) (k : Nat) (r : Reply) (rest : List Tick)
    (hc : w.connected = true) (hs : w.should_exit = false)
    (hcb : ∀ v, cb.invoke r v
      = if r.code = RSP_SUCCESS then output_result cmd_id true r.code (some r.json) v
        else output_result cmd_id false r.code none v) :
    cmd_single_shot cmd_id request cb w (List.replicate k [] ++ [Async.response r] :: rest)
      = ⟨{ w with
            pending := none,
            calls := w.calls ++ [request],
            out := w.out ++ [if r.code = RSP_SUCCESS
              then Msg.result cmd_id true r.code (some r.json)
              else Msg.result cmd_id false r.code none] }, rest, true⟩ := by
  rw [cmd_single_shot_answered _ _ _ w k r rest hc hs, hcb]
  split <;> rfl

/-! ## Lemmas on the hex encoding -/

set_option maxRecDepth 100000 in
theorem hex_lower_two : ∀ n < 256, (hex_lower 2 n).data = byte_digits n := by
  decide

theorem hex_val_digitChar : ∀ d < 16, hex_val (Nat.digitChar d) = some d := by
  decide

theorem range_map_getD (l : List Nat) :
    (List.range l.length).map (fun i => l.getD i 0) = l := by
  apply List.ext_getElem
  · simp
  · intro i h1 h2
    simp [List.getD_eq_getElem?_getD, List.getElem?_eq_getElem h2]

theorem foldl_append_data {α : Type} (f : α → String) (l : List α) (acc : String) :
    (l.foldl (fun ss b => ss ++ f b) acc).data = acc.data ++ l.flatMap (fun b => (f b).data) := by
  induction l generalizing acc with
  | nil => simp
  | cons b l ih => simp [ih, String.data_append, List.append_assoc]

/-- The text of a log read is a quote, two digits per byte, and a quote. -/
theorem log_bytes_to_json_data (bytes : List Nat) (hb : ∀ b ∈ bytes, b < 256) :
    (log_bytes_to_json bytes bytes.length).data
      = '"' :: bytes.flatMap byte_digits ++ ['"'] := by
  have h2 : bytes.flatMap (fun b => (hex_lower 2 b).data) = bytes.flatMap byte_digits := by
    induction bytes with
    | nil => rfl
    | cons b l ih =>
        simp only [List.flatMap_cons]
        rw [hex_lower_two b (hb b (List.mem_cons_self _ _)),
          ih (fun x hx => hb x (List.mem_cons_of_mem _ hx))]
  have h1 : (List.range bytes.length).foldl
        (fun ss i => ss ++ hex_lower 2 (bytes.getD i 0)) ""
      = bytes.foldl (fun ss b => ss ++ hex_lower 2 b) "" := by
    conv_rhs => rw [← range_map_getD bytes, List.foldl_map]
  unfold log_bytes_to_json
  rw [h1]
  simp only [String.data_append, foldl_append_data, h2]
  rfl

theorem hex_decode_digits (bytes : List Nat) (hb : ∀ b ∈ bytes, b < 256) :
    hex_decode (bytes.flatMap byte_digits) = some bytes := by
  induction bytes with
  | nil => simp [hex_decode]
  | cons b l ih =>
      have hlt := hb b (List.mem_cons_self _ _)
      have ih' := ih (fun x hx => hb x (List.mem_cons_of_mem _ hx))
      have hcons : (b :: l).flatMap byte_digits
          = Nat.digitChar (b / 16) :: Nat.digitChar (b % 16) :: l.flatMap byte_digits := by
        simp [List.flatMap_cons, byte_digits]
      rw [hcons, hex_decode, hex_val_digitChar _ (by omega),
        hex_val_digitChar _ (Nat.mod_lt _ (by decide)), ih']
      simp only [Option.some.injEq, List.cons.injEq, and_true]
      omega

theorem flatMap_byte_digits_length (bytes : List Nat) :
    (bytes.flatMap byte_digits).length = 2 * bytes.length := by
  induction bytes with
  | nil => rfl
  | cons b l ih => simp only [List.flatMap_cons, List.length_append, ih, byte_digits,
      List.length_cons, List.length_nil]; omega

theorem flatMap_byte_digits_get : ∀ (bytes : List Nat) (i : Nat) (h : i < bytes.length),
    (bytes.flatMap byte_digits)[2 * i]? = some (Nat.digitChar (bytes[i] / 16))
      ∧ (bytes.flatMap byte_digits)[2 * i + 1]? = some (Nat.digitChar (bytes[i] % 16)) := by
  intro bytes
  induction bytes with
  | nil => intro i h; simp at h
  | cons b l ih =>
      intro i h
      cases i with
      | zero => simp [byte_digits]
      | succ i =>
          have hi : i < l.length := by simpa using h
          have := ih i hi
          have e1 : 2 * (i + 1) = (2 * i) + 1 + 1 := by omega
          have e2 : 2 * (i + 1) + 1 = (2 * i + 1) + 1 + 1 := by omega
          simp only [List.flatMap_cons, byte_digits, List.cons_append, List.nil_append,
            List.getElem_cons_succ]
          rw [e2, e1]
          simpa [byte_digits] using this

/-! ## Lemmas on JSON escaping -/

theorem json_unescape_letter (x : Char) (tail : List Char) (hx : x ≠ 'u') :
    json_unescape ('\\' :: x :: tail)
      = match json_escape_letter x, json_unescape tail with
        | some y, some r => some (y :: r)
        | _, _ => none := by
  rw [json_unescape.eq_def]
  simp only [if_true, if_neg hx]

theorem json_unescape_hex (h1 h2 h3 h4 : Char) (tail : List Char) :
    json_unescape ('\\' :: 'u' :: h1 :: h2 :: h3 :: h4 :: tail)
      = match hex_val h1, hex_val h2, hex_val h3, hex_val h4, json_unescape tail with
        | some a, some b, some c, some d, some r =>
            if 0xD800 ≤ ((a * 16 + b) * 16 + c) * 16 + d
                ∧ ((a * 16 + b) * 16 + c) * 16 + d ≤ 0xDFFF then none
            else some (Char.ofNat (((a * 16 + b) * 16 + c) * 16 + d) :: r)
        | _, _, _, _, _ => none := by
  rw [json_unescape.eq_def]
  simp only [if_true]

theorem json_unescape_plain (c : Char) (rest : List Char)
    (h1 : c ≠ '\\') (h2 : c ≠ '"') (h3 : 32 ≤ c.toNat) :
    json_unescape (c :: rest) = (json_unescape rest).map (fun r => c :: r) := by
  rw [json_unescape.eq_def]
  have h4 : ¬ (c = '"' ∨ c.toNat < 0x20) := by
    intro h; rcases h with h | h
    · exact h2 h
    · omega
  simp only [if_neg h1, if_neg h4]
  cases json_unescape rest <;> rfl

theorem escape_json_string_data (s : String) :
    (escape_json_string s).data = s.data.flatMap (fun c => (escape_json_char c).data) := by
  unfold escape_json_string
  rw [String.toList, foldl_append_data]
  rfl

theorem hex_lower_four : ∀ n < 32,
    (hex_lower 4 n).data = ['0', '0', Nat.digitChar (n / 16), Nat.digitChar (n % 16)] := by
  decide

theorem escape_json_char_cases (c : Char) :
    (c = '"' ∧ (escape_json_char c).data = ['\\', '"'])
    ∨ (c = '\\' ∧ (escape_json_char c).data = ['\\', '\\'])
    ∨ (c = Char.ofNat 8 ∧ (escape_json_char c).data = ['\\', 'b'])
    ∨ (c = Char.ofNat 12 ∧ (escape_json_char c).data = ['\\', 'f'])
    ∨ (c = '\n' ∧ (escape_json_char c).data = ['\\', 'n'])
    ∨ (c = '\r' ∧ (escape_json_char c).data = ['\\', 'r'])
    ∨ (c = '\t' ∧ (escape_json_char c).data = ['\\', 't'])
    ∨ (c.toNat < 32 ∧ (escape_json_char c).data
        = ['\\', 'u', '0', '0', Nat.digitChar (c.toNat / 16), Nat.digitChar (c.toNat % 16)])
    ∨ (c ≠ '"' ∧ c ≠ '\\' ∧ 32 ≤ c.toNat ∧ (escape_json_char c).data = [c]) := by
  unfold escape_json_char
  by_cases h1 : c = '"'
  · left; exact ⟨h1, by rw [if_pos h1]⟩
  by_cases h2 : c = '\\'
  · right; left; exact ⟨h2, by rw [if_neg h1, if_pos h2]⟩
  by_cases h3 : c = Char.ofNat 8
  · right; right; left; exact ⟨h3, by rw [if_neg h1, if_neg h2, if_pos h3]⟩
  by_cases h4 : c = Char.ofNat 12
  · right; right; right; left
    exact ⟨h4, by rw [if_neg h1, if_neg h2, if_neg h3, if_pos h4]⟩
  by_cases h5 : c = '\n'
  · right; right; right; right; left
    exact ⟨h5, by rw [if_neg h1, if_neg h2, if_neg h3, if_neg h4, if_pos h5]⟩
  by_cases h6 : c = '\r'
  · right; right; right; right; right; left
    exact ⟨h6, by rw [if_neg h1, if_neg h2, if_neg h3, if_neg h4, if_neg h5, if_pos h6]⟩
  by_cases h7 : c = '\t'
  · right; right; right; right; right; right; left
    exact ⟨h7, by
      rw [if_neg h1, if_neg h2, if_neg h3, if_neg h4, if_neg h5, if_neg h6, if_pos h7]⟩
  by_cases h8 : c.toNat ≤ 0x1f
  · right; right; right; right; right; right; right; left
    have hlt : c.toNat < 32 := by omega
    refine ⟨hlt, ?_⟩
    rw [if_neg h1, if_neg h2, if_neg h3, if_neg h4, if_neg h5, if_neg h6, if_neg h7, if_pos h8,
      String.data_append, hex_lower_four _ hlt]
    rfl
  · right; right; right; right; right; right; right; right
    refine ⟨h1, h2, by omega, ?_⟩
    rw [if_neg h1, if_neg h2, if_neg h3, if_neg h4, if_neg h5, if_neg h6, if_neg h7, if_neg h8]
    rfl

theorem json_unescape_unit (c : Char) (rest : List Char) :
    json_unescape ((escape_json_char c).data ++ rest)
      = (json_unescape rest).map (fun r => c :: r) := by
  rcases escape_json_char_cases c with h | h | h | h | h | h | h | h | h
  · rw [h.2, h.1, List.cons_append, List.cons_append, List.nil_append,
      json_unescape_letter _ _ (by decide)]
    cases json_unescape rest <;> rfl
  · rw [h.2, h.1, List.cons_append, List.cons_append, List.nil_append,
      json_unescape_letter _ _ (by decide)]
    cases json_unescape rest <;> rfl
  · rw [h.2, h.1, List.cons_append, List.cons_append, List.nil_append,
      json_unescape_letter _ _ (by decide)]
    cases json_unescape rest <;> rfl
  · rw [h.2, h.1, List.cons_append, List.cons_append, List.nil_append,
      json_unescape_letter _ _ (by decide)]
    cases json_unescape rest <;> rfl
  · rw [h.2, h.1, List.cons_append, List.cons_append, List.nil_append,
      json_unescape_letter _ _ (by decide)]
    cases json_unescape rest <;> rfl
  · rw [h.2, h.1, List.cons_append, List.cons_append, List.nil_append,
      json_unescape_letter _ _ (by decide)]
    cases json_unescape rest <;> rfl
  · rw [h.2, h.1, List.cons_append, List.cons_append, List.nil_append,
      json_unescape_letter _ _ (by decide)]
    cases json_unescape rest <;> rfl
  · obtain ⟨hlt, hd⟩ := h
    have hq : c.toNat / 16 < 16 := by omega
    have hm : c.toNat % 16 < 16 := Nat.mod_lt _ (by decide)
    have hv : ((0 * 16 + 0) * 16 + c.toNat / 16) * 16 + c.toNat % 16 = c.toNat := by omega
    have h0 : hex_val '0' = some 0 := by decide
    rw [hd]
    simp only [List.cons_append, List.nil_append]
    rw [json_unescape_hex, h0, hex_val_digitChar _ hq, hex_val_digitChar _ hm]
    cases json_unescape rest with
    | none => rfl
    | some r =>
        simp only [hv, Option.map_some']
        rw [if_neg (by omega), Char.ofNat_toNat]
  · rw [h.2.2.2, List.cons_append, List.nil_append,
      json_unescape_plain c rest h.2.1 h.1 h.2.2.1]

theorem json_unescape_escape (l rest : List Char) :
    json_unescape (l.flatMap (fun c => (escape_json_char c).data) ++ rest)
      = (json_unescape rest).map (fun r => l ++ r) := by
  induction l with
  | nil => simp
  | cons c l ih =>
      rw [List.flatMap_cons, List.append_assoc, json_unescape_unit, ih]
      cases json_unescape rest <;> rfl

theorem escape_json_char_printable (c : Char) :
    ∀ x ∈ (escape_json_char c).data, 32 ≤ x.toNat := by
  have hd : ∀ d < 16, 32 ≤ (Nat.digitChar d).toNat := by decide
  rcases escape_json_char_cases c with h | h | h | h | h | h | h | h | h
  · rw [h.2]; decide
  · rw [h.2]; decide
  · rw [h.2]; decide
  · rw [h.2]; decide
  · rw [h.2]; decide
  · rw [h.2]; decide
  · rw [h.2]; decide
  · rw [h.2]
    intro x hx
    simp only [List.mem_cons, List.mem_singleton, List.not_mem_nil, or_false] at hx
    rcases hx with hx | hx | hx | hx | hx | hx
    · rw [hx]; decide
    · rw [hx]; decide
    · rw [hx]; decide
    · rw [hx]; decide
    · rw [hx]; exact hd _ (by omega)
    · rw [hx]; exact hd _ (Nat.mod_lt _ (by decide))
  · rw [h.2.2.2]
    intro x hx
    rw [List.mem_singleton.mp hx]
    exact h.2.2.1

theorem json_string_end_escaped (x : Char) (tail : List Char) :
    json_string_end ('\\' :: x :: tail)
      = (json_string_end tail).map (fun p => ('\\' :: x :: p.1, p.2)) := by
  rw [json_string_end.eq_def]
  simp only [if_neg (show ¬ '\\' = '"' by decide), if_true]
  cases json_string_end tail <;> rfl

theorem json_string_end_plain (c : Char) (rest : List Char) (h1 : c ≠ '"') (h2 : c ≠ '\\') :
    json_string_end (c :: rest) = (json_string_end rest).map (fun p => (c :: p.1, p.2)) := by
  rw [json_string_end.eq_def]
  simp only [if_neg h1, if_neg h2]
  cases json_string_end rest <;> rfl

theorem json_string_end_unit (c : Char) (rest : List Char) :
    json_string_end ((escape_json_char c).data ++ rest)
      = (json_string_end rest).map (fun p => ((escape_json_char c).data ++ p.1, p.2)) := by
  have hd : ∀ d < 16, Nat.digitChar d ≠ '"' ∧ Nat.digitChar d ≠ '\\' := by decide
  rcases escape_json_char_cases c with h | h | h | h | h | h | h | h | h
  · rw [h.2]; exact json_string_end_escaped _ _
  · rw [h.2]; exact json_string_end_escaped _ _
  · rw [h.2]; exact json_string_end_escaped _ _
  · rw [h.2]; exact json_string_end_escaped _ _
  · rw [h.2]; exact json_string_end_escaped _ _
  · rw [h.2]; exact json_string_end_escaped _ _
  · rw [h.2]; exact json_string_end_escaped _ _
  · obtain ⟨hlt, he⟩ := h
    have hq := hd (c.toNat / 16) (by omega)
    have hm := hd (c.toNat % 16) (Nat.mod_lt _ (by decide))
    rw [he]
    simp only [List.cons_append, List.nil_append]
    rw [json_string_end_escaped, json_string_end_plain _ _ (by decide) (by decide),
      json_string_end_plain _ _ (by decide) (by decide),
      json_string_end_plain _ _ hq.1 hq.2, json_string_end_plain _ _ hm.1 hm.2]
    cases json_string_end rest <;> rfl
  · rw [h.2.2.2]
    exact json_string_end_plain c rest h.1 h.2.1

theorem json_string_end_escape (l rest : List Char) :
    json_string_end (l.flatMap (fun c => (escape_json_char c).data) ++ '"' :: rest)
      = some (l.flatMap (fun c => (escape_json_char c).data), rest) := by
  induction l with
  | nil =>
      rw [List.flatMap_nil, List.nil_append, json_string_end.eq_def]
      simp only [if_true]
  | cons c l ih =>
      rw [List.flatMap_cons, List.append_assoc, json_string_end_unit, ih]
      rfl

theorem escape_json_string_plain (l : List Char)
    (h : ∀ c ∈ l, c ≠ '"' ∧ c ≠ '\\' ∧ 0x20 ≤ c.toNat) :
    l.flatMap (fun c => (escape_json_char c).data) = l := by
  induction l with
  | nil => rfl
  | cons c l ih =>
      have hc := h c (List.mem_cons_self c l)
      have hu : (escape_json_char c).data = [c] := by
        rcases escape_json_char_cases c with e | e | e | e | e | e | e | e | e
        · exact absurd e.1 hc.1
        · exact absurd e.1 hc.2.1
        · have := hc.2.2; rw [e.1] at this; exact absurd this (by decide)
        · have := hc.2.2; rw [e.1] at this; exact absurd this (by decide)
        · have := hc.2.2; rw [e.1] at this; exact absurd this (by decide)
        · have := hc.2.2; rw [e.1] at this; exact absurd this (by decide)
        · have := hc.2.2; rw [e.1] at this; exact absurd this (by decide)
        · have := hc.2.2; omega
        · exact e.2.2.2
      rw [List.flatMap_cons, hu, ih (fun x hx => h x (List.mem_cons_of_mem c hx))]
      rfl

/-! ## Lemmas on stream accounting -/

theorem deliver_held_flags (w : World) (e : Async) (he : e.isHeld = true)
    (h : w.connected = true ∧ w.should_exit = false) :
    (w.deliver e).connected = true ∧ (w.deliver e).should_exit = false := by
  obtain ⟨hc, hs⟩ := h
  cases e with
  | signal => simp [Async.isHeld] at he
  | onDisconnect r => simp [Async.isHeld] at he
  | onConnect => exact ⟨rfl, hs⟩
  | response r =>
      refine ⟨?_, ?_⟩
      · rw [(deliver_flags w (.response r) rfl).1]; exact hc
      · rw [deliver_should_exit, hs]; rfl

/-- The stream account is kept by every event: an answer with `RSP_SUCCESS`
turns the owed monitor event into a written one, any other answer drops it. -/
theorem deliver_sampling (base : List Msg) (calls0 : List SdkCall) (s : Nat) (w : World)
    (e : Async) (h : Sampling base calls0 s w) : Sampling base calls0 s (w.deliver e) := by
  obtain ⟨hp, hcalls, l, hout, hl, hk⟩ := h
  refine ⟨?_, by rw [deliver_calls]; exact hcalls, ?_⟩
  · rw [deliver_pending]
    split
    · exact Or.inl rfl
    · exact hp
  cases e with
  | signal => exact ⟨l, hout, hl, hk⟩
  | onConnect =>
      refine ⟨l ++ [Msg.event "connected" none], ?_, ?_, ?_⟩
      · simp [World.deliver, output_event, hout]
      · intro m hm
        rcases List.mem_append.mp hm with h | h
        · exact hl m h
        · rw [List.mem_singleton.mp h]; rfl
      · have : Msg.isMonitor (Msg.event "connected" none) = false := by decide
        simpa [World.deliver, output_event, World.owed_monitor, this] using hk
  | onDisconnect reason =>
      refine ⟨l ++ [Msg.event "disconnected"
        (some ("\"reason\":" ++ toString reason.toNat))], ?_, ?_, ?_⟩
      · simp [World.deliver, output_event, hout]
      · intro m hm
        rcases List.mem_append.mp hm with h | h
        · exact hl m h
        · rw [List.mem_singleton.mp h]; rfl
      · have : Msg.isMonitor (Msg.event "disconnected"
            (some ("\"reason\":" ++ toString reason.toNat))) = false := by
          simp [Msg.isMonitor]
        simpa [World.deliver, output_event, World.owed_monitor, this] using hk
  | response r =>
      rcases hp with hp | hp
      · have : w.deliver (.response r) = w := by simp [World.deliver, hp]
        rw [this]; exact ⟨l, hout, hl, hk⟩
      · by_cases hr : r.code = RSP_SUCCESS
        · refine ⟨l ++ [Msg.event "monitor" (some ("\"data\":" ++ r.json))], ?_, ?_, ?_⟩
          · simp [World.deliver, hp, Callback.invoke, hr, output_event, hout]
          · intro m hm
            rcases List.mem_append.mp hm with h | h
            · exact hl m h
            · rw [List.mem_singleton.mp h]; rfl
          · have : Msg.isMonitor (Msg.event "monitor" (some ("\"data\":" ++ r.json)))
                = true := by simp [Msg.isMonitor]
            simpa [World.deliver, hp, Callback.invoke, hr, output_event, World.owed_monitor,
              this] using hk
        · refine ⟨l, ?_, hl, ?_⟩
          · simp [World.deliver, hp, Callback.invoke, hr, hout]
          · have h0 : (w.deliver (.response r)).owed_monitor = 0 := by
              simp [World.deliver, hp, Callback.invoke, hr, World.owed_monitor]
            rw [h0]; omega

/-- Issuing the next data request with nothing outstanding moves the account
from `s` to `s + 1` requests. -/
theorem sampling_request (base : List Msg) (calls0 : List SdkCall) (s : Nat) (w : World)
    (hp : w.pending = none) (h : Sampling base calls0 s w) :
    Sampling base calls0 (s + 1)
      ((w.call .requestGetMonitorData).register .stream_monitor) := by
  obtain ⟨_, hcalls, l, hout, hl, hk⟩ := h
  refine ⟨Or.inr rfl, ?_, l, hout, hl, ?_⟩
  · simp [World.call, World.register, hcalls, List.replicate_succ', List.append_assoc]
  · have h0 : w.owed_monitor = 0 := by simp [World.owed_monitor, hp]
    have h1 : ((w.call .requestGetMonitorData).register .stream_monitor).owed_monitor = 1 := by
      simp [World.owed_monitor, World.register]
    rw [h1]; rw [h0] at hk; omega

theorem wait_interval_idle (n : Int) : ∀ (m : Nat) (i : Int) (w : World) (rest : List Tick),
    w.should_exit = false → (n - i).toNat = m →
    wait_interval n i w (List.replicate m [] ++ rest) = ⟨w, rest, true⟩ := by
  intro m
  induction m with
  | zero =>
      intro i w rest _ hm
      have hi : ¬ i < n := by omega
      rw [List.replicate_zero, List.nil_append]
      cases rest <;> simp [wait_interval, hi]
  | succ m ih =>
      intro i w rest hs hm
      have hi : i < n := by omega
      rw [List.replicate_succ, List.cons_append, wait_interval]
      simp only [hi, hs, decide_True, Bool.not_false, Bool.and_self, if_true, usleep_nil]
      exact ih (i + 1) w rest hs (by omega)

/-- The state after one sample of a stream: the request is logged and a
monitor event is written when the answer is `RSP_SUCCESS`. -/
theorem stream_sample_world (w : World) (r : Reply) :
    ({ Callback.invoke .stream_monitor r
          ((w.call .requestGetMonitorData).register .stream_monitor) with pending := none }
        : World)
      = { w with
          pending := none,
          calls := w.calls ++ [SdkCall.requestGetMonitorData],
          out := w.out ++ monitor_events [(0, r)] } := by
  by_cases hr : r.code = RSP_SUCCESS
  · simp [Callback.invoke, hr, output_event, World.call, World.register, monitor_events,
      monitor_event]
  · simp [Callback.invoke, hr, World.call, World.register, monitor_events]

/-- One pass of the loop body when the answer arrives after `k` idle sleeps. -/
theorem stream_body_answered (interval_ms count samples : Int) (w : World) (k : Nat)
    (r : Reply) (tail : List Tick) (hs : w.should_exit = false) :
    stream_body interval_ms count samples w (List.replicate k [] ++ [Async.response r] :: tail)
      = if count = 0 ∨ samples + 1 < count then
          wait_interval (Int.tdiv interval_ms 10) 0
            { w with
              pending := none,
              calls := w.calls ++ [SdkCall.requestGetMonitorData],
              out := w.out ++ monitor_events [(0, r)] } tail
        else
          ⟨{ w with
              pending := none,
              calls := w.calls ++ [SdkCall.requestGetMonitorData],
              out := w.out ++ monitor_events [(0, r)] }, tail, true⟩ := by
  unfold stream_body
  rw [wait_done_after_idle k ((w.call .requestGetMonitorData).register .stream_monitor)
    .stream_monitor r tail rfl hs, stream_sample_world]
  by_cases h : count = 0 ∨ samples + 1 < count
  · rcases h with h | h <;> simp [h]
  · have h1 : ¬ count = 0 := fun e => h (Or.inl e)
    have h2 : ¬ samples + 1 < count := fun e => h (Or.inr e)
    simp [h1, h2]
theorem stream_schedule_cons (interval_ms : Int) (a : Nat × Reply) (rs : List (Nat × Reply))
    (rest : List Tick) :
    stream_schedule interval_ms (a :: rs) ++ rest
      = List.replicate a.1 [] ++ [Async.response a.2]
          :: (List.replicate (interval_ticks interval_ms) []
              ++ (stream_schedule interval_ms rs ++ rest)) := by
  simp [stream_schedule, List.flatMap_cons, List.append_assoc]

theorem monitor_events_cons (a : Nat × Reply) (rs : List (Nat × Reply)) :
    monitor_events (a :: rs) = monitor_events [(0, a.2)] ++ monitor_events rs := by
  by_cases h : a.2.code = RSP_SUCCESS <;> simp [monitor_events, List.filter, h]

theorem monitor_events_nil : monitor_events [] = [] := rfl

theorem stream_continues_held (count samples : Int) (w : World)
    (hc : w.connected = true) (hs : w.should_exit = false) :
    stream_continues count samples w = (count == 0 || decide (samples < count)) := by
  simp [stream_continues, hc, hs]

/-- A stream with count `n > 0` whose requests are answered one by one: it
issues one request per answer, writes one monitor event per answer with
`RSP_SUCCESS`, then the Result, and does not wait after the last sample. -/
theorem stream_loop_answered (cmd_id : String) (interval_ms : Int) (n : Nat)
    (rest : List Tick) :
    ∀ (rs : List (Nat × Reply)) (a : Nat × Reply) (fuel s : Nat) (w : World),
      w.connected = true → w.should_exit = false →
      s + rs.length + 1 = n → rs.length + 1 < fuel →
      stream_loop cmd_id interval_ms n fuel s w
          (stream_schedule interval_ms (a :: rs) ++ rest)
        = ⟨{ w with
              pending := none,
              calls := w.calls ++ List.replicate (rs.length + 1) SdkCall.requestGetMonitorData,
              out := w.out ++ monitor_events (a :: rs) ++ [Msg.result cmd_id true 0 none] },
            List.replicate (interval_ticks interval_ms) [] ++ rest, true⟩ := by
  intro rs
  induction rs with
  | nil =>
      intro a fuel s w hc hs hn hf
      obtain ⟨f, rfl⟩ : ∃ f, fuel = f + 2 := ⟨fuel - 2, by simp at hf; omega⟩
      have hn0 : ¬ ((n : Int) = 0) := by simp at hn; omega
      have hlt : ((s : Int) < (n : Int)) := by simp at hn; omega
      have hge : ¬ ((s : Int) + 1 < (n : Int)) := by simp at hn; omega
      have hcont : stream_continues n s w = true := by
        rw [stream_continues_held _ _ _ hc hs]; simp [hlt]
      rw [stream_loop_run _ _ _ _ _ _ _ hcont, stream_schedule_cons,
        stream_body_answered _ _ _ _ _ _ _ hs]
      simp only [hn0, hge, or_self, if_false, if_true]
      rw [stream_loop_exit]
      · simp [output_result, stream_schedule, monitor_events_cons a [], monitor_events_nil]
      · simp [stream_continues, hc, hs, hn0, hge]
  | cons b rs ih =>
      intro a fuel s w hc hs hn hf
      obtain ⟨f, rfl⟩ : ∃ f, fuel = f + 1 := ⟨fuel - 1, by omega⟩
      have hlt : ((s : Int) < (n : Int)) := by simp at hn; omega
      have hlt2 : ((s : Int) + 1 < (n : Int)) := by simp at hn; omega
      have hcont : stream_continues n s w = true := by
        rw [stream_continues_held _ _ _ hc hs]; simp [hlt]
      rw [stream_loop_run _ _ _ _ _ _ _ hcont, stream_schedule_cons,
        stream_body_answered _ _ _ _ _ _ _ hs]
      simp only [hlt2, or_true, if_true]
      rw [wait_interval_idle (Int.tdiv interval_ms 10) (interval_ticks interval_ms) 0]
      · simp only [if_true]
        have hcast : ((s : Int) + 1) = ((s + 1 : Nat) : Int) := by push_cast; rfl
        rw [hcast, ih b f (s + 1)]
        · simp [monitor_events_cons a (b :: rs), List.replicate_succ, List.append_assoc]
        · exact hc
        · exact hs
        · simp at hn ⊢; omega
        · simp at hf ⊢; omega
      · exact hs
      · simp [interval_ticks]

/-- A stream with count 0 whose requests are answered one by one: after the
last answer and its wait the next request is issued, and the handler is still
waiting for its answer, no terminal message written. -/
theorem stream_loop_unbounded_answered (cmd_id : String) (interval_ms : Int) :
    ∀ (rs : List (Nat × Reply)) (fuel : Nat) (samples : Int) (w : World),
      w.connected = true → w.should_exit = false → rs.length < fuel →
      stream_loop cmd_id interval_ms 0 fuel samples w (stream_schedule interval_ms rs)
        = ⟨{ w with
              pending := some .stream_monitor,
              calls := w.calls ++ List.replicate (rs.length + 1) SdkCall.requestGetMonitorData,
              out := w.out ++ monitor_events rs }, [], false⟩ := by
  intro rs
  induction rs with
  | nil =>
      intro fuel samples w hc hs hf
      obtain ⟨f, rfl⟩ : ∃ f, fuel = f + 1 := ⟨fuel - 1, by simp at hf; omega⟩
      have hcont : stream_continues 0 samples w = true := by
        rw [stream_continues_held _ _ _ hc hs]; simp
      rw [stream_loop_run _ _ _ _ _ _ _ hcont]
      simp [stream_schedule, stream_body, wait_done, World.register, World.call, hs,
        monitor_events]
  | cons a rs ih =>
      intro fuel samples w hc hs hf
      obtain ⟨f, rfl⟩ : ∃ f, fuel = f + 1 := ⟨fuel - 1, by simp at hf; omega⟩
      have hcont : stream_continues 0 samples w = true := by
        rw [stream_continues_held _ _ _ hc hs]; simp
      have hsched := stream_schedule_cons interval_ms a rs []
      simp only [List.append_nil] at hsched
      rw [stream_loop_run _ _ _ _ _ _ _ hcont, hsched,
        stream_body_answered _ _ _ _ _ _ _ hs]
      simp only [true_or, if_true]
      rw [wait_interval_idle (Int.tdiv interval_ms 10) (interval_ticks interval_ms) 0]
      · simp only [if_true]
        rw [ih f (samples + 1)]
        · simp [monitor_events_cons a rs, List.replicate_succ, List.append_assoc]
        · exact hc
        · exact hs
        · simp at hf ⊢; omega
      · exact hs
      · simp [interval_ticks]
/-- The stream loop with count `n > 0` under a schedule that holds the
connection and raises no shutdown: if it returns, it has issued `n - s`
further requests, and the log holds events, at most one monitor event per
request, and then the Result. -/
theorem stream_loop_held (cmd_id : String) (interval_ms : Int) (n : Nat) (base : List Msg)
    (calls0 : List SdkCall) (hn : 0 < n) :
    ∀ (fuel s : Nat) (w : World) (ticks : List Tick),
      Schedule.all Async.isHeld ticks → w.pending = none →
      (Sampling base calls0 s w ∧ w.connected = true ∧ w.should_exit = false) → s ≤ n →
      (stream_loop cmd_id interval_ms n fuel s w ticks).returned = true →
      (stream_loop cmd_id interval_ms n fuel s w ticks).world.calls
          = calls0 ++ List.replicate n SdkCall.requestGetMonitorData
        ∧ ∃ l, (stream_loop cmd_id interval_ms n fuel s w ticks).world.out
              = base ++ l ++ [Msg.result cmd_id true 0 none]
          ∧ (∀ m ∈ l, m.isEvent = true)
          ∧ (l.filter Msg.isMonitor).length ≤ n := by
  intro fuel
  induction fuel with
  | zero => intro s w ticks _ _ _ _ hr; simp [stream_loop] at hr
  | succ fuel ih =>
      intro s w ticks hall hpend hinv hsn hr
      obtain ⟨hst, hc, hs⟩ := hinv
      by_cases hlt : s < n
      · have hlt' : ((s : Int) < (n : Int)) := by exact_mod_cast hlt
        have hcont : stream_continues n s w = true := by
          simp [stream_continues, hs, hc, hlt']
        rw [stream_loop_run _ _ _ _ _ _ _ hcont] at hr ⊢
        have hb := stream_body_inv
          (fun w => Sampling base calls0 (s + 1) w ∧ w.connected = true ∧ w.should_exit = false)
          Async.isHeld
          (fun w e he h => ⟨deliver_sampling base calls0 (s + 1) w e h.1,
            deliver_held_flags w e he h.2⟩)
          interval_ms n s w ticks hall ⟨sampling_request base calls0 s w hpend hst, hc, hs⟩
        have hrest := stream_body_rest interval_ms n s w ticks
        cases hret : (stream_body interval_ms n s w ticks).returned with
        | false => simp [hret] at hr
        | true =>
            simp only [hret, if_true] at hr ⊢
            have hp : (stream_body interval_ms n s w ticks).world.pending = none := by
              rcases stream_body_exit interval_ms n s w ticks hret with h | h
              · exact h
              · rw [hb.2.2] at h; cases h
            have hcast : ((s : Int) + 1) = ((s + 1 : Nat) : Int) := by push_cast; rfl
            rw [hcast] at hr ⊢
            exact ih (s + 1) _ _ (Schedule.all_suffix hrest hall) hp hb (by omega) hr
      · have hge : ¬ ((s : Int) < (n : Int)) := by exact_mod_cast hlt
        have hn0 : ¬ ((n : Int) = 0) := by
          simp only [Nat.cast_eq_zero]; omega
        have hcont : stream_continues n s w = false := by
          simp [stream_continues, hs, hc, hge, hn0]
        rw [stream_loop_exit _ _ _ _ _ _ _ hcont]
        obtain ⟨_, hcalls, l, hout, hl, hk⟩ := hst
        have hsn' : s = n := by omega
        refine ⟨by simp [output_result, hcalls, hsn'], l, by simp [output_result, hout], hl, ?_⟩
        omega

/-- The stream loop with count 0 under a schedule that holds the connection
and raises no shutdown is never left, and writes events only. -/
theorem stream_loop_unbounded_held (cmd_id : String) (interval_ms : Int) (base : List Msg)
    (calls0 : List SdkCall) :
    ∀ (fuel : Nat) (samples : Int) (s : Nat) (w : World) (ticks : List Tick),
      Schedule.all Async.isHeld ticks → w.pending = none →
      (Sampling base calls0 s w ∧ w.connected = true ∧ w.should_exit = false) →
      (stream_loop cmd_id interval_ms 0 fuel samples w ticks).returned = false
        ∧ ∃ s', Sampling base calls0 s'
            (stream_loop cmd_id interval_ms 0 fuel samples w ticks).world := by
  intro fuel
  induction fuel with
  | zero => intro samples s w ticks _ _ h; exact ⟨rfl, s, h.1⟩
  | succ fuel ih =>
      intro samples s w ticks hall hpend hinv
      obtain ⟨hst, hc, hs⟩ := hinv
      have hcont : stream_continues 0 samples w = true := by
        simp [stream_continues, hs, hc]
      rw [stream_loop_run _ _ _ _ _ _ _ hcont]
      have hb := stream_body_inv
        (fun w => Sampling base calls0 (s + 1) w ∧ w.connected = true ∧ w.should_exit = false)
        Async.isHeld
        (fun w e he h => ⟨deliver_sampling base calls0 (s + 1) w e h.1,
          deliver_held_flags w e he h.2⟩)
        interval_ms 0 samples w ticks hall ⟨sampling_request base calls0 s w hpend hst, hc, hs⟩
      have hrest := stream_body_rest interval_ms 0 samples w ticks
      cases hret : (stream_body interval_ms 0 samples w ticks).returned with
      | false => simp only [Bool.false_eq_true, if_false]; exact ⟨hret, s + 1, hb.1⟩
      | true =>
          simp only [if_true]
          have hp : (stream_body interval_ms 0 samples w ticks).world.pending = none := by
            rcases stream_body_exit interval_ms 0 samples w ticks hret with h | h
            · exact h
            · rw [hb.2.2] at h; cases h
          exact ih (samples + 1) (s + 1) _ _ (Schedule.all_suffix hrest hall) hp hb

/-- A stream loop with count 0 is left only with shutdown raised or the
connection lost. -/
theorem stream_loop_unbounded_exit (cmd_id : String) (interval_ms : Int) :
    ∀ (fuel : Nat) (samples : Int) (w : World) (ticks : List Tick),
      (stream_loop cmd_id interval_ms 0 fuel samples w ticks).returned = true →
      (stream_loop cmd_id interval_ms 0 fuel samples w ticks).world.should_exit = true
        ∨ (stream_loop cmd_id interval_ms 0 fuel samples w ticks).world.connected = false := by
  intro fuel
  induction fuel with
  | zero => intro samples w ticks hr; simp [stream_loop] at hr
  | succ fuel ih =>
      intro samples w ticks hr
      cases hcont : stream_continues 0 samples w with
      | true =>
          rw [stream_loop_run _ _ _ _ _ _ _ hcont] at hr ⊢
          cases hret : (stream_body interval_ms 0 samples w ticks).returned with
          | false => simp [hret] at hr
          | true =>
              simp only [hret, if_true] at hr ⊢
              exact ih _ _ _ hr
      | false =>
          rw [stream_loop_exit _ _ _ _ _ _ _ hcont]
          cases hs : w.should_exit <;> cases hc : w.connected <;>
            simp [stream_continues, hs, hc, output_result] at hcont ⊢

/-! ## Lemmas on cancellation during the inter-sample wait -/

/-- A signal during a sleep of the inter-sample wait ends the wait with that
sleep. -/
theorem wait_interval_signal (n i : Int) (w : World) (t : Tick) (ts : List Tick)
    (hi : i < n) (hs : w.should_exit = false) (ht : ∃ e ∈ t, e.isSignal = true) :
    wait_interval n i w (t :: ts) = ⟨w.usleep t, ts, true⟩ := by
  have hx := usleep_signal t w ht
  rw [wait_interval]
  simp only [hi, hs, decide_True, Bool.not_false, Bool.and_self, if_true]
  cases ts <;> simp [wait_interval, hx]

theorem usleep_no_signal (t : Tick) (w : World) (ht : ∀ e ∈ t, (!Async.isSignal e) = true)
    (hs : w.should_exit = false) : (w.usleep t).should_exit = false :=
  usleep_inv (fun w => w.should_exit = false) (fun e => !Async.isSignal e)
    deliver_no_signal t w ht hs

/-- Without a signal the inter-sample wait sleeps through the whole interval,
whatever happens to the connection meanwhile. -/
theorem wait_interval_full (n : Int) : ∀ (ticks : List Tick) (i : Int) (w : World),
    Schedule.all (fun e => !Async.isSignal e) ticks → w.should_exit = false →
    (n - i).toNat ≤ ticks.length →
    wait_interval n i w ticks
      = ⟨(ticks.take (n - i).toNat).foldl World.usleep w, ticks.drop (n - i).toNat, true⟩ := by
  intro ticks
  induction ticks with
  | nil =>
      intro i w _ _ hlen
      have : ¬ (i < n) := by simp at hlen; omega
      simp [wait_interval, this]
  | cons t ts ih =>
      intro i w hall hs hlen
      rw [wait_interval]
      by_cases hlt : i < n
      · simp only [hlt, hs, decide_True, Bool.not_false, Bool.and_self, if_true]
        have hs' := usleep_no_signal t w (hall t (List.mem_cons_self _ _)) hs
        rw [ih (i + 1) (w.usleep t) (fun t' h' => hall t' (List.mem_cons_of_mem _ h')) hs'
          (by simp only [List.length_cons] at hlen; omega)]
        have hsucc : (n - i).toNat = (n - (i + 1)).toNat + 1 := by omega
        rw [hsucc, List.take_succ_cons, List.drop_succ_cons, List.foldl_cons]
      · have h0 : (n - i).toNat = 0 := by omega
        simp [hlt, h0]

/-- Without a signal the inter-sample wait is not over before the interval is. -/
theorem wait_interval_short (n : Int) : ∀ (ticks : List Tick) (i : Int) (w : World),
    Schedule.all (fun e => !Async.isSignal e) ticks → w.should_exit = false →
    ticks.length < (n - i).toNat →
    (wait_interval n i w ticks).returned = false := by
  intro ticks
  induction ticks with
  | nil =>
      intro i w _ hs hlen
      have : i < n := by simp at hlen; omega
      simp [wait_interval, this, hs]
  | cons t ts ih =>
      intro i w hall hs hlen
      have hlt : i < n := by omega
      rw [wait_interval]
      simp only [hlt, hs, decide_True, Bool.not_false, Bool.and_self, if_true]
      exact ih (i + 1) (w.usleep t) (fun t' h' => hall t' (List.mem_cons_of_mem _ h'))
        (usleep_no_signal t w (hall t (List.mem_cons_self _ _)) hs)
        (by simp only [List.length_cons] at hlen; omega)

/-! ## Lemmas on outstanding requests -/

theorem request_count_append (a b : List SdkCall) :
    request_count (a ++ b) = request_count a + request_count b := by
  simp [request_count, List.filter_append]

theorem request_count_replicate (n : Nat) :
    request_count (List.replicate n SdkCall.requestGetMonitorData) = n := by
  induction n with
  | zero => rfl
  | succ n ih =>
      rw [List.replicate_succ, ← List.singleton_append, request_count_append, ih]
      simp [request_count, SdkCall.isRequest]; omega

/-- A single-shot handler logs its one request when connected, and no call
otherwise. -/
theorem cmd_single_shot_calls (cmd_id : String) (request : SdkCall) (cb : Callback)
    (w : World) (ticks : List Tick) :
    (cmd_single_shot cmd_id request cb w ticks).world.calls
      = if w.connected then w.calls ++ [request] else w.calls := by
  unfold cmd_single_shot
  cases hc : w.connected with
  | false => simp [output_error]
  | true =>
      simp only [Bool.not_true, Bool.false_eq_true, if_false, if_true]
      exact wait_done_inv (fun v => v.calls = w.calls ++ [request]) (fun _ => true)
        (fun v e _ h => (deliver_calls v e).trans h) ticks _ (fun _ _ _ _ => rfl) rfl

/-- When a single-shot handler returns, its request is answered or shutdown
is raised. -/
theorem cmd_single_shot_quiet (cmd_id : String) (request : SdkCall) (cb : Callback)
    (w : World) (ticks : List Tick) (hq : w.pending = none ∨ w.should_exit = true)
    (hr : (cmd_single_shot cmd_id request cb w ticks).returned = true) :
    (cmd_single_shot cmd_id request cb w ticks).world.pending = none
      ∨ (cmd_single_shot cmd_id request cb w ticks).world.should_exit = true := by
  unfold cmd_single_shot at hr ⊢
  cases hc : w.connected with
  | false => simpa [output_error] using hq
  | true =>
      simp only [hc, Bool.not_true, Bool.false_eq_true, if_false] at hr ⊢
      exact wait_done_exit ticks _ hr

/-- The requests a stream loop logs are one per loop test that succeeds. -/
theorem stream_loop_calls (cmd_id : String) (interval_ms count : Int) :
    ∀ (fuel : Nat) (samples : Int) (w : World) (ticks : List Tick),
      (stream_loop cmd_id interval_ms count fuel samples w ticks).world.calls
        = w.calls ++ List.replicate
            (stream_issue_points interval_ms count fuel samples w ticks).length
            SdkCall.requestGetMonitorData := by
  intro fuel
  induction fuel with
  | zero => intro samples w ticks; simp [stream_loop, stream_issue_points]
  | succ fuel ih =>
      intro samples w ticks
      cases hcont : stream_continues count samples w with
      | false =>
          rw [stream_loop_exit _ _ _ _ _ _ _ hcont]
          simp [stream_issue_points, hcont, output_result]
      | true =>
          rw [stream_loop_run _ _ _ _ _ _ _ hcont]
          have hb := stream_body_inv
            (fun v => v.calls = w.calls ++ [SdkCall.requestGetMonitorData]) (fun _ => true)
            (fun v e _ h => (deliver_calls v e).trans h)
            interval_ms count samples w ticks (fun _ _ _ _ => rfl) rfl
          rw [stream_issue_points]
          simp only [hcont, if_true]
          cases hret : (stream_body interval_ms count samples w ticks).returned with
          | false => simp [hb]
          | true =>
              simp only [if_true, Bool.not_true, Bool.false_eq_true, if_false]
              rw [ih, hb]
              simp [List.replicate_succ, List.append_assoc]

/-- Every request of a stream loop is issued with no request outstanding. -/
theorem stream_issue_points_pending (interval_ms count : Int) :
    ∀ (fuel : Nat) (samples : Int) (w : World) (ticks : List Tick),
      (w.pending = none ∨ w.should_exit = true) →
      ∀ u ∈ stream_issue_points interval_ms count fuel samples w ticks, u.pending = none := by
  intro fuel
  induction fuel with
  | zero => intro samples w ticks _ u hu; simp [stream_issue_points] at hu
  | succ fuel ih =>
      intro samples w ticks hq u hu
      rw [stream_issue_points] at hu
      cases hcont : stream_continues count samples w with
      | false => simp [hcont] at hu
      | true =>
          have hs : w.should_exit = false := by
            cases h : w.should_exit
            · rfl
            · simp [stream_continues, h] at hcont
          have hp : w.pending = none := by
            rcases hq with h | h
            · exact h
            · rw [hs] at h; cases h
          simp only [hcont, if_true, List.mem_cons] at hu
          rcases hu with hu | hu
          · rw [hu]; exact hp
          · cases hret : (stream_body interval_ms count samples w ticks).returned with
            | false => simp [hret] at hu
            | true =>
                simp only [hret, Bool.not_true, Bool.false_eq_true, if_false] at hu
                exact ih _ _ _ (stream_body_exit interval_ms count samples w ticks hret) u hu

/-- When a stream loop entered with nothing outstanding is left, nothing is
outstanding or shutdown is raised. -/
theorem stream_loop_quiet (cmd_id : String) (interval_ms count : Int) :
    ∀ (fuel : Nat) (samples : Int) (w : World) (ticks : List Tick),
      (w.pending = none ∨ w.should_exit = true) →
      (stream_loop cmd_id interval_ms count fuel samples w ticks).returned = true →
      (stream_loop cmd_id interval_ms count fuel samples w ticks).world.pending = none
        ∨ (stream_loop cmd_id interval_ms count fuel samples w ticks).world.should_exit
            = true := by
  intro fuel
  induction fuel with
  | zero => intro samples w ticks _ hr; simp [stream_loop] at hr
  | succ fuel ih =>
      intro samples w ticks hq hr
      cases hcont : stream_continues count samples w with
      | false =>
          rw [stream_loop_exit _ _ _ _ _ _ _ hcont]
          simpa [output_result] using hq
      | true =>
          rw [stream_loop_run _ _ _ _ _ _ _ hcont] at hr ⊢
          cases hret : (stream_body interval_ms count samples w ticks).returned with
          | false => simp [hret] at hr
          | true =>
              simp only [hret, if_true] at hr ⊢
              exact ih _ _ _ (stream_body_exit interval_ms count samples w ticks hret) hr
theorem dispatch_single_shot_request (sdk : Sdk) (cmd_id cmd : String) (iss : IStream)
    (hid : cmd_id ≠ "")
    (hcmd : cmd ∈ ["info", "monitor", "statistics", "fgstatistics", "logfiles", "readlog"]) :
    ∃ request cb, SdkCall.isRequest request = true ∧ ∀ w ticks,
      dispatch sdk cmd_id cmd iss w ticks = cmd_single_shot cmd_id request cb w ticks := by
  simp only [List.mem_cons, List.mem_singleton, List.not_mem_nil, or_false] at hcmd
  rcases hcmd with h | h | h | h | h | h <;> subst h
  · exact ⟨.requestGetInfo, .get_info cmd_id, rfl,
      fun w ticks => by simp [dispatch, hid, cmd_get_info]⟩
  · exact ⟨.requestGetMonitorData, .get_monitor_data cmd_id, rfl,
      fun w ticks => by simp [dispatch, hid, cmd_get_monitor_data]⟩
  · exact ⟨.requestGetStatistics, .get_statistics cmd_id, rfl,
      fun w ticks => by simp [dispatch, hid, cmd_get_statistics]⟩
  · exact ⟨.requestGetFgStatistics, .get_fg_statistics cmd_id, rfl,
      fun w ticks => by simp [dispatch, hid, cmd_get_fg_statistics]⟩
  · exact ⟨.requestGetLogFileList, .get_log_files cmd_id, rfl,
      fun w ticks => by simp [dispatch, hid, cmd_get_log_files]⟩
  · exact ⟨.requestReadLogFile (extract_u32 none iss).1
        (extract_u32 none (extract_u32 none iss).2).1
        (extract_u32 none (extract_u32 none (extract_u32 none iss).2).2).1,
      .read_log_file cmd_id, rfl,
      fun w ticks => by simp [dispatch, hid, cmd_read_log_file]⟩

theorem cmd_parse_url_requests (sdk : Sdk) (cmd_id url : String) (w : World) :
    (cmd_parse_url sdk cmd_id url w).calls = w.calls := by
  unfold cmd_parse_url
  cases sdk.fromURL (c_str url) <;> rfl

theorem cmd_connect_requests (sdk : Sdk) (cmd_id url : String) (w : World) :
    request_count (cmd_connect sdk cmd_id url w).calls = request_count w.calls := by
  unfold cmd_connect
  split
  · rfl
  · cases sdk.fromURL (c_str url)
    · rfl
    · simp [output_result, World.call, request_count, List.filter_append, SdkCall.isRequest]

theorem cmd_disconnect_requests (cmd_id : String) (w : World) :
    request_count (cmd_disconnect cmd_id w).calls = request_count w.calls := by
  unfold cmd_disconnect
  simp only []
  split
  · simp [output_result, World.call, request_count, List.filter_append, SdkCall.isRequest]
  · rfl

/-- The commands that answer at once issue no correlated request and leave
the outstanding callback alone. -/
theorem dispatch_immediate (sdk : Sdk) (cmd_id cmd : String) (iss : IStream) (w : World)
    (hsix : cmd ∉ ["info", "monitor", "statistics", "fgstatistics", "logfiles", "readlog"])
    (hstream : cmd ≠ "stream") :
    ∃ v, (∀ ticks, dispatch sdk cmd_id cmd iss w ticks = ⟨v, ticks, true⟩)
      ∧ v.pending = w.pending ∧ request_count v.calls = request_count w.calls := by
  simp only [List.mem_cons, List.mem_singleton, List.not_mem_nil, or_false, not_or] at hsix
  obtain ⟨h1, h2, h3, h4, h5, h6⟩ := hsix
  unfold dispatch
  simp only [h1, h2, h3, h4, h5, h6, hstream, if_false]
  split_ifs
  · exact ⟨_, fun _ => rfl, rfl, rfl⟩
  · exact ⟨_, fun _ => rfl, rfl, rfl⟩
  · exact ⟨_, fun _ => rfl, (cmd_parse_url_one sdk cmd_id _ w).2.1,
      by rw [cmd_parse_url_requests]⟩
  · exact ⟨_, fun _ => rfl, (cmd_connect_one sdk cmd_id _ w).2.1, cmd_connect_requests _ _ _ _⟩
  · exact ⟨_, fun _ => rfl, (cmd_disconnect_one cmd_id w).2.1, cmd_disconnect_requests _ _⟩
  · exact ⟨_, fun _ => rfl, rfl, rfl⟩
  · exact ⟨_, fun _ => rfl, rfl, rfl⟩
  · exact ⟨_, fun _ => rfl, rfl, rfl⟩

/-- The request account of one dispatched line: the requests logged are one
per issue point, each issue point has nothing outstanding, and a handler that
returns leaves nothing outstanding unless shutdown is raised. -/
theorem dispatch_outstanding (sdk : Sdk) (cmd_id cmd : String) (iss : IStream) (w : World)
    (ticks : List Tick) (hp : w.pending = none) :
    request_count (dispatch sdk cmd_id cmd iss w ticks).world.calls
        = request_count w.calls + (dispatch_issue_points cmd_id cmd iss w ticks).length
    ∧ (∀ u ∈ dispatch_issue_points cmd_id cmd iss w ticks, u.pending = none)
    ∧ ((dispatch sdk cmd_id cmd iss w ticks).returned = true →
        (dispatch sdk cmd_id cmd iss w ticks).world.pending = none
          ∨ (dispatch sdk cmd_id cmd iss w ticks).world.should_exit = true) := by
  by_cases hid : cmd_id = "" ∨ cmd = ""
  · simp [dispatch, dispatch_issue_points, hid, hp]
  have hid' : cmd_id ≠ "" := fun h => hid (Or.inl h)
  by_cases hsix : cmd ∈ ["info", "monitor", "statistics", "fgstatistics", "logfiles", "readlog"]
  · obtain ⟨request, cb, hreq, hd⟩ := dispatch_single_shot_request sdk cmd_id cmd iss hid' hsix
    rw [hd w ticks]
    refine ⟨?_, ?_, cmd_single_shot_quiet cmd_id request cb w ticks (Or.inl hp)⟩
    · rw [cmd_single_shot_calls]
      cases hc : w.connected
      · simp [dispatch_issue_points, hid, hsix, hc]
      · simp only [if_true, request_count_append]
        simp [dispatch_issue_points, hid, hsix, hc, request_count, hreq]
    · intro u hu
      simp only [dispatch_issue_points, hid, hsix, if_false, if_true] at hu
      split at hu
      · rw [List.mem_singleton.mp hu]; exact hp
      · cases hu
  by_cases hstream : cmd = "stream"
  · subst hstream
    have hd : dispatch sdk cmd_id "stream" iss w ticks
        = cmd_stream_monitor cmd_id (extract_int 2000 iss).1
            (extract_int 0 (extract_int 2000 iss).2).1 w ticks := by
      simp [dispatch, hid']
    rw [hd]
    unfold cmd_stream_monitor
    cases hc : w.connected
    · simp [dispatch_issue_points, hid, hc, output_error, hp]
    · simp only [Bool.not_true, Bool.false_eq_true, if_false]
      have hpts : dispatch_issue_points cmd_id "stream" iss w ticks
          = stream_issue_points (extract_int 2000 iss).1
              (extract_int 0 (extract_int 2000 iss).2).1 (ticks.length + 1) 0 w ticks := by
        simp [dispatch_issue_points, hid', hc]
      rw [hpts]
      refine ⟨?_, stream_issue_points_pending _ _ _ _ _ _ (Or.inl hp),
        stream_loop_quiet _ _ _ _ _ _ _ (Or.inl hp)⟩
      rw [stream_loop_calls, request_count_append, request_count_replicate]
  · obtain ⟨v, hd, hvp, hvc⟩ := dispatch_immediate sdk cmd_id cmd iss w hsix hstream
    rw [hd ticks]
    refine ⟨?_, ?_, fun _ => Or.inl (hvp.trans hp)⟩
    · simp [dispatch_issue_points, hid, hsix, hstream, hvc]
    · intro u hu
      simp [dispatch_issue_points, hid, hsix, hstream] at hu
/-- The request account of one pass of the command loop. -/
theorem command_step_outstanding (sdk : Sdk) (before : Tick) (line : String) (w : World)
    (ticks : List Tick) (hp : w.pending = none) :
    request_count (command_step sdk before line w ticks).world.calls
        = request_count w.calls
          + (if line = "" then [] else issue_points line (w.usleep before) ticks).length
    ∧ (∀ u ∈ (if line = "" then [] else issue_points line (w.usleep before) ticks),
        u.pending = none)
    ∧ ((command_step sdk before line w ticks).returned = true →
        (command_step sdk before line w ticks).world.pending = none
          ∨ (command_step sdk before line w ticks).world.should_exit = true) := by
  have hp' := usleep_pending_none before w hp
  have hcalls : (w.usleep before).calls = w.calls :=
    usleep_inv (fun v => v.calls = w.calls) (fun _ => true)
      (fun v e _ h => (deliver_calls v e).trans h) before w (fun _ _ => rfl) rfl
  unfold command_step
  by_cases hl : line = ""
  · simp [hl, hp', hcalls]
  · simp only [hl, if_false]
    have h := dispatch_outstanding sdk (line_id line) (line_cmd line) (line_args line)
      (w.usleep before) ticks hp'
    rw [hcalls] at h
    exact h

/-- The request account of the command loop: the requests logged are one per
issue point, every issue point has nothing outstanding, and the loop is left
with nothing outstanding unless shutdown is raised. -/
theorem command_loop_outstanding (sdk : Sdk) :
    ∀ (input : List (Tick × String)) (w : World) (ticks : List Tick),
      (w.pending = none ∨ w.should_exit = true) →
      request_count (command_loop sdk input w ticks).world.calls
          = request_count w.calls + (command_issue_points sdk input w ticks).length
      ∧ (∀ u ∈ command_issue_points sdk input w ticks, u.pending = none)
      ∧ ((command_loop sdk input w ticks).returned = true →
          (command_loop sdk input w ticks).world.pending = none
            ∨ (command_loop sdk input w ticks).world.should_exit = true) := by
  intro input
  induction input with
  | nil =>
      intro w ticks hq
      simp [command_loop, command_issue_points, hq]
  | cons a input ih =>
      intro w ticks hq
      obtain ⟨before, line⟩ := a
      rw [command_loop, command_issue_points]
      cases hs : w.should_exit with
      | true => simp [hq, hs]
      | false =>
          have hp : w.pending = none := by
            rcases hq with h | h
            · exact h
            · rw [hs] at h; cases h
          simp only [Bool.false_eq_true, if_false]
          obtain ⟨h1, h2, h3⟩ := command_step_outstanding sdk before line w ticks hp
          cases hret : (command_step sdk before line w ticks).returned with
          | false =>
              simp only [Bool.not_false, if_true, List.append_nil]
              exact ⟨h1, h2, fun h => by rw [hret] at h; cases h⟩
          | true =>
              simp only [Bool.not_true, Bool.false_eq_true, if_false]
              obtain ⟨k1, k2, k3⟩ := ih (command_step sdk before line w ticks).world
                (command_step sdk before line w ticks).rest (h3 hret)
              refine ⟨?_, ?_, k3⟩
              · rw [k1, h1, List.length_append]; omega
              · intro u hu
                rcases List.mem_append.mp hu with h | h
                · exact h2 u h
                · exact k2 u h

/-! ## Lemmas on BCD numbers -/

theorem checkBCD_nibbles (v : Nat) (hv : v < 65536) :
    checkBCD v = true
      ↔ nibble v 0 ≤ 9 ∧ nibble v 1 ≤ 9 ∧ nibble v 2 ≤ 9 ∧ nibble v 3 ≤ 9 := by
  have hand : ∀ x : Nat, x &&& 0xF = x % 16 := fun x =>
    Nat.and_pow_two_sub_one_eq_mod x 4
  have hshr : ∀ x : Nat, x >>> 4 = x / 16 := fun x => Nat.shiftRight_eq_div_pow x 4
  simp only [checkBCD, checkBCD_loop, hand, hshr, nibble]
  have h1 : v % 65536 = v := Nat.mod_eq_of_lt hv
  have h2 : v / 16 % 65536 = v / 16 := Nat.mod_eq_of_lt (by omega)
  have h3 : v / 16 / 16 % 65536 = v / 16 / 16 := Nat.mod_eq_of_lt (by omega)
  have h4 : v / 16 / 16 / 16 % 65536 = v / 16 / 16 / 16 := Nat.mod_eq_of_lt (by omega)
  rw [h1, h2, h3, h4]
  have e1 : v / 16 ^ 0 = v := by simp
  have e2 : v / 16 ^ 1 = v / 16 := by simp
  have e3 : v / 16 ^ 2 = v / 16 / 16 := by norm_num [Nat.div_div_eq_div_mul]
  have e4 : v / 16 ^ 3 = v / 16 / 16 / 16 := by norm_num [Nat.div_div_eq_div_mul]
  rw [e1, e2, e3, e4]
  by_cases a : v % 16 > 9
  · simp [a]
  by_cases b : v / 16 % 16 > 9
  · simp [a, b]
  by_cases c : v / 16 / 16 % 16 > 9
  · simp [a, b, c]
  by_cases d : v / 16 / 16 / 16 % 16 > 9
  · simp [a, b, c, d]
  · simp only [a, b, c, d, if_false]
    exact ⟨fun _ => ⟨by omega, by omega, by omega, by omega⟩, fun _ => trivial⟩

theorem bcd_encode_lt (n : Nat) : bcd_encode n < 65536 := by
  unfold bcd_encode; omega

theorem nibbles_of_digits (a b c d : Nat) (ha : a < 16) (hb : b < 16) (hc : c < 16)
    (hd : d < 16) :
    nibble (a * 4096 + b * 256 + c * 16 + d) 0 = d
      ∧ nibble (a * 4096 + b * 256 + c * 16 + d) 1 = c
      ∧ nibble (a * 4096 + b * 256 + c * 16 + d) 2 = b
      ∧ nibble (a * 4096 + b * 256 + c * 16 + d) 3 = a := by
  have e3 : ∀ v : Nat, v / 16 ^ 2 = v / 256 := fun v => by norm_num
  have e4 : ∀ v : Nat, v / 16 ^ 3 = v / 4096 := fun v => by norm_num
  simp only [nibble, pow_zero, pow_one, Nat.div_one, e3, e4]
  refine ⟨by omega, by omega, by omega, by omega⟩

theorem nibble_bcd_encode (n : Nat) :
    nibble (bcd_encode n) 0 = n % 10 ∧ nibble (bcd_encode n) 1 = n / 10 % 10
      ∧ nibble (bcd_encode n) 2 = n / 100 % 10 ∧ nibble (bcd_encode n) 3 = n / 1000 % 10 :=
  nibbles_of_digits _ _ _ _ (by omega) (by omega) (by omega) (by omega)

theorem bcd_encode_digits (a b c d : Nat) (ha : a ≤ 9) (hb : b ≤ 9) (hc : c ≤ 9)
    (hd : d ≤ 9) :
    bcd_encode (a * 1000 + b * 100 + c * 10 + d) = a * 4096 + b * 256 + c * 16 + d := by
  have h0 : (a * 1000 + b * 100 + c * 10 + d) % 10 = d := by omega
  have h1 : (a * 1000 + b * 100 + c * 10 + d) / 10 % 10 = c := by omega
  have h2 : (a * 1000 + b * 100 + c * 10 + d) / 100 % 10 = b := by omega
  have h3 : (a * 1000 + b * 100 + c * 10 + d) / 1000 % 10 = a := by omega
  unfold bcd_encode
  rw [h0, h1, h2, h3]

/-- The values accepted by `checkBCD` are the BCD encodings of 0..9999. -/
theorem checkBCD_iff_encode (v : Nat) (hv : v < 65536) :
    checkBCD v = true ↔ ∃ n < 10000, v = bcd_encode n := by
  rw [checkBCD_nibbles v hv]
  have e3 : ∀ v : Nat, v / 16 ^ 2 = v / 256 := fun v => by norm_num
  have e4 : ∀ v : Nat, v / 16 ^ 3 = v / 4096 := fun v => by norm_num
  constructor
  · intro h
    simp only [nibble, pow_zero, pow_one, Nat.div_one, e3, e4] at h
    obtain ⟨h0, h1, h2, h3⟩ := h
    refine ⟨(v / 4096 % 16) * 1000 + (v / 256 % 16) * 100 + (v / 16 % 16) * 10 + v % 16,
      by omega, ?_⟩
    rw [bcd_encode_digits _ _ _ _ h3 h2 h1 h0]
    omega
  · rintro ⟨n, hn, rfl⟩
    obtain ⟨h0, h1, h2, h3⟩ := nibble_bcd_encode n
    rw [h0, h1, h2, h3]
    omega

theorem bcd_encode_injOn : Set.InjOn bcd_encode (Finset.range 10000 : Set Nat) := by
  intro a ha b hb h
  simp only [Finset.coe_range, Set.mem_Iio] at ha hb
  obtain ⟨a0, a1, a2, a3⟩ := nibble_bcd_encode a
  obtain ⟨b0, b1, b2, b3⟩ := nibble_bcd_encode b
  rw [h] at a0 a1 a2 a3
  rw [b0] at a0; rw [b1] at a1; rw [b2] at a2; rw [b3] at a3
  omega

/-- There are exactly 10000 values accepted by `checkBCD`. -/
theorem checkBCD_card :
    ((Finset.range 65536).filter (fun v => checkBCD v = true)).card = 10000 := by
  have h : (Finset.range 65536).filter (fun v => checkBCD v = true)
      = (Finset.range 10000).image bcd_encode := by
    ext v
    simp only [Finset.mem_filter, Finset.mem_range, Finset.mem_image]
    constructor
    · rintro ⟨hv, hc⟩
      obtain ⟨n, hn, e⟩ := (checkBCD_iff_encode v hv).mp hc
      exact ⟨n, hn, e.symm⟩
    · rintro ⟨n, hn, rfl⟩
      exact ⟨bcd_encode_lt n, (checkBCD_iff_encode _ (bcd_encode_lt n)).mpr ⟨n, hn, rfl⟩⟩
  rw [h, Finset.card_image_of_injOn bcd_encode_injOn, Finset.card_range]

/-! ## Lemmas on the command loop and `main` -/

/-- With shutdown raised the command loop is left at its test. -/
theorem command_loop_exit (sdk : Sdk) (input : List (Tick × String)) (w : World)
    (ticks : List Tick) (hs : w.should_exit = true) :
    command_loop sdk input w ticks = ⟨w, ticks, true⟩ := by
  cases input with
  | nil => rfl
  | cons a input =>
      obtain ⟨before, line⟩ := a
      rw [command_loop]; simp [hs]

/-- The command loop on an input in two parts: the second part is read from
where the first part is left, unless a handler of the first part is still
sleeping. -/
theorem command_loop_append (sdk : Sdk) (post : List (Tick × String)) :
    ∀ (pre : List (Tick × String)) (w : World) (ticks : List Tick),
      command_loop sdk (pre ++ post) w ticks
        = if (command_loop sdk pre w ticks).returned = true then
            command_loop sdk post (command_loop sdk pre w ticks).world
              (command_loop sdk pre w ticks).rest
          else command_loop sdk pre w ticks := by
  intro pre
  induction pre with
  | nil => intro w ticks; simp [command_loop]
  | cons a pre ih =>
      intro w ticks
      obtain ⟨before, line⟩ := a
      rw [List.cons_append, command_loop, command_loop]
      cases hs : w.should_exit with
      | true => simp [command_loop_exit sdk post w ticks hs]
      | false =>
          simp only [Bool.false_eq_true, if_false]
          cases hr : (command_step sdk before line w ticks).returned with
          | false => simp [hr]
          | true => simp only [Bool.not_true, Bool.false_eq_true, if_false]; exact ih _ _

/-- The `quit` and `exit` commands. -/
theorem dispatch_quit (sdk : Sdk) (cmd_id cmd : String) (iss : IStream) (w : World)
    (ticks : List Tick) (hid : cmd_id ≠ "") (hcmd : cmd = "quit" ∨ cmd = "exit") :
    dispatch sdk cmd_id cmd iss w ticks
      = ⟨output_result cmd_id true 0 none { w with should_exit := true }, ticks, true⟩ := by
  rcases hcmd with h | h <;> subst h <;> simp [dispatch, hid]

theorem wait_disconnected_exit (w : World) (ticks : List Tick)
    (h : w.connected = false ∨ w.should_exit = true) :
    wait_disconnected w ticks = ⟨w, ticks, true⟩ := by
  cases ticks <;> rcases h with h | h <;> simp [wait_disconnected, h]

/-! ## Lemmas on the shape of an input line -/

theorem dropWhile_blank (ws l : List Char) (h : Blank ws) :
    (ws ++ l).dropWhile isspace = l.dropWhile isspace := by
  induction ws with
  | nil => rfl
  | cons c ws ih =>
      have hc : isspace c = true := h c (List.mem_cons_self _ _)
      rw [List.cons_append, List.dropWhile_cons_of_pos hc]
      exact ih (fun x hx => h x (List.mem_cons_of_mem _ hx))

theorem dropWhile_break (rest : List Char) (h : Break rest) :
    rest.dropWhile (fun c => !isspace c) = rest := by
  cases rest with
  | nil => rfl
  | cons c r =>
      have hc : isspace c = true := h c (by simp)
      rw [List.dropWhile_cons_of_neg (by simp [hc])]

theorem takeWhile_break (rest : List Char) (h : Break rest) :
    rest.takeWhile (fun c => !isspace c) = [] := by
  cases rest with
  | nil => rfl
  | cons c r =>
      have hc : isspace c = true := h c (by simp)
      rw [List.takeWhile_cons_of_neg (by simp [hc])]

theorem token_split (tok rest : List Char) (h : ∀ c ∈ tok, isspace c = false)
    (hr : Break rest) :
    (tok ++ rest).takeWhile (fun c => !isspace c) = tok
      ∧ (tok ++ rest).dropWhile (fun c => !isspace c) = rest := by
  induction tok with
  | nil => exact ⟨takeWhile_break rest hr, dropWhile_break rest hr⟩
  | cons c tok ih =>
      have hc : isspace c = false := h c (List.mem_cons_self _ _)
      have ih' := ih (fun x hx => h x (List.mem_cons_of_mem _ hx))
      rw [List.cons_append, List.takeWhile_cons_of_pos (by simp [hc]),
        List.dropWhile_cons_of_pos (by simp [hc])]
      exact ⟨by rw [ih'.1], ih'.2⟩

theorem dropWhile_token (tok rest : List Char) (h : Token tok) :
    (tok ++ rest).dropWhile isspace = tok ++ rest := by
  obtain ⟨hne, hall⟩ := h
  cases tok with
  | nil => exact absurd rfl hne
  | cons c tok =>
      have hc : isspace c = false := hall c (List.mem_cons_self _ _)
      rw [List.cons_append, List.dropWhile_cons_of_neg (by simp [hc])]

/-- Extraction of a token that is followed by nothing or by white space. -/
theorem extract_string_token (init : String) (ws tok rest : List Char)
    (hws : Blank ws) (ht : Token tok) (hr : Break rest) :
    extract_string init ⟨ws ++ (tok ++ rest), false⟩ = (String.mk tok, ⟨rest, false⟩) := by
  have hd : (ws ++ (tok ++ rest)).dropWhile isspace = tok ++ rest := by
    rw [dropWhile_blank _ _ hws, dropWhile_token _ _ ht]
  have hne : (tok ++ rest).isEmpty = false := by
    obtain ⟨hne, _⟩ := ht
    cases tok with
    | nil => exact absurd rfl hne
    | cons c tok => rfl
  obtain ⟨h1, h2⟩ := token_split tok rest ht.2 hr
  simp only [extract_string, Bool.false_eq_true, if_false, hd, hne, h1, h2]

/-- Extraction from white space only fails and leaves the string as it was. -/
theorem extract_string_blank (init : String) (ws : List Char) (hws : Blank ws) :
    extract_string init ⟨ws, false⟩ = (init, ⟨[], true⟩) := by
  have hd : ws.dropWhile isspace = [] := by
    have := dropWhile_blank ws [] hws
    simpa using this
  simp [extract_string, hd]

theorem blank_break {ws : List Char} (h : Blank ws) : Break ws := by
  intro c hc
  cases ws with
  | nil => simp at hc
  | cons a ws =>
      simp only [List.head?_cons, Option.mem_def, Option.some.injEq] at hc
      subst hc
      exact h _ (List.mem_cons_self _ _)

theorem break_append {sep l : List Char} (hs : Blank sep) (hne : sep ≠ []) :
    Break (sep ++ l) := by
  intro c hc
  cases sep with
  | nil => exact absurd rfl hne
  | cons a sep =>
      simp only [List.cons_append, List.head?_cons, Option.mem_def, Option.some.injEq] at hc
      subst hc
      exact hs _ (List.mem_cons_self _ _)

/-- A line of white space only has no id. -/
theorem line_blank (line : String) (h : Blank line.toList) : line_id line = "" := by
  unfold line_id
  rw [extract_string_blank "" _ h]

/-- A line with one token has an id and no command name. -/
theorem line_one_token (line : String) (h : OneToken line.toList) :
    line_cmd line = "" := by
  obtain ⟨ws, tok, ws', hws, ht, hws', hl⟩ := h
  unfold line_cmd
  rw [hl, extract_string_token "" ws tok ws' hws ht (blank_break hws'),
    extract_string_blank "" _ hws']

/-- The two extractions of `parse_command` on a line with two tokens. -/
theorem line_two_tokens (line : String) (t1 t2 args : List Char)
    (h : TwoTokens line.toList t1 t2 args) :
    line_id line = String.mk t1 ∧ line_cmd line = String.mk t2
      ∧ line_args line = ⟨args, false⟩ := by
  obtain ⟨ws, sep, hws, h1, hsep, hne, h2, hargs, hl⟩ := h
  have e1 := extract_string_token "" ws t1 (sep ++ (t2 ++ args)) hws h1
    (break_append hsep hne)
  have e2 := extract_string_token "" sep t2 args hsep h2 hargs
  unfold line_id line_cmd line_args
  rw [hl, e1]
  simp only [e2]
  exact ⟨trivial, trivial, trivial⟩
theorem blank_takeWhile (l : List Char) : Blank (l.takeWhile isspace) :=
  fun _ hc => List.mem_takeWhile_imp hc

theorem nonspace_takeWhile (l : List Char) :
    ∀ c ∈ l.takeWhile (fun c => !isspace c), isspace c = false := by
  intro c hc
  have := List.mem_takeWhile_imp hc
  simpa using this

theorem break_dropWhile (l : List Char) : Break (l.dropWhile (fun c => !isspace c)) := by
  intro c hc
  induction l with
  | nil => simp at hc
  | cons a l ih =>
      by_cases ha : isspace a = true
      · rw [List.dropWhile_cons_of_neg (by simp [ha])] at hc
        simp only [List.head?_cons, Option.mem_def, Option.some.injEq] at hc
        subst hc; exact ha
      · rw [List.dropWhile_cons_of_pos (by simpa using ha)] at hc
        exact ih hc

/-- A list that does not start with white space and is not empty starts with
a token. -/
theorem token_takeWhile (b : List Char) (hb : b ≠ [])
    (hd : b.dropWhile isspace = b) : Token (b.takeWhile (fun c => !isspace c)) := by
  refine ⟨?_, nonspace_takeWhile b⟩
  cases b with
  | nil => exact absurd rfl hb
  | cons a b =>
      have ha : isspace a = false := by
        cases h : isspace a
        · rfl
        · rw [List.dropWhile_cons_of_pos h] at hd
          have := List.dropWhile_suffix isspace (l := b)
          rw [hd] at this
          have := this.length_le
          simp at this
      rw [List.takeWhile_cons_of_pos (by simp [ha])]
      simp

theorem dropWhile_idem (l : List Char) :
    (l.dropWhile isspace).dropWhile isspace = l.dropWhile isspace := by
  induction l with
  | nil => rfl
  | cons a l ih =>
      by_cases ha : isspace a = true
      · rw [List.dropWhile_cons_of_pos ha]; exact ih
      · rw [List.dropWhile_cons_of_neg ha, List.dropWhile_cons_of_neg ha]

/-- Every line is white space only, or has exactly one token, or has a first
and a second token. -/
theorem line_shape (l : List Char) :
    Blank l ∨ OneToken l ∨ ∃ t1 t2 args, TwoTokens l t1 t2 args := by
  have hl : l = l.takeWhile isspace ++ l.dropWhile isspace :=
    (List.takeWhile_append_dropWhile isspace l).symm
  by_cases hb : l.dropWhile isspace = []
  · left
    rw [hl, hb, List.append_nil]
    exact blank_takeWhile l
  · right
    have h1 := token_takeWhile _ hb (dropWhile_idem l)
    have hb2 : l.dropWhile isspace
        = (l.dropWhile isspace).takeWhile (fun c => !isspace c)
          ++ (l.dropWhile isspace).dropWhile (fun c => !isspace c) :=
      (List.takeWhile_append_dropWhile _ _).symm
    have hbr := break_dropWhile (l.dropWhile isspace)
    generalize hrest : (l.dropWhile isspace).dropWhile (fun c => !isspace c) = rest
      at hb2 hbr
    generalize (l.dropWhile isspace).takeWhile (fun c => !isspace c) = t1 at hb2 h1
    have hr : rest = rest.takeWhile isspace ++ rest.dropWhile isspace :=
      (List.takeWhile_append_dropWhile isspace rest).symm
    by_cases hb3 : rest.dropWhile isspace = []
    · left
      refine ⟨l.takeWhile isspace, t1, rest, blank_takeWhile l, h1, ?_, ?_⟩
      · rw [hr, hb3, List.append_nil]; exact blank_takeWhile rest
      · rw [← hb2]; exact hl
    · right
      have h2 := token_takeWhile _ hb3 (dropWhile_idem rest)
      have hsep : rest.takeWhile isspace ≠ [] := by
        intro he
        rw [he, List.nil_append] at hr
        cases rest with
        | nil => exact hb3 rfl
        | cons a rest' =>
            have ha : isspace a = true := hbr a (by simp)
            rw [List.takeWhile_cons_of_pos ha] at he
            cases he
      refine ⟨t1, (rest.dropWhile isspace).takeWhile (fun c => !isspace c),
        (rest.dropWhile isspace).dropWhile (fun c => !isspace c),
        l.takeWhile isspace, rest.takeWhile isspace, blank_takeWhile l, h1,
        blank_takeWhile rest, hsep, h2, break_dropWhile _, ?_⟩
      rw [List.takeWhile_append_dropWhile, List.takeWhile_append_dropWhile, ← hb2]
      exact hl

theorem token_mk_ne {t : List Char} (h : Token t) : String.mk t ≠ "" := by
  intro he
  have : (String.mk t).data = "".data := by rw [he]
  exact h.1 this

/-- A line with fewer than two tokens is dropped by `parse_command`. -/
theorem parse_command_short (sdk : Sdk) (line : String) (w : World) (ticks : List Tick)
    (h : Blank line.toList ∨ OneToken line.toList) :
    parse_command sdk line w ticks = ⟨w, ticks, true⟩ := by
  unfold parse_command dispatch
  rcases h with h | h
  · simp [line_blank line h]
  · simp [line_one_token line h]

/-! ## Lemmas on decimal arguments -/

theorem isspace_not_digit (c : Char) (h : isspace c = true) : c.isDigit = false := by
  simp only [isspace, Bool.or_eq_true, beq_iff_eq] at h
  rcases h with ((((h | h) | h) | h) | h) | h <;> subst h <;> decide

theorem blank_noDigit {ws : List Char} (h : Blank ws) : NoDigit ws := by
  intro c hc
  exact isspace_not_digit c (blank_break h c hc)

theorem noDigit_append {sep l : List Char} (hs : Blank sep) (hne : sep ≠ []) :
    NoDigit (sep ++ l) := by
  intro c hc
  exact isspace_not_digit c (break_append hs hne c hc)

theorem digits_split (ds rest : List Char) (h : ∀ c ∈ ds, c.isDigit = true)
    (hr : NoDigit rest) :
    (ds ++ rest).takeWhile Char.isDigit = ds ∧ (ds ++ rest).dropWhile Char.isDigit = rest := by
  induction ds with
  | nil =>
      cases rest with
      | nil => exact ⟨rfl, rfl⟩
      | cons c r =>
          have hc : c.isDigit = false := hr c (by simp)
          exact ⟨by rw [List.nil_append, List.takeWhile_cons_of_neg (by simp [hc])],
            by rw [List.nil_append, List.dropWhile_cons_of_neg (by simp [hc])]⟩
  | cons c ds ih =>
      have hc : c.isDigit = true := h c (List.mem_cons_self _ _)
      have ih' := ih (fun x hx => h x (List.mem_cons_of_mem _ hx))
      rw [List.cons_append, List.takeWhile_cons_of_pos hc, List.dropWhile_cons_of_pos hc]
      exact ⟨by rw [ih'.1], ih'.2⟩

theorem digit_head (c : Char) (h : c.isDigit = true) :
    isspace c = false ∧ c ≠ '-' ∧ c ≠ '+' := by
  refine ⟨?_, ?_, ?_⟩
  · cases hs : isspace c
    · rfl
    · rw [isspace_not_digit c hs] at h; cases h
  · intro e; subst e; revert h; decide
  · intro e; subst e; revert h; decide

/-- Extraction of a decimal integer that fits an `int` and is followed by
nothing or by something that is not a digit. -/
theorem extract_int_literal (init : Int) (ws ds rest : List Char) (negative : Bool)
    (hws : Blank ws) (hds : Digits ds) (hr : NoDigit rest) (hin : InRange negative ds) :
    extract_int init ⟨ws ++ (int_text negative ds ++ rest), false⟩
      = (int_value negative ds, ⟨rest, false⟩) := by
  obtain ⟨hne, hall⟩ := hds
  obtain ⟨c, ds', rfl⟩ : ∃ c ds', ds = c :: ds' := by
    cases ds with
    | nil => exact absurd rfl hne
    | cons c ds' => exact ⟨c, ds', rfl⟩
  have hc := digit_head c (hall c (List.mem_cons_self _ _))
  obtain ⟨h1, h2⟩ := digits_split (c :: ds') rest hall hr
  obtain ⟨hlo, hhi⟩ := hin
  cases negative with
  | false =>
      have hd : (ws ++ (int_text false (c :: ds') ++ rest)).dropWhile isspace
          = c :: (ds' ++ rest) := by
        rw [dropWhile_blank _ _ hws]
        simp [int_text, List.dropWhile_cons_of_neg, hc.1]
      have hv : ¬ ((digits_value (c :: ds') : Int) > INT_MAX) := by
        simp only [int_value, Bool.false_eq_true, if_false] at hhi
        omega
      have hb1 : (some c == some '-') = false := by simp [hc.2.1]
      have hb2 : (some c == some '+') = false := by simp [hc.2.2]
      rw [List.cons_append] at h1 h2
      simp only [extract_int, Bool.false_eq_true, if_false, hd, List.isEmpty_cons,
        List.head?_cons, hb1, hb2, Bool.or_self, h1, h2, hv, int_value]
  | true =>
      have hd : (ws ++ (int_text true (c :: ds') ++ rest)).dropWhile isspace
          = '-' :: c :: (ds' ++ rest) := by
        rw [dropWhile_blank _ _ hws]
        simp [int_text, List.dropWhile_cons_of_neg, isspace]
      have hv : ¬ ((digits_value (c :: ds') : Int) > -INT_MIN) := by
        simp only [int_value, if_true] at hlo
        omega
      rw [List.cons_append] at h1 h2
      simp only [extract_int, Bool.false_eq_true, if_false, hd, List.isEmpty_cons,
        List.head?_cons, beq_self_eq_true, Bool.true_or, if_true, List.tail_cons, h1, h2, hv,
        int_value]

/-- Extraction of an `int` from white space only fails and leaves the
variable as it was. -/
theorem extract_int_blank (init : Int) (ws : List Char) (hws : Blank ws) :
    extract_int init ⟨ws, false⟩ = (init, ⟨[], true⟩) := by
  have hd : ws.dropWhile isspace = [] := by
    have := dropWhile_blank ws [] hws
    simpa using this
  simp [extract_int, hd]

theorem extract_int_failed (init : Int) (b : List Char) :
    extract_int init ⟨b, true⟩ = (init, ⟨b, true⟩) := by
  simp [extract_int]

/-- The `stream` branch of `parse_command`. -/
theorem dispatch_stream (sdk : Sdk) (cmd_id : String) (iss : IStream) (w : World)
    (ticks : List Tick) (hid : cmd_id ≠ "") :
    dispatch sdk cmd_id "stream" iss w ticks
      = cmd_stream_monitor cmd_id (extract_int 2000 iss).1
          (extract_int 0 (extract_int 2000 iss).2).1 w ticks := by
  simp [dispatch, hid]

/-! ## Lemmas on the two connection flags -/

theorem deliver_exclusive (w : World) (e : Async)
    (h : ¬ (w.connected = true ∧ w.connecting = true)) :
    ¬ ((w.deliver e).connected = true ∧ (w.deliver e).connecting = true) := by
  cases e with
  | response r =>
      have := deliver_flags w (.response r) rfl
      rw [this.1, this.2]; exact h
  | signal => exact h
  | onConnect => simp [World.deliver, output_event]
  | onDisconnect r => simp [World.deliver, output_event]

/-- A command handler, with any events during its sleeps, never leaves both
flags set. -/
theorem dispatch_exclusive (sdk : Sdk) (cmd_id cmd : String) (iss : IStream) (w : World)
    (ticks : List Tick) (h : ¬ (w.connected = true ∧ w.connecting = true)) :
    ¬ ((dispatch sdk cmd_id cmd iss w ticks).world.connected = true
        ∧ (dispatch sdk cmd_id cmd iss w ticks).world.connecting = true) := by
  by_cases hid : cmd_id = "" ∨ cmd = ""
  · simpa [dispatch, hid] using h
  have hid' : cmd_id ≠ "" := fun e => hid (Or.inl e)
  have hcmd' : cmd ≠ "" := fun e => hid (Or.inr e)
  rcases dispatch_cases sdk cmd_id cmd iss w hid' hcmd' with
    ⟨v, hd, _, _, hflags⟩ | ⟨_, request, cb, _, hd⟩ | ⟨_, interval_ms, count, hd⟩
  · rw [hd ticks]
    rcases hflags with ⟨h1, h2⟩ | ⟨_, _, h3, _⟩
    · show ¬ (v.connected = true ∧ v.connecting = true)
      rw [h1, h2]; exact h
    · show ¬ (v.connected = true ∧ v.connecting = true)
      rw [h3]; simp
  · rw [hd ticks]
    unfold cmd_single_shot
    split
    · exact h
    · exact wait_done_inv (fun v => ¬ (v.connected = true ∧ v.connecting = true))
        (fun _ => true) (fun v e _ hv => deliver_exclusive v e hv) ticks _
        (fun _ _ _ _ => rfl) h
  · rw [hd ticks]
    unfold cmd_stream_monitor
    split
    · exact h
    · exact stream_loop_inv (fun v => ¬ (v.connected = true ∧ v.connecting = true))
        (fun _ => true) (fun v e _ hv => deliver_exclusive v e hv) (fun v hv => hv)
        cmd_id (fun v hv => hv) interval_ms count _ _ w ticks (fun _ _ _ _ => rfl) h

/-- The method `Connect` never assigns `connected_`. -/
theorem connect_connected (sdk : Sdk) (self : Wrapper) (info : Option ConnectOptions) :
    (PowermonWrapper.Connect sdk self info).1.connected_ = self.connected_ := by
  unfold PowermonWrapper.Connect
  repeat' split
  all_goals rfl

theorem connect_exclusive (sdk : Sdk) (self : Wrapper) (info : Option ConnectOptions)
    (h : ¬ (self.connected_ = true ∧ self.connecting_ = true)) :
    ¬ ((PowermonWrapper.Connect sdk self info).1.connected_ = true
        ∧ (PowermonWrapper.Connect sdk self info).1.connecting_ = true) := by
  cases hc : self.connected_ with
  | false =>
      rw [connect_connected, hc]
      simp
  | true =>
      have hself : PowermonWrapper.Connect sdk self info
          = (self, (PowermonWrapper.Connect sdk self info).2) := by
        unfold PowermonWrapper.Connect
        split
        · rfl
        · simp [hc]
      rw [hself]
      exact h

/-! ## Further lemmas on stream accounting -/

theorem stream_schedule_length (interval_ms : Int) (rs : List (Nat × Reply)) :
    rs.length ≤ (stream_schedule interval_ms rs).length := by
  induction rs with
  | nil => simp
  | cons a rs ih =>
      simp only [stream_schedule, List.flatMap_cons, List.length_append,
        List.length_cons, List.length_replicate] at ih ⊢
      omega

/-- A stream with a negative count: the loop test fails at once. -/
theorem cmd_stream_monitor_negative (cmd_id : String) (interval_ms count : Int) (w : World)
    (ticks : List Tick) (hc : w.connected = true) (hneg : count < 0) :
    cmd_stream_monitor cmd_id interval_ms count w ticks
      = ⟨output_result cmd_id true 0 none w, ticks, true⟩ := by
  unfold cmd_stream_monitor
  rw [if_neg (by simp [hc])]
  apply stream_loop_exit
  have h0 : ¬ count = 0 := by omega
  have h1 : ¬ (0 : Int) < count := by omega
  simp [stream_continues, h0, h1]

/-! ## Lemmas on late callbacks -/

/-- The terminal messages of a single-shot command, counted over its handler
and over whatever runs after the handler has returned: at most one. -/
theorem cmd_single_shot_late (cmd_id : String) (request : SdkCall) (cb : Callback)
    (hcb : cb.id? = some cmd_id) (w : World) (ticks : List Tick) (late : Tick)
    (hp : w.pending = none) :
    ∃ l, ((cmd_single_shot cmd_id request cb w ticks).world.usleep late).out = w.out ++ l
      ∧ Msg.eventsOrId cmd_id l ∧ (l.filter Msg.isTerminal).length ≤ 1 := by
  have key : Tracks w.out cmd_id 1 (cmd_single_shot cmd_id request cb w ticks).world := by
    unfold cmd_single_shot
    split
    · refine ⟨by simp [output_error, hp], [Msg.error cmd_id "Not connected"],
        by simp [output_error], ?_, by simp [World.owed, output_error, hp, Msg.isTerminal]⟩
      intro m hm
      rw [List.mem_singleton.mp hm]
      exact Or.inr ⟨rfl, rfl⟩
    · have h0 : Tracks w.out cmd_id 1 ((w.call request).register cb) := by
        refine ⟨?_, [], by simp [World.register, World.call], ?_,
          by simp [World.owed, World.register, hcb]⟩
        · intro cb' h'
          simp only [World.register, Option.some.injEq] at h'
          subst h'; exact Or.inr hcb
        · intro m hm; cases hm
      exact wait_done_inv (Tracks w.out cmd_id 1) (fun _ => true)
        (fun v e _ hv => deliver_tracks w.out cmd_id 1 v e hv) ticks _
        (fun _ _ _ _ => rfl) h0
  obtain ⟨_, l, hout, hl, hk⟩ := usleep_inv (Tracks w.out cmd_id 1) (fun _ => true)
    (fun v e _ hv => deliver_tracks w.out cmd_id 1 v e hv) late _ (fun _ _ => rfl) key
  exact ⟨l, hout, hl, by omega⟩

/-! ## Lemmas on what follows a stream -/

/-- Every event keeps the account of what is written after `base`. -/
theorem deliver_trailing (base : List Msg) (k : Nat) (w : World) (e : Async)
    (h : Trailing base k w) : Trailing base k (w.deliver e) := by
  obtain ⟨hp, l, hout, hl, hk⟩ := h
  refine ⟨?_, ?_⟩
  · rw [deliver_pending]
    split
    · exact Or.inl rfl
    · exact hp
  cases e with
  | signal => exact ⟨l, hout, hl, hk⟩
  | onConnect =>
      refine ⟨l ++ [Msg.event "connected" none], ?_, ?_, ?_⟩
      · simp [World.deliver, output_event, hout]
      · intro m hm
        rcases List.mem_append.mp hm with h | h
        · exact hl m h
        · rw [List.mem_singleton.mp h]; rfl
      · have : Msg.isMonitor (Msg.event "connected" none) = false := by decide
        simpa [World.deliver, output_event, World.owed_monitor, this] using hk
  | onDisconnect reason =>
      refine ⟨l ++ [Msg.event "disconnected"
        (some ("\"reason\":" ++ toString reason.toNat))], ?_, ?_, ?_⟩
      · simp [World.deliver, output_event, hout]
      · intro m hm
        rcases List.mem_append.mp hm with h | h
        · exact hl m h
        · rw [List.mem_singleton.mp h]; rfl
      · have : Msg.isMonitor (Msg.event "disconnected"
            (some ("\"reason\":" ++ toString reason.toNat))) = false := by
          simp [Msg.isMonitor]
        simpa [World.deliver, output_event, World.owed_monitor, this] using hk
  | response r =>
      rcases hp with hp | hp
      · have : w.deliver (.response r) = w := by simp [World.deliver, hp]
        rw [this]; exact ⟨l, hout, hl, hk⟩
      · by_cases hr : r.code = RSP_SUCCESS
        · refine ⟨l ++ [Msg.event "monitor" (some ("\"data\":" ++ r.json))], ?_, ?_, ?_⟩
          · simp [World.deliver, hp, Callback.invoke, hr, output_event, hout]
          · intro m hm
            rcases List.mem_append.mp hm with h | h
            · exact hl m h
            · rw [List.mem_singleton.mp h]; rfl
          · have : Msg.isMonitor (Msg.event "monitor" (some ("\"data\":" ++ r.json)))
                = true := by simp [Msg.isMonitor]
            simpa [World.deliver, hp, Callback.invoke, hr, output_event, World.owed_monitor,
              this] using hk
        · refine ⟨l, ?_, hl, ?_⟩
          · simp [World.deliver, hp, Callback.invoke, hr, hout]
          · have h0 : (w.deliver (.response r)).owed_monitor = 0 := by
              simp [World.deliver, hp, Callback.invoke, hr, World.owed_monitor]
            rw [h0]; omega

/-- A state with at most the stream callback outstanding starts the account of
what is written after it. -/
theorem trailing_start (w : World)
    (hp : w.pending = none ∨ w.pending = some .stream_monitor) :
    Trailing w.out 1 w ∧ (w.pending = none → Trailing w.out 0 w) := by
  refine ⟨⟨hp, [], by simp, by simp, ?_⟩, fun h => ⟨hp, [], by simp, by simp, ?_⟩⟩
  · rcases hp with h | h <;> simp [World.owed_monitor, h]
  · simp [World.owed_monitor, h]

/-- Whatever happens later, the events of a sleep keep the account. -/
theorem usleep_trailing (base : List Msg) (k : Nat) (w : World) (late : Tick)
    (h : Trailing base k w) : Trailing base k (w.usleep late) :=
  usleep_inv (Trailing base k) (fun _ => true) (fun v e _ hv => deliver_trailing base k v e hv)
    late w (fun _ _ => rfl) h

/-- A stream handler leaves at most its own callback outstanding. -/
theorem cmd_stream_monitor_pending (cmd_id : String) (interval_ms count : Int) (w : World)
    (ticks : List Tick) (hp : w.pending = none) :
    (cmd_stream_monitor cmd_id interval_ms count w ticks).world.pending = none
      ∨ (cmd_stream_monitor cmd_id interval_ms count w ticks).world.pending
          = some .stream_monitor := by
  unfold cmd_stream_monitor
  split
  · exact Or.inl hp
  · exact stream_loop_inv (fun v => v.pending = none ∨ v.pending = some .stream_monitor)
      (fun _ => true)
      (fun v e _ hv => by
        show (v.deliver e).pending = none ∨ (v.deliver e).pending = some .stream_monitor
        rw [deliver_pending]
        split
        · exact Or.inl rfl
        · exact hv)
      (fun _ _ => Or.inr rfl) cmd_id (fun _ hv => hv) interval_ms count _ _ w ticks
      (fun _ _ _ _ => rfl) (Or.inl hp)

/-- A stream handler that has returned has written events and then its Result;
whatever happens afterwards adds events only, at most one of them a monitor
event (the answer to a request that was still outstanding), and none when
nothing was outstanding. -/
theorem cmd_stream_monitor_late (cmd_id : String) (interval_ms count : Int) (w : World)
    (ticks : List Tick) (hc : w.connected = true) (hp : w.pending = none)
    (hr : (cmd_stream_monitor cmd_id interval_ms count w ticks).returned = true) :
    ∃ l, (cmd_stream_monitor cmd_id interval_ms count w ticks).world.out
          = w.out ++ l ++ [Msg.result cmd_id true 0 none]
      ∧ (∀ m ∈ l, m.isEvent = true)
      ∧ ∀ late : Tick, ∃ l',
          ((cmd_stream_monitor cmd_id interval_ms count w ticks).world.usleep late).out
            = w.out ++ l ++ [Msg.result cmd_id true 0 none] ++ l'
          ∧ (∀ m ∈ l', m.isEvent = true)
          ∧ (l'.filter Msg.isMonitor).length ≤ 1
          ∧ ((cmd_stream_monitor cmd_id interval_ms count w ticks).world.pending = none →
              l'.filter Msg.isMonitor = []) := by
  have hpend := cmd_stream_monitor_pending cmd_id interval_ms count w ticks hp
  obtain ⟨l, hout, hl⟩ : ∃ l, (cmd_stream_monitor cmd_id interval_ms count w ticks).world.out
        = w.out ++ l ++ [Msg.result cmd_id true 0 none] ∧ (∀ m ∈ l, m.isEvent = true) := by
    unfold cmd_stream_monitor at hr ⊢
    simp only [hc, Bool.not_true, Bool.false_eq_true, if_false] at hr ⊢
    exact stream_loop_tracks cmd_id interval_ms count w.out _ _ w ticks
      (tracks_start w cmd_id hp) hr
  refine ⟨l, hout, hl, ?_⟩
  intro late
  have hst := trailing_start _ hpend
  obtain ⟨_, l', hout', hl', hk⟩ := usleep_trailing _ 1 _ late hst.1
  refine ⟨l', by rw [hout', hout], hl', by omega, ?_⟩
  intro hnone
  obtain ⟨_, l2, hout2, _, hk2⟩ := usleep_trailing _ 0 _ late (hst.2 hnone)
  have : l2 = l' := List.append_cancel_left (hout2.symm.trans hout')
  subst this
  exact List.length_eq_zero.mp (by omega)

/-! ## Lemmas on the flags, access by access -/

theorem onConnect_whole (w : World) : onConnect_rest (onConnect_first w) = w.deliver .onConnect :=
  rfl

theorem onDisconnect_whole (w : World) (reason : DisconnectReason) :
    onDisconnect_rest reason (onDisconnect_first w) = w.deliver (.onDisconnect reason) :=
  rfl

/-- With both loads of the guard taken in one state, `cmd_connect_loads` is
`cmd_connect`. -/
theorem cmd_connect_loads_same (sdk : Sdk) (cmd_id url : String) (w : World) :
    cmd_connect_loads sdk cmd_id url w.connected w = cmd_connect sdk cmd_id url w :=
  rfl

/-- The method `Connect` never assigns `ble_available_` or `powermon_`. -/
theorem connect_members (sdk : Sdk) (self : Wrapper) (info : Option ConnectOptions) :
    (PowermonWrapper.Connect sdk self info).1.ble_available_ = self.ble_available_
      ∧ (PowermonWrapper.Connect sdk self info).1.powermon_ = self.powermon_ := by
  unfold PowermonWrapper.Connect
  repeat' split
  all_goals exact ⟨rfl, rfl⟩

/-- The method `Connect` leaves `connecting_` and the calls alone, or it sets
`connecting_` and requests one connection, which takes BLE and the SDK
instance. -/
theorem connect_request (sdk : Sdk) (self : Wrapper) (info : Option ConnectOptions) :
    ((PowermonWrapper.Connect sdk self info).1.connecting_ = self.connecting_
        ∧ (PowermonWrapper.Connect sdk self info).1.calls = self.calls)
      ∨ (self.ble_available_ = true ∧ self.powermon_ = true
          ∧ (PowermonWrapper.Connect sdk self info).1.connecting_ = true
          ∧ connect_count (PowermonWrapper.Connect sdk self info).1.calls
              = connect_count self.calls + 1) := by
  by_cases hb : self.ble_available_ = true
  · by_cases hp : self.powermon_ = true
    · unfold PowermonWrapper.Connect
      repeat' split
      all_goals first
        | exact Or.inl ⟨rfl, rfl⟩
        | exact Or.inr ⟨hb, hp, rfl, by
            simp [connect_count, List.filter_append, SdkCall.isConnect]⟩
    · left
      unfold PowermonWrapper.Connect
      simp [hp]
  · left
    unfold PowermonWrapper.Connect
    simp [hb]

/-- With both loads of the guard taken in one state, `Connect_loads` is
`Connect`. -/
theorem connect_loads_same (sdk : Sdk) (self : Wrapper) (info : Option ConnectOptions) :
    PowermonWrapper.Connect_loads sdk self.connected_ self info
      = PowermonWrapper.Connect sdk self info := by
  unfold PowermonWrapper.Connect_loads
  have h : ({ self with connected_ := self.connected_ } : Wrapper) = self := rfl
  simp only [h]
  have hc := connect_connected sdk self info
  cases hr : PowermonWrapper.Connect sdk self info with
  | mk s m =>
      rw [hr] at hc
      simp only at hc ⊢
      cases s
      simp_all

theorem connect_count_disconnect (calls : List SdkCall) :
    connect_count (calls ++ [.disconnect]) = connect_count calls := by
  simp [connect_count, List.filter_append, SdkCall.isConnect]

/-- A request is not a connection request. -/
theorem connect_count_request (calls : List SdkCall) (request : SdkCall)
    (h : SdkCall.isRequest request = true) :
    connect_count (calls ++ [request]) = connect_count calls := by
  have : SdkCall.isConnect request = false := by
    cases request <;> simp_all [SdkCall.isRequest, SdkCall.isConnect]
  simp [connect_count, List.filter_append, this]

/-- In every state of the binding a flag is set only after a connection was
requested, and a connection is requested only with BLE and the SDK instance. -/
theorem reachable_requested (sdk : Sdk) (self : Wrapper) (h : Wrapper.Reachable sdk self) :
    ((self.connected_ = true ∨ self.connecting_ = true) → 0 < connect_count self.calls)
      ∧ (0 < connect_count self.calls →
          self.ble_available_ = true ∧ self.powermon_ = true) := by
  induction h with
  | start created initBle key0 => simp [PowermonWrapper.new, connect_count]
  | connect self seen info _ ih =>
      have hm := connect_members sdk { self with connected_ := seen } info
      have hq := connect_request sdk { self with connected_ := seen } info
      unfold PowermonWrapper.Connect_loads
      simp only at hm hq ⊢
      rcases hq with ⟨h1, h2⟩ | ⟨hb, hp, _, h4⟩
      · rw [h1, h2, hm.1, hm.2]; exact ih
      · rw [h4, hm.1, hm.2]
        exact ⟨fun _ => Nat.succ_pos _, fun _ => ⟨hb, hp⟩⟩
  | disconnect self seen _ ih =>
      unfold PowermonWrapper.Disconnect_loads
      split
      · simp only [connect_count_disconnect]; exact ih
      · exact ih
  | request self c _ _ hc ih =>
      simp only [connect_count_request _ c hc]; exact ih
  | store_connected self b _ hq ih => exact ⟨fun _ => hq, ih.2⟩
  | store_connecting self _ hq ih => exact ⟨fun _ => hq, ih.2⟩

/-- In a state of the binding with a flag set, `Connect` throws "Already
connected or connecting" and changes nothing. -/
theorem connect_rejected (sdk : Sdk) (self : Wrapper) (info : Option ConnectOptions)
    (hreach : Wrapper.Reachable sdk self)
    (hs : self.connected_ = true ∨ self.connecting_ = true) :
    PowermonWrapper.Connect sdk self info = (self, some "Already connected or connecting") := by
  have hinv := reachable_requested sdk self hreach
  obtain ⟨hb, hp⟩ := hinv.2 (hinv.1 hs)
  unfold PowermonWrapper.Connect
  rcases hs with h | h <;> simp [hb, hp, h]

/-- The binding after a first `connect` is a state of the binding. -/
theorem connecting_wrapper_reachable : Wrapper.Reachable sample_sdk connecting_wrapper := by
  have h0 : Wrapper.Reachable sample_sdk
      (PowermonWrapper.new true (some true) sample_key) := Wrapper.Reachable.start _ _ _
  have h1 := Wrapper.Reachable.connect _
    (PowermonWrapper.new true (some true) sample_key).connected_ (some url_options) h0
  rw [connect_loads_same] at h1
  exact h1

/-! ## Lemmas on the connection attempts -/

theorem connect_step_keep {w v : World} (hc : v.connected = w.connected)
    (hg : v.connecting = w.connecting) (hn : v.calls = w.calls) : ConnectStep w v :=
  Or.inl ⟨hc, hg, by rw [hn]⟩

theorem cmd_connect_step (sdk : Sdk) (cmd_id url : String) (w : World) :
    ConnectStep w (cmd_connect sdk cmd_id url w) := by
  unfold cmd_connect
  split
  · exact connect_step_keep rfl rfl rfl
  · rename_i h
    have hc : w.connected = false := by cases hh : w.connected <;> simp_all
    have hg : w.connecting = false := by cases hh : w.connecting <;> simp_all
    cases sdk.fromURL (c_str url)
    · exact connect_step_keep rfl rfl rfl
    · exact Or.inr ⟨hc, hg, hc, rfl, by
        simp [output_result, World.call, connect_count, List.filter_append,
          SdkCall.isConnect]⟩

theorem cmd_disconnect_step (cmd_id : String) (w : World) :
    ConnectStep w (cmd_disconnect cmd_id w) := by
  unfold cmd_disconnect
  simp only []
  split
  · exact Or.inl ⟨rfl, rfl, by
      simp [output_result, World.call, connect_count, List.filter_append,
        SdkCall.isConnect]⟩
  · exact connect_step_keep rfl rfl rfl

theorem cmd_parse_url_step (sdk : Sdk) (cmd_id url : String) (w : World) :
    ConnectStep w (cmd_parse_url sdk cmd_id url w) := by
  unfold cmd_parse_url
  cases sdk.fromURL (c_str url) <;> exact connect_step_keep rfl rfl rfl

/-- Without notifications during its sleeps, a handler leaves the flags alone
and requests no connection, unless it is a `connect` that finds both flags
false: that one sets `connecting` and requests one connection. -/
theorem dispatch_connect_step (sdk : Sdk) (cmd_id cmd : String) (iss : IStream) (w : World)
    (ticks : List Tick)
    (hquiet : Schedule.all (fun e => !Async.isNotification e) ticks) :
    ConnectStep w (dispatch sdk cmd_id cmd iss w ticks).world := by
  have hstep : ∀ (base v : World) (e : Async), (!Async.isNotification e) = true →
      (v.connected = base.connected ∧ v.connecting = base.connecting
        ∧ connect_count v.calls = connect_count base.calls) →
      ((v.deliver e).connected = base.connected ∧ (v.deliver e).connecting = base.connecting
        ∧ connect_count (v.deliver e).calls = connect_count base.calls) := by
    intro base v e he hv
    have := deliver_flags v e (by simpa using he)
    exact ⟨this.1.trans hv.1, this.2.trans hv.2.1, by rw [deliver_calls]; exact hv.2.2⟩
  by_cases hid : cmd_id = ""
  · simp only [dispatch, hid, true_or, if_true]; exact connect_step_keep rfl rfl rfl
  by_cases hcmd : cmd = ""
  · simp only [dispatch, hcmd, or_true, if_true]; exact connect_step_keep rfl rfl rfl
  by_cases hsix : cmd ∈ ["info", "monitor", "statistics", "fgstatistics", "logfiles", "readlog"]
  · obtain ⟨request, cb, hreq, hd⟩ := dispatch_single_shot_request sdk cmd_id cmd iss hid hsix
    rw [hd]
    unfold cmd_single_shot
    split
    · exact connect_step_keep rfl rfl rfl
    · exact Or.inl (wait_done_inv
        (fun v => v.connected = w.connected ∧ v.connecting = w.connecting
          ∧ connect_count v.calls = connect_count w.calls) _
        (hstep w) ticks _ hquiet
        ⟨rfl, rfl, connect_count_request w.calls request hreq⟩)
  · by_cases hstream : cmd = "stream"
    · subst hstream
      obtain ⟨interval_ms, count, hd⟩ : ∃ interval_ms count,
          dispatch sdk cmd_id "stream" iss w ticks
            = cmd_stream_monitor cmd_id interval_ms count w ticks :=
        ⟨_, _, by simp [dispatch, hid]; rfl⟩
      rw [hd]
      unfold cmd_stream_monitor
      split
      · exact connect_step_keep rfl rfl rfl
      · exact Or.inl (stream_loop_inv
          (fun v => v.connected = w.connected ∧ v.connecting = w.connecting
            ∧ connect_count v.calls = connect_count w.calls) _
          (hstep w)
          (fun v hv => ⟨hv.1, hv.2.1, by
            show connect_count (v.calls ++ [SdkCall.requestGetMonitorData]) = _
            rw [connect_count_request v.calls .requestGetMonitorData rfl]; exact hv.2.2⟩)
          cmd_id (fun _ hv => hv) _ _ _ _ w ticks hquiet ⟨rfl, rfl, rfl⟩)
    · simp only [List.mem_cons, List.mem_singleton, List.not_mem_nil, or_false, not_or] at hsix
      obtain ⟨h1, h2, h3, h4, h5, h6⟩ := hsix
      unfold dispatch
      simp only [hid, hcmd, h1, h2, h3, h4, h5, h6, hstream, or_self, if_false]
      split_ifs
      · exact connect_step_keep rfl rfl rfl
      · exact cmd_parse_url_step sdk cmd_id _ w
      · exact cmd_connect_step sdk cmd_id _ w
      · exact cmd_disconnect_step cmd_id w
      · exact connect_step_keep rfl rfl rfl
      · exact connect_step_keep rfl rfl rfl
      · exact connect_step_keep rfl rfl rfl

theorem coherent_down (w : World) : Coherent w .down :=
  ⟨fun h => (nomatch h), fun h => (nomatch h)⟩

theorem coherent_attempting (w : World) (hc : w.connected = false)
    (hg : w.connecting = true) : Coherent w .attempting :=
  ⟨fun _ => ⟨hc, hg⟩, fun h => (nomatch h)⟩

theorem coherent_up (w : World) (hc : w.connected = true) (hg : w.connecting = false) :
    Coherent w .up :=
  ⟨fun h => (nomatch h), fun _ => ⟨hc, hg⟩⟩

/-- A handler run without notifications is an allowed step and keeps the
flags in agreement with the link. -/
theorem dispatch_coherent (sdk : Sdk) (line : String) (w : World) (ticks : List Tick)
    (link : Link) (h : Coherent w link)
    (hquiet : Schedule.all (fun e => !Async.isNotification e) ticks) :
    State.allowed w.state (parse_command sdk line w ticks).world.state = true
      ∧ Coherent (parse_command sdk line w ticks).world
          (Link.after w.calls (parse_command sdk line w ticks).world.calls link) := by
  unfold parse_command
  rcases dispatch_connect_step sdk (line_id line) (line_cmd line) (line_args line) w ticks
    hquiet with ⟨h1, h2, h3⟩ | ⟨h1, h2, h3, h4, h5⟩
  · refine ⟨?_, ?_⟩
    · rw [state_eq_of_flags h1 h2]; exact State.allowed_refl _
    · unfold Link.after
      rw [h3, if_neg (Nat.lt_irrefl _)]
      unfold Coherent at h ⊢
      rw [h1, h2]; exact h
  · refine ⟨by simp [World.state, h1, h2, h3, h4, State.allowed], ?_⟩
    unfold Link.after
    rw [h5, if_pos (Nat.lt_succ_self _)]
    exact ⟨fun _ => ⟨h3, h4⟩, fun hl => (nomatch hl)⟩

/-! ## The claims -/

/-- C1, counterexample (an unbounded stream): for `1 stream` (count 0)
dispatched while Connected there is no schedule without signal or disconnect,
every answer a success, on which the handler returns or writes a terminal
message. -/
theorem C1_unbounded_stream_counterexample :
    ¬ ∃ ticks : List Tick, Schedule.all Async.isCalm ticks
        ∧ ((parse_command sample_sdk "1 stream" connected_world ticks).returned = true
          ∨ ∃ m ∈ (parse_command sample_sdk "1 stream" connected_world ticks).world.out,
              m.isTerminal = true) := by
  rintro ⟨ticks, hall, hbad⟩
  have h1 : line_id "1 stream" = "1" := by decide
  have h2 : line_cmd "1 stream" = "stream" := by decide
  have h3 : (extract_int 2000 (line_args "1 stream")).1 = 2000 := by decide
  have h4 : (extract_int 0 (extract_int 2000 (line_args "1 stream")).2).1 = 0 := by decide
  have hd : parse_command sample_sdk "1 stream" connected_world ticks
      = stream_loop "1" 2000 0 (ticks.length + 1) 0 connected_world ticks := by
    unfold parse_command
    rw [h1, h2]
    simp only [dispatch, reduceCtorEq, String.reduceEq, or_self, if_false, if_true, h3, h4]
    rfl
  rw [hd] at hbad
  have hr := stream_loop_unbounded "1" 2000 (ticks.length + 1) 0 connected_world ticks hall
    ⟨rfl, rfl⟩
  rcases hbad with hret | ⟨m, hm, hterm⟩
  · rw [hr] at hret; cases hret
  · obtain ⟨_, l, hout, hl, hk⟩ := stream_loop_tracks_blocked "1" 2000 0 connected_world.out
      _ _ connected_world ticks (tracks_start connected_world "1" rfl) hr
    rw [hout] at hm
    have hev := events_of_no_terminal hl (by omega) m (by simpa [connected_world] using hm)
    cases m <;> simp_all [Msg.isEvent, Msg.isTerminal]

/-- C1, amended. A line with an id and a command name, dispatched with
shutdown not raised and no request outstanding, on a schedule without signal:
what the handler writes is events (which carry no id) and terminal messages
with the line's id, at most one of these, and exactly one once the handler has
returned.  A handler that has not returned is one of the seven data commands,
asleep at the end of the schedule; and every command other than `stream`
returns when the schedule brings a response. -/
theorem C1_terminal_account (sdk : Sdk) (line : String) (w : World) (ticks : List Tick)
    (hid : line_id line ≠ "") (hcmd : line_cmd line ≠ "")
    (hs : w.should_exit = false) (hp : w.pending = none)
    (hnosig : Schedule.all (fun e => !Async.isSignal e) ticks) :
    (∃ l, (parse_command sdk line w ticks).world.out = w.out ++ l
        ∧ (∀ m ∈ l, m.isEvent = true
            ∨ (m.isTerminal = true ∧ m.id? = some (line_id line)))
        ∧ (l.filter Msg.isTerminal).length ≤ 1
        ∧ ((parse_command sdk line w ticks).returned = true →
            (l.filter Msg.isTerminal).length = 1))
    ∧ ((parse_command sdk line w ticks).returned = false →
        (parse_command sdk line w ticks).rest = []
          ∧ line_cmd line ∈ ["info", "monitor", "statistics", "fgstatistics", "logfiles",
              "readlog", "stream"])
    ∧ (line_cmd line ≠ "stream" → Schedule.any Async.isResponse ticks →
        (parse_command sdk line w ticks).returned = true) := by
  unfold parse_command
  rcases dispatch_cases sdk (line_id line) (line_cmd line) (line_args line) w hid hcmd with
    ⟨v, hd, hone, _⟩ | ⟨hsix, request, cb, hcb, hd⟩ | ⟨hstream, interval_ms, count, hd⟩
  · rw [hd]
    exact And.intro (account_of_one ticks hone) ⟨fun h => Bool.noConfusion h, fun _ _ => rfl⟩
  · rw [hd]
    refine And.intro (cmd_single_shot_account _ request cb hcb w ticks hs hnosig) ⟨?_, ?_⟩
    · intro hr
      constructor
      · unfold cmd_single_shot at hr ⊢
        split
        · rename_i hc; rw [if_pos hc] at hr; cases hr
        · rename_i hc; rw [if_neg hc] at hr; exact wait_done_blocked _ _ hr
      · simp only [List.mem_cons, List.mem_singleton, List.not_mem_nil, or_false] at hsix ⊢
        tauto
    · intro _ hany
      unfold cmd_single_shot
      split
      · rfl
      · exact wait_done_answered ticks _ hany
  · rw [hd]
    refine And.intro (cmd_stream_monitor_account _ interval_ms count w ticks hp)
      ⟨?_, fun h => absurd hstream h⟩
    intro hr
    constructor
    · unfold cmd_stream_monitor at hr ⊢
      split
      · rename_i hc; rw [if_pos hc] at hr; cases hr
      · rename_i hc; rw [if_neg hc] at hr
        exact stream_loop_blocked _ _ _ _ _ w ticks (Nat.lt_succ_self _) hr
    · simp [hstream]

/-- C1 at `5 monitor` while Connected, answered in the second tick after a
connect notification. -/
theorem C1_terminal_account_witness :
    (parse_command sample_sdk "5 monitor" connected_world
        [[Async.onConnect], [Async.response ok_reply]]).returned = true
      ∧ ∃ l, (parse_command sample_sdk "5 monitor" connected_world
            [[Async.onConnect], [Async.response ok_reply]]).world.out
            = connected_world.out ++ l
          ∧ (∀ m ∈ l, m.isEvent = true
              ∨ (m.isTerminal = true ∧ m.id? = some (line_id "5 monitor")))
          ∧ (l.filter Msg.isTerminal).length = 1 :=
  have h := C1_terminal_account sample_sdk "5 monitor" connected_world
    [[Async.onConnect], [Async.response ok_reply]] (by decide) (by decide) rfl rfl
    (by intro t ht e he; revert e; revert t; decide)
  have hr := h.2.2 (by decide)
    ⟨[Async.response ok_reply], by decide, Async.response ok_reply, by decide, rfl⟩
  ⟨hr, h.1.elim fun l hl => ⟨l, hl.1, hl.2.1, hl.2.2.2 hr⟩⟩

/-- C2. A data command (`info`, `monitor`, `statistics`, `fgstatistics`,
`logfiles`, `readlog`, `stream`) dispatched while `connected` is false returns
at once having written exactly the Error "Not connected" with the line's id:
no Result, no SDK call, no tick consumed, and the flags as they were. -/
theorem C2_not_connected (sdk : Sdk) (line : String) (w : World) (ticks : List Tick)
    (hid : line_id line ≠ "")
    (hcmd : line_cmd line ∈
      ["info", "monitor", "statistics", "fgstatistics", "logfiles", "readlog", "stream"])
    (hc : w.connected = false) :
    parse_command sdk line w ticks
      = ⟨{ w with out := w.out ++ [Msg.error (line_id line) "Not connected"] },
          ticks, true⟩ := by
  unfold parse_command
  simp only [List.mem_cons, List.mem_singleton, List.not_mem_nil, or_false] at hcmd
  rcases hcmd with h | h | h | h | h | h | h <;>
    simp [h, dispatch, hid, cmd_get_info, cmd_get_monitor_data, cmd_get_statistics,
      cmd_get_fg_statistics, cmd_get_log_files, cmd_read_log_file, cmd_single_shot,
      cmd_stream_monitor, hc, output_error]

/-- C2 at `9 stream 100 3` in the initial state, with a signal pending. -/
theorem C2_not_connected_witness :
    parse_command sample_sdk "9 stream 100 3" idle_world [[Async.signal]]
      = ⟨{ idle_world with
            out := idle_world.out ++ [Msg.error (line_id "9 stream 100 3") "Not connected"] },
          [[Async.signal]], true⟩ :=
  C2_not_connected sample_sdk "9 stream 100 3" idle_world [[Async.signal]]
    (by decide) (by decide) rfl

/-- C3. A `connect` line whose guard is evaluated in one state with `connected`
or `connecting` set writes exactly the Error "Already connected or connecting"
and nothing else happens: no SDK connect, flags unchanged; and in every state
of the binding with a flag set `Connect` throws the same message, again
without an SDK call or a state change (so for `4 connect pm://good` after a
first `connect`, in the bridge and in the binding).  The guard
`connected || connecting` is two loads, however.  The command is rejected
whenever one of the loads returns true; but when the connect notification
runs between the two, the first load still sees `connected = false` and the
second already sees `connecting = false`: a `connect` issued while Connecting,
with the state Connected when its guard ends, is accepted, a second SDK
connect is issued and `connecting` is set.  The same run goes through in the
binding. -/
theorem C3_reentrant_connect :
    (∀ (sdk : Sdk) (line : String) (w : World) (ticks : List Tick),
        line_id line ≠ "" → line_cmd line = "connect" →
        (w.connected = true ∨ w.connecting = true) →
        parse_command sdk line w ticks
          = ⟨{ w with out := w.out
                ++ [Msg.error (line_id line) "Already connected or connecting"] },
              ticks, true⟩)
    ∧ (∀ (sdk : Sdk) (self : Wrapper) (info : Option ConnectOptions),
        Wrapper.Reachable sdk self →
        (self.connected_ = true ∨ self.connecting_ = true) →
        PowermonWrapper.Connect sdk self info
          = (self, some "Already connected or connecting"))
    ∧ (parse_command sample_sdk "4 connect pm://good" connecting_world []
          = ⟨{ connecting_world with
                out := [Msg.result "1" true 0 none,
                  Msg.error "4" "Already connected or connecting"] }, [], true⟩
        ∧ Wrapper.Reachable sample_sdk connecting_wrapper
        ∧ connecting_wrapper.connecting_ = true
        ∧ PowermonWrapper.Connect sample_sdk connecting_wrapper (some url_options)
          = (connecting_wrapper, some "Already connected or connecting"))
    ∧ (∀ (sdk : Sdk) (cmd_id url : String) (seen : Bool) (w : World),
        (seen = true ∨ w.connecting = true) →
        cmd_connect_loads sdk cmd_id url seen w
          = output_error cmd_id "Already connected or connecting" w)
    ∧ (∀ (sdk : Sdk) (cmd_id url : String) (w : World),
        cmd_connect_loads sdk cmd_id url w.connected w = cmd_connect sdk cmd_id url w)
    ∧ (connecting_world.state = .Connecting
        ∧ connecting_world.connected = false
        ∧ (connecting_world.deliver .onConnect).state = .Connected
        ∧ (connecting_world.deliver .onConnect).connecting = false
        ∧ cmd_connect_loads sample_sdk "2" "pm://good" connecting_world.connected
            (connecting_world.deliver .onConnect)
          = { idle_world with
                connected := true, connecting := true,
                out := [Msg.result "1" true 0 none, Msg.event "connected" none,
                  Msg.result "2" true 0 none],
                calls := [.connectWifi sample_key, .connectWifi sample_key] })
    ∧ (connecting_wrapper.state = .Connecting
        ∧ (PowermonWrapper.onConnect connecting_wrapper).state = .Connected
        ∧ PowermonWrapper.Connect_loads sample_sdk connecting_wrapper.connected_
            (PowermonWrapper.onConnect connecting_wrapper) (some url_options)
          = ({ PowermonWrapper.new true (some true) sample_key with
                connected_ := true, connecting_ := true,
                calls := [.connectWifi sample_key, .connectWifi sample_key] }, none)) := by
  refine ⟨?_, fun sdk self info hr hs => connect_rejected sdk self info hr hs,
    ⟨by decide, connecting_wrapper_reachable, rfl, by decide⟩, ?_,
    fun _ _ _ _ => rfl, by decide, by decide⟩
  · intro sdk line w ticks hid hcmd hw
    unfold parse_command
    rcases hw with h | h <;> simp [hcmd, dispatch, hid, cmd_connect, h, output_error]
  · intro sdk cmd_id url seen w h
    unfold cmd_connect_loads
    rcases h with h | h <;> simp [h]

/-- C4. A `stream` with count `n > 0` issued while Connected, on a schedule
that holds the connection, raises no shutdown and answers with `RSP_SUCCESS`
only: whenever the handler returns, what it wrote is events, exactly `n` of
them monitor events, followed by the one Result (success true, code 0) with
its id; and it does return when each of its `n` requests is answered within
the first 10 ms sleep after it. -/
theorem C4_stream_count (cmd_id : String) (interval_ms : Int) (n : Nat) (w : World)
    (hn : 0 < n) (hc : w.connected = true) (hs : w.should_exit = false)
    (hp : w.pending = none) :
    (∀ ticks, Schedule.all Async.isCalm ticks →
        (cmd_stream_monitor cmd_id interval_ms n w ticks).returned = true →
        ∃ l, (cmd_stream_monitor cmd_id interval_ms n w ticks).world.out
              = w.out ++ l ++ [Msg.result cmd_id true 0 none]
          ∧ (∀ m ∈ l, m.isEvent = true)
          ∧ (l.filter Msg.isMonitor).length = n)
    ∧ (∀ ticks, Schedule.all Async.isCalm ticks → PromptAnswers interval_ms n ticks →
        (cmd_stream_monitor cmd_id interval_ms n w ticks).returned = true) := by
  have h0 : ((0 : Nat) : Int) = 0 := rfl
  constructor
  · intro ticks hall hr
    unfold cmd_stream_monitor at hr ⊢
    simp only [hc, Bool.not_true, Bool.false_eq_true, if_false] at hr ⊢
    rw [← h0] at hr ⊢
    have := stream_loop_calm cmd_id interval_ms n w.out hn (ticks.length + 1) 0 0 w ticks hall hp
      ⟨⟨Or.inl hp, [], by simp, by simp, by simp [World.owed_monitor, hp]⟩, hc, hs⟩
      (Nat.zero_le _) hr
    simpa using this
  · intro ticks hall hprompt
    unfold cmd_stream_monitor
    simp only [hc, Bool.not_true, Bool.false_eq_true, if_false]
    rw [← h0]
    have hlen : n ≤ ticks.length := by
      have h1 := answers_at_lt (hprompt (n - 1) (by omega))
      have h2 : (n - 1) * 1 ≤ (n - 1) * (interval_ticks interval_ms + 1) :=
        Nat.mul_le_mul_left _ (Nat.le_add_left 1 _)
      omega
    exact stream_loop_prompt cmd_id interval_ms n hn (ticks.length + 1) n 0 w ticks hall hprompt
      ⟨hc, hs⟩ (by omega) (by omega)

/-- C4 at interval 100, count 3, each request answered in the next tick and
ten idle ticks after each answer: the handler returns having written three
monitor events and then the Result. -/
theorem C4_stream_count_witness :
    (cmd_stream_monitor "7" 100 (3 : Nat) connected_world spaced_schedule).returned = true
      ∧ (∃ l,
          (cmd_stream_monitor "7" 100 (3 : Nat) connected_world spaced_schedule).world.out
              = connected_world.out ++ l ++ [Msg.result "7" true 0 none]
          ∧ (∀ m ∈ l, m.isEvent = true)
          ∧ (l.filter Msg.isMonitor).length = 3)
      ∧ (cmd_stream_monitor "7" 100 (3 : Nat) connected_world spaced_schedule).world.out
          = [ok_event, ok_event, ok_event, Msg.result "7" true 0 none] :=
  have hcalm : Schedule.all Async.isCalm spaced_schedule := by
    intro t ht e he; revert e; revert t; decide
  have h := C4_stream_count "7" 100 3 connected_world (by decide) rfl rfl rfl
  have hr := h.2 spaced_schedule hcalm (by unfold PromptAnswers; decide)
  ⟨hr, h.1 spaced_schedule hcalm hr, by decide⟩

/-- C5, counterexample: a stream whose poll is cut by the signal returns with
its Result written and its request still outstanding; the answer that arrives
afterwards writes a monitor event of that stream after the Result. -/
theorem C5_late_event_counterexample :
    (cmd_stream_monitor "7" 100 3 connected_world [[Async.signal]]).returned = true
      ∧ (cmd_stream_monitor "7" 100 3 connected_world [[Async.signal]]).world.out
          = [Msg.result "7" true 0 none]
      ∧ (cmd_stream_monitor "7" 100 3 connected_world [[Async.signal]]).world.pending
          = some .stream_monitor
      ∧ ((cmd_stream_monitor "7" 100 3 connected_world [[Async.signal]]).world.deliver
            (.response ok_reply)).out
          = [Msg.result "7" true 0 none, ok_event]
      ∧ ok_event.isMonitor = true := by
  decide

/-- C5, amended. Whenever the loop of a `stream` command is left, for
whichever reason, the handler has written, after what was there before, events
only and then exactly one Result (success true, code 0) with the command's id,
so the Result follows every monitor event written up to the return.  What
arrives on the other threads after the return, in any number and order, adds
events only, never a second Result or an Error, and at most one monitor event
among them: the answer to a request that was still outstanding.  When nothing
is outstanding at the return no monitor event follows the Result, and that is
so whenever shutdown is not raised at the return (the loop was left because
the count was reached or the connection was lost).  Each of the three reasons
makes the loop test fail and the Result follow at once. -/
theorem C5_stream_exit_result (cmd_id : String) (interval_ms count : Int) (w : World)
    (ticks : List Tick) (hc : w.connected = true) (hp : w.pending = none)
    (hr : (cmd_stream_monitor cmd_id interval_ms count w ticks).returned = true) :
    (∃ l, (cmd_stream_monitor cmd_id interval_ms count w ticks).world.out
          = w.out ++ l ++ [Msg.result cmd_id true 0 none]
        ∧ (∀ m ∈ l, m.isEvent = true)
        ∧ ∀ late : Tick, ∃ l',
            ((cmd_stream_monitor cmd_id interval_ms count w ticks).world.usleep late).out
              = w.out ++ l ++ [Msg.result cmd_id true 0 none] ++ l'
            ∧ (∀ m ∈ l', m.isEvent = true)
            ∧ (l'.filter Msg.isMonitor).length ≤ 1
            ∧ ((cmd_stream_monitor cmd_id interval_ms count w ticks).world.pending = none →
                l'.filter Msg.isMonitor = []))
    ∧ ((cmd_stream_monitor cmd_id interval_ms count w ticks).world.should_exit = false →
        (cmd_stream_monitor cmd_id interval_ms count w ticks).world.pending = none)
    ∧ (∀ (fuel : Nat) (samples : Int) (v : World) (rest : List Tick),
        (v.should_exit = true ∨ v.connected = false ∨ (count ≠ 0 ∧ count ≤ samples)) →
        stream_loop cmd_id interval_ms count (fuel + 1) samples v rest
          = ⟨output_result cmd_id true 0 none v, rest, true⟩) := by
  refine ⟨cmd_stream_monitor_late cmd_id interval_ms count w ticks hc hp hr, ?_, ?_⟩
  · intro hs
    unfold cmd_stream_monitor at hr hs ⊢
    simp only [hc, Bool.not_true, Bool.false_eq_true, if_false] at hr hs ⊢
    rcases stream_loop_quiet cmd_id interval_ms count _ _ w ticks (Or.inl hp) hr with h | h
    · exact h
    · rw [hs] at h; cases h
  · intro fuel samples v rest h
    apply stream_loop_exit
    rcases h with h | h | ⟨h1, h2⟩
    · simp [stream_continues, h]
    · simp [stream_continues, h]
    · have : ¬ samples < count := not_lt.mpr h2
      simp [stream_continues, h1, this]

/-- C5 at a stream of count 3 and interval 100 whose first poll is cut by the
signal: the Result is written at the return, and the late answer adds one
monitor event after it. -/
theorem C5_stream_exit_result_witness :
    ((∃ l, (cmd_stream_monitor "7" 100 3 connected_world [[Async.signal]]).world.out
          = connected_world.out ++ l ++ [Msg.result "7" true 0 none]
        ∧ (∀ m ∈ l, m.isEvent = true)
        ∧ ∀ late : Tick, ∃ l',
            ((cmd_stream_monitor "7" 100 3 connected_world [[Async.signal]]).world.usleep
                late).out
              = connected_world.out ++ l ++ [Msg.result "7" true 0 none] ++ l'
            ∧ (∀ m ∈ l', m.isEvent = true)
            ∧ (l'.filter Msg.isMonitor).length ≤ 1
            ∧ ((cmd_stream_monitor "7" 100 3 connected_world [[Async.signal]]).world.pending
                  = none →
                l'.filter Msg.isMonitor = []))
    ∧ ((cmd_stream_monitor "7" 100 3 connected_world [[Async.signal]]).world.should_exit
          = false →
        (cmd_stream_monitor "7" 100 3 connected_world [[Async.signal]]).world.pending = none)
    ∧ (∀ (fuel : Nat) (samples : Int) (v : World) (rest : List Tick),
        (v.should_exit = true ∨ v.connected = false ∨ ((3 : Int) ≠ 0 ∧ 3 ≤ samples)) →
        stream_loop "7" 100 3 (fuel + 1) samples v rest
          = ⟨output_result "7" true 0 none v, rest, true⟩))
    ∧ ((cmd_stream_monitor "7" 100 3 connected_world [[Async.signal]]).world.usleep
          [Async.response ok_reply]).out
        = [Msg.result "7" true 0 none, ok_event] :=
  ⟨C5_stream_exit_result "7" 100 3 connected_world [[Async.signal]] rfl rfl (by decide),
    by decide⟩

/-- C7, counterexample: a stream cut short by the signal, during its
outstanding request or during the inter-sample wait, still writes a Result
for its id. -/
theorem C7_stream_shutdown_counterexample :
    cmd_stream_monitor "7" 100 3 connected_world [[Async.signal]]
        = ⟨{ connected_world with should_exit := true, pending := some .stream_monitor,
                                  out := [Msg.result "7" true 0 none],
                                  calls := [SdkCall.requestGetMonitorData] }, [], true⟩
      ∧ cmd_stream_monitor "7" 100 3 connected_world
          [[Async.response ok_reply], [], [Async.signal]]
        = ⟨{ connected_world with should_exit := true,
                                  out := [ok_event, Msg.result "7" true 0 none],
                                  calls := [SdkCall.requestGetMonitorData] }, [], true⟩ := by
  decide

/-- C7, amended. A running stream on which the shutdown signal is raised,
during an outstanding request or during the inter-sample wait, returns, having
written events only and then exactly one Result (success true, code 0) with
its id; no Error is written.  What arrives on the other threads after the
handler has returned, the answer to a request still outstanding included, adds
events only (at most one monitor event among them): the Result stays the one
Response for the id. -/
theorem C7_stream_shutdown_result (cmd_id : String) (interval_ms count : Int) (w : World)
    (ticks : List Tick) (hc : w.connected = true) (hp : w.pending = none)
    (hsig : Schedule.any Async.isSignal ticks) :
    (cmd_stream_monitor cmd_id interval_ms count w ticks).returned = true
      ∧ ∃ l, (cmd_stream_monitor cmd_id interval_ms count w ticks).world.out
            = w.out ++ l ++ [Msg.result cmd_id true 0 none]
          ∧ (∀ m ∈ l, m.isEvent = true)
          ∧ ∀ late : Tick, ∃ l',
              ((cmd_stream_monitor cmd_id interval_ms count w ticks).world.usleep late).out
                = w.out ++ l ++ [Msg.result cmd_id true 0 none] ++ l'
              ∧ (∀ m ∈ l', m.isEvent = true)
              ∧ (l'.filter Msg.isMonitor).length ≤ 1 := by
  have hr : (cmd_stream_monitor cmd_id interval_ms count w ticks).returned = true := by
    unfold cmd_stream_monitor
    simp only [hc, Bool.not_true, Bool.false_eq_true, if_false]
    exact stream_loop_raised cmd_id interval_ms count _ _ w ticks (Nat.lt_succ_self _)
      (Or.inr hsig)
  obtain ⟨l, hout, hl, hlate⟩ := cmd_stream_monitor_late cmd_id interval_ms count w ticks hc hp hr
  refine ⟨hr, l, hout, hl, ?_⟩
  intro late
  obtain ⟨l', h1, h2, h3, _⟩ := hlate late
  exact ⟨l', h1, h2, h3⟩

/-- C7 at a stream of count 3 on which the signal arrives during the first
outstanding request, and the answer after the handler has returned. -/
theorem C7_stream_shutdown_result_witness :
    ((cmd_stream_monitor "7" 100 3 connected_world [[Async.signal]]).returned = true
      ∧ ∃ l, (cmd_stream_monitor "7" 100 3 connected_world [[Async.signal]]).world.out
            = connected_world.out ++ l ++ [Msg.result "7" true 0 none]
          ∧ (∀ m ∈ l, m.isEvent = true)
          ∧ ∀ late : Tick, ∃ l',
              ((cmd_stream_monitor "7" 100 3 connected_world [[Async.signal]]).world.usleep
                  late).out
                = connected_world.out ++ l ++ [Msg.result "7" true 0 none] ++ l'
              ∧ (∀ m ∈ l', m.isEvent = true)
              ∧ (l'.filter Msg.isMonitor).length ≤ 1)
    ∧ ((cmd_stream_monitor "7" 100 3 connected_world [[Async.signal]]).world.usleep
          [Async.response timeout_reply, Async.onDisconnect .CLOSED]).out
        = [Msg.result "7" true 0 none, Msg.event "disconnected" (some "\"reason\":0")] :=
  ⟨C7_stream_shutdown_result "7" 100 3 connected_world [[Async.signal]] rfl rfl
      ⟨[Async.signal], List.mem_singleton.mpr rfl, Async.signal, List.mem_singleton.mpr rfl,
        rfl⟩,
    by decide⟩

/-- C8. The connect notification sets `connected = true`, `connecting = false`
(state Connected) and writes exactly the event line
`{"type":"event","event":"connected"}`; the disconnect notification sets both
flags false (state Disconnected) and writes exactly one `disconnected` event
whose `reason` field is the decimal value of the reason, `CLOSED = 0` up to
`READ_ERROR = 6`. -/
theorem C8_notifications (w : World) (reason : DisconnectReason) :
    (w.deliver .onConnect
        = { w with connected := true, connecting := false,
                   out := w.out ++ [Msg.event "connected" none] }
      ∧ (w.deliver .onConnect).state = .Connected
      ∧ (Msg.event "connected" none).render
          = "\x7b\"type\":\"event\",\"event\":\"connected\"\x7d\n")
    ∧ (w.deliver (.onDisconnect reason)
        = { w with connected := false, connecting := false,
                   out := w.out ++ [Msg.event "disconnected"
                     (some ("\"reason\":" ++ toString reason.toNat))] }
      ∧ (w.deliver (.onDisconnect reason)).state = .Disconnected
      ∧ (Msg.event "disconnected" (some ("\"reason\":" ++ toString reason.toNat))).render
          = "\x7b\"type\":\"event\",\"event\":\"disconnected\",\"reason\":"
              ++ toString reason.toNat ++ "\x7d\n")
    ∧ List.map DisconnectReason.toNat
        [.CLOSED, .NO_ROUTE, .FAILED, .UNEXPECTED_ERROR, .UNEXPECTED_RESPONSE, .WRITE_ERROR,
          .READ_ERROR] = [0, 1, 2, 3, 4, 5, 6] := by
  refine ⟨⟨rfl, rfl, by decide⟩, ⟨rfl, rfl, ?_⟩, rfl⟩
  cases reason <;> decide

/-- C9. With the handlers and the notifications taken as whole steps and the
SDK notifying as `powermon.h` documents (the connect notification only for a
connection attempt), every step is within the table: in a state whose flags
agree with the link, a handler run without notifications, the connect
notification of an attempt, a disconnect notification and any other event
each leave the state unchanged or make one of Disconnected→Connecting,
Connecting→Connected, Connecting→Disconnected, Connected→Disconnected, and
the flags agree with the link again; no attempt is pending while
Disconnected, and no event goes from Connected to Connecting.  The initial
state, the state after a first `connect` and the state after its connect
notification are such states.  The notifications are not whole steps,
however.  When `2 connect pm://good` is handled between the two stores of the
disconnect notification that ends a connection, its guard sees both flags
false, it sets `connecting` and requests a connection, and the second store of
the notification clears `connecting` again: the state is Disconnected with an
attempt pending, and the connect notification of that attempt goes from
Disconnected directly to Connected. -/
theorem C9_transitions :
    (∀ (sdk : Sdk) (w : World) (link : Link), Coherent w link →
        (∀ line ticks, Schedule.all (fun e => !Async.isNotification e) ticks →
          State.allowed w.state (parse_command sdk line w ticks).world.state = true
            ∧ Coherent (parse_command sdk line w ticks).world
                (Link.after w.calls (parse_command sdk line w ticks).world.calls link))
        ∧ (link = .attempting →
            w.state = .Connecting ∧ (w.deliver .onConnect).state = .Connected
              ∧ Coherent (w.deliver .onConnect) .up)
        ∧ (∀ reason,
            State.allowed w.state (w.deliver (.onDisconnect reason)).state = true
              ∧ Coherent (w.deliver (.onDisconnect reason)) .down)
        ∧ (∀ e, e.isNotification = false →
            (w.deliver e).state = w.state ∧ Coherent (w.deliver e) link)
        ∧ (w.state = .Disconnected → link ≠ .attempting))
    ∧ (∀ (w : World) (e : Async), w.state = .Connected → (w.deliver e).state ≠ .Connecting)
    ∧ (Coherent idle_world .down ∧ Coherent connecting_world .attempting
        ∧ Coherent (connecting_world.deliver .onConnect) .up)
    ∧ ((connecting_world.deliver .onConnect).state = .Connected
        ∧ half_disconnected_world
            = { idle_world with
                  out := [Msg.result "1" true 0 none, Msg.event "connected" none],
                  calls := [.connectWifi sample_key] }
        ∧ (parse_command sample_sdk "2 connect pm://good" half_disconnected_world []).world
            = { idle_world with
                  connecting := true,
                  out := [Msg.result "1" true 0 none, Msg.event "connected" none,
                    Msg.result "2" true 0 none],
                  calls := [.connectWifi sample_key, .connectWifi sample_key] }
        ∧ reconnecting_world
            = { idle_world with
                  out := [Msg.result "1" true 0 none, Msg.event "connected" none,
                    Msg.result "2" true 0 none,
                    Msg.event "disconnected" (some "\"reason\":0")],
                  calls := [.connectWifi sample_key, .connectWifi sample_key] }
        ∧ reconnecting_world.state = .Disconnected
        ∧ (reconnecting_world.deliver .onConnect).state = .Connected
        ∧ State.allowed reconnecting_world.state
            (reconnecting_world.deliver .onConnect).state = false) := by
  refine ⟨?_, ?_, ⟨coherent_down idle_world, coherent_attempting _ rfl rfl,
    coherent_up _ rfl rfl⟩, by decide⟩
  · intro sdk w link hco
    refine ⟨fun line ticks hq => dispatch_coherent sdk line w ticks link hco hq, ?_, ?_, ?_, ?_⟩
    · intro hl
      obtain ⟨hc, hg⟩ := hco.1 hl
      exact ⟨by simp [World.state, hc, hg], rfl, coherent_up _ rfl rfl⟩
    · intro reason
      have hn : (w.deliver (.onDisconnect reason)).state = .Disconnected := rfl
      refine ⟨?_, coherent_down _⟩
      rw [hn]
      cases w.state <;> rfl
    · intro e he
      have hf := deliver_flags w e he
      refine ⟨state_eq_of_flags hf.1 hf.2, ?_⟩
      unfold Coherent at hco ⊢
      rw [hf.1, hf.2]; exact hco
    · intro hst hl
      obtain ⟨hc, hg⟩ := hco.1 hl
      simp [World.state, hc, hg] at hst
  · intro w e hst
    cases e with
    | response r =>
        have := deliver_flags w (.response r) rfl
        rw [state_eq_of_flags this.1 this.2, hst]; decide
    | signal =>
        have : (w.deliver .signal).state = w.state := rfl
        rw [this, hst]; decide
    | onConnect =>
        have hn : (w.deliver .onConnect).state = .Connected := rfl
        rw [hn]; decide
    | onDisconnect r =>
        have hn : (w.deliver (.onDisconnect r)).state = .Disconnected := rfl
        rw [hn]; decide

/-- C10. `parse` and `connect` agree on every URL `u`, whatever the decoder
`fromURL` is (it receives `u.c_str()`).  If it decodes to `d`: `parse` writes a
successful Result and `connect`, issued while Disconnected, calls the SDK
connect with `d.access_key`, sets `connecting` (state Connecting) and writes a
successful Result.  If it rejects: `parse` writes Result(false, -1, null), the
same message again when repeated, and `connect` writes the Error "Invalid
access URL", calls nothing and leaves the state Disconnected. -/
theorem C10_parse_connect_agree (sdk : Sdk) (cmd_id u : String) (w : World)
    (hc : w.connected = false) (hg : w.connecting = false) :
    (∀ d, sdk.fromURL (c_str u) = some d →
        cmd_parse_url sdk cmd_id u w
          = { w with out := w.out
                ++ [Msg.result cmd_id true 0 (some (device_identifier_to_json sdk d))] }
        ∧ cmd_connect sdk cmd_id u w
          = { w with connecting := true,
                     calls := w.calls ++ [SdkCall.connectWifi d.access_key],
                     out := w.out ++ [Msg.result cmd_id true 0 none] }
        ∧ (cmd_connect sdk cmd_id u w).state = .Connecting)
    ∧ (sdk.fromURL (c_str u) = none →
        cmd_parse_url sdk cmd_id u w
          = { w with out := w.out ++ [Msg.result cmd_id false (-1) (some "null")] }
        ∧ cmd_parse_url sdk cmd_id u (cmd_parse_url sdk cmd_id u w)
          = { w with out := w.out ++ [Msg.result cmd_id false (-1) (some "null"),
                                      Msg.result cmd_id false (-1) (some "null")] }
        ∧ cmd_connect sdk cmd_id u w
          = { w with out := w.out ++ [Msg.error cmd_id "Invalid access URL"] }
        ∧ (cmd_connect sdk cmd_id u w).state = .Disconnected) := by
  constructor
  · intro d hd
    simp [cmd_parse_url, cmd_connect, hd, hc, hg, output_result, World.call, World.state]
  · intro hd
    simp [cmd_parse_url, cmd_connect, hd, hc, hg, output_result, output_error, World.state]

/-- C10 at the decodable sample URL and at an undecodable one, from the
initial state. -/
theorem C10_parse_connect_agree_witness :
    (cmd_connect sample_sdk "1" "pm://good" idle_world
        = { idle_world with connecting := true,
                            calls := [SdkCall.connectWifi sample_key],
                            out := [Msg.result "1" true 0 none] })
      ∧ (cmd_parse_url sample_sdk "2" "nonsense" idle_world
        = { idle_world with out := [Msg.result "2" false (-1) (some "null")] }) :=
  ⟨((C10_parse_connect_agree sample_sdk "1" "pm://good" idle_world rfl rfl).1
      ⟨"pm", 0x1234, 0x41, 0, sample_key⟩ (by decide)).2.1,
   ((C10_parse_connect_agree sample_sdk "2" "nonsense" idle_world rfl rfl).2 (by decide)).1⟩

/-- C11. `escape_json_string` makes a valid JSON string body of any input.  The
output holds no character below 0x20; a JSON lexer reading it after an opening
quote stops exactly at the closing quote put after it, so it holds no unescaped
double quote; standard JSON unescaping of the output gives back the input, so
every backslash starts an escape and the encoding is injective; an input
without double quote, backslash and control characters is returned unchanged. -/
theorem C11_escape_json_string (s t : String) (rest : List Char) :
    (∀ c ∈ (escape_json_string s).data, 0x20 ≤ c.toNat)
    ∧ json_string_end ((escape_json_string s).data ++ '"' :: rest)
        = some ((escape_json_string s).data, rest)
    ∧ json_unescape (escape_json_string s).data = some s.data
    ∧ (escape_json_string s = escape_json_string t → s = t)
    ∧ ((∀ c ∈ s.data, c ≠ '"' ∧ c ≠ '\\' ∧ 0x20 ≤ c.toNat) →
        escape_json_string s = s) := by
  have hrt : ∀ u : String, json_unescape (escape_json_string u).data = some u.data := by
    intro u
    have h := json_unescape_escape u.data []
    rw [List.append_nil] at h
    rw [escape_json_string_data, h]
    simp [json_unescape]
  refine ⟨?_, ?_, hrt s, ?_, ?_⟩
  · intro c hc
    rw [escape_json_string_data, List.mem_flatMap] at hc
    obtain ⟨x, _, hx⟩ := hc
    exact escape_json_char_printable x c hx
  · rw [escape_json_string_data]
    exact json_string_end_escape s.data rest
  · intro h
    have h1 := hrt s
    rw [h, hrt t] at h1
    exact (String.ext (Option.some.inj h1)).symm
  · intro h
    apply String.ext
    rw [escape_json_string_data]
    exact escape_json_string_plain s.data h

/-- C12. The id of a message is printed as it was typed.  For the input line
with id token `a"b` and an unknown command the bridge writes one error line;
in it the id field, read as a JSON string, ends at the quote inside the token:
it decodes to `a`, not to the token, and is followed by `b` where a JSON object
needs a comma or a closing brace.  The same token passed through
`escape_json_string` would have been read back whole. -/
theorem C12_id_not_escaped :
    (parse_command sample_sdk "a\"b nonsense" idle_world []).world.out
        = [Msg.error "a\"b" "Unknown command"]
    ∧ (Msg.error "a\"b" "Unknown command").render
        = "\x7b\"type\":\"error\",\"id\":\"a\"b\",\"message\":\"Unknown command\"\x7d\n"
    ∧ json_string_end ((Msg.error "a\"b" "Unknown command").render.data.drop 22)
        = some ("a".data, "b\",\"message\":\"Unknown command\"\x7d\n".data)
    ∧ json_unescape "a".data = some "a".data
    ∧ "a" ≠ "a\"b"
    ∧ (escape_json_string "a\"b") = "a\\\"b"
    ∧ json_unescape (escape_json_string "a\"b").data = some "a\"b".data := by
  decide

/-- C13. A `readlog` issued while Connected and answered (after `k` idle
sleeps) with code `c` and a payload of `len` bytes writes exactly one Result
with the line's id whose success is `c == RSP_SUCCESS`, whose code is `c`, and
which has a data field exactly when `c == RSP_SUCCESS` and `len > 0`; the
object the binding hands to its callback has the same three fields.  So a
successful zero-length read (success true, no data) differs from a failed read
(success false, no data). -/
theorem C13_readlog_result (sdk : Sdk) (line : String) (w : World) (k : Nat)
    (r : Reply) (rest : List Tick) (hid : line_id line ≠ "")
    (hcmd : line_cmd line = "readlog")
    (hc : w.connected = true) (hs : w.should_exit = false) (hpay : r.hasPayload) :
    (∃ request,
      parse_command sdk line w (List.replicate k [] ++ [Async.response r] :: rest)
        = ⟨{ w with
              pending := none,
              calls := w.calls ++ [request],
              out := w.out ++ [Msg.result (line_id line) (decide (r.code = RSP_SUCCESS)) r.code
                (if r.code = RSP_SUCCESS ∧ r.len > 0
                  then some (log_bytes_to_json (r.data.getD []) r.len) else none)] },
            rest, true⟩)
      ∧ PowermonWrapper.ReadLogFile_result r
        = { success := decide (r.code = RSP_SUCCESS),
            code := r.code,
            data := if r.code = RSP_SUCCESS ∧ r.len > 0
              then some ((List.range r.len).map (fun i => (r.data.getD []).getD i 0))
              else none }
      ∧ (∀ c : Int, c ≠ RSP_SUCCESS →
          Msg.result (line_id line) true RSP_SUCCESS none
            ≠ Msg.result (line_id line) false c none) := by
  refine ⟨?_, ?_, fun c _ h => by simp at h⟩
  · unfold parse_command
    simp only [hcmd, dispatch, hid, false_or, reduceCtorEq, String.reduceEq, if_false, if_true,
      cmd_read_log_file]
    rw [cmd_single_shot_answered _ _ _ w k r rest hc hs]
    refine ⟨SdkCall.requestReadLogFile (extract_u32 none (line_args line)).1
      (extract_u32 none (extract_u32 none (line_args line)).2).1
      (extract_u32 none (extract_u32 none (extract_u32 none (line_args line)).2).2).1, ?_⟩
    simp only [Callback.invoke, World.call, World.register, output_result]
    by_cases hcode : r.code = RSP_SUCCESS
    · by_cases hlen : r.len > 0
      · simp [hcode, hlen, hpay hlen]
      · simp [hcode, hlen]
    · simp [hcode]
  · unfold PowermonWrapper.ReadLogFile_result
    by_cases hcode : r.code = RSP_SUCCESS
    · by_cases hlen : r.len > 0
      · have hne : r.len ≠ 0 := by omega
        simp [hcode, hlen, hpay hlen, hne]
      · simp [hcode, hlen]
    · simp [hcode]

/-- C13 at `2 readlog 1 0 64` while Connected, answered with `RSP_SUCCESS` and
no bytes: success true, no data. -/
theorem C13_readlog_result_witness :
    (∃ request,
      parse_command sample_sdk "2 readlog 1 0 64" connected_world
          (List.replicate 1 [] ++ [Async.response ⟨RSP_SUCCESS, "", none, 0⟩] :: [])
        = ⟨{ connected_world with
              pending := none,
              calls := connected_world.calls ++ [request],
              out := connected_world.out
                ++ [Msg.result (line_id "2 readlog 1 0 64") (decide (RSP_SUCCESS = RSP_SUCCESS))
                  RSP_SUCCESS
                  (if RSP_SUCCESS = RSP_SUCCESS ∧ 0 > 0
                    then some (log_bytes_to_json ((none : Option (List Nat)).getD []) 0)
                    else none)] },
            [], true⟩)
      ∧ (parse_command sample_sdk "2 readlog 1 0 64" connected_world
          (List.replicate 1 [] ++ [Async.response ⟨RSP_SUCCESS, "", none, 0⟩] :: [])).world.out
        = [Msg.result "2" true 0 none] :=
  ⟨(C13_readlog_result sample_sdk "2 readlog 1 0 64" connected_world 1
      ⟨RSP_SUCCESS, "", none, 0⟩ [] (by decide) (by decide) rfl rfl
      (fun h => absurd h (by decide))).1, by decide⟩

/-- C14. For a successful `readlog` with payload bytes `b[0..len)`, `len > 0`,
the data field is a quote, a body of exactly `2 * len` lower-case hex digits
and a quote; byte `b[i]` is the digit of its high nibble at position `2i` and
the digit of its low nibble at `2i + 1`; and hex-decoding the body returns the
payload. -/
theorem C14_readlog_hex (cmd_id : String) (w : World) (bytes : List Nat) (json : String)
    (hb : ∀ b ∈ bytes, b < 256) (hlen : 0 < bytes.length) :
    Callback.invoke (.read_log_file cmd_id) ⟨RSP_SUCCESS, json, some bytes, bytes.length⟩ w
        = output_result cmd_id true 0 (some (log_bytes_to_json bytes bytes.length)) w
      ∧ ∃ body : List Char,
          (log_bytes_to_json bytes bytes.length).data = '"' :: body ++ ['"']
          ∧ body.length = 2 * bytes.length
          ∧ (∀ c ∈ body, ∃ d < 16, c = Nat.digitChar d)
          ∧ (∀ (i : Nat) (h : i < bytes.length),
              body[2 * i]? = some (Nat.digitChar (bytes[i] / 16))
                ∧ body[2 * i + 1]? = some (Nat.digitChar (bytes[i] % 16)))
          ∧ hex_decode body = some bytes := by
  refine ⟨?_, bytes.flatMap byte_digits, log_bytes_to_json_data bytes hb,
    flatMap_byte_digits_length bytes, ?_, flatMap_byte_digits_get bytes,
    hex_decode_digits bytes hb⟩
  · simp [Callback.invoke, RSP_SUCCESS, hlen]
  · intro c hc
    obtain ⟨b, hbm, hcb⟩ := List.mem_flatMap.mp hc
    have hlt := hb b hbm
    simp only [byte_digits, List.mem_cons, List.mem_singleton, List.not_mem_nil, or_false] at hcb
    rcases hcb with h | h
    · exact ⟨b / 16, by omega, h⟩
    · exact ⟨b % 16, Nat.mod_lt _ (by decide), h⟩

/-- C14 at the three-byte payload 0x01 0xAB 0xF0: the text is `"01abf0"`. -/
theorem C14_readlog_hex_witness :
    (log_bytes_to_json [0x01, 0xAB, 0xF0] 3).data = '"' :: "01abf0".data ++ ['"']
      ∧ hex_decode "01abf0".data = some [0x01, 0xAB, 0xF0]
      ∧ ∃ body : List Char,
          (log_bytes_to_json [0x01, 0xAB, 0xF0] [0x01, 0xAB, 0xF0].length).data
            = '"' :: body ++ ['"']
          ∧ body.length = 2 * [0x01, 0xAB, 0xF0].length
          ∧ hex_decode body = some [0x01, 0xAB, 0xF0] :=
  ⟨by decide, by decide,
    (C14_readlog_hex "2" connected_world [0x01, 0xAB, 0xF0] "" (by decide) (by decide)).2.elim
      fun body h => ⟨body, h.1, h.2.1, h.2.2.2.2⟩⟩

/-- C15. Each of `info`, `monitor`, `statistics`, `fgstatistics`, `logfiles`
issued while Connected and answered (after `k` idle sleeps) with code `c`
writes exactly one message, a Result with the line's id: success true, code
`c` and the payload as data when `c` is `RSP_SUCCESS`; success false, code `c`
and no data for every other code, `RSP_SUCCESS_MORE = 0x0100` included.  No
Error is written, one request is issued and none remains outstanding. -/
theorem C15_single_shot_result (sdk : Sdk) (line : String) (w : World) (k : Nat)
    (r : Reply) (rest : List Tick) (hid : line_id line ≠ "")
    (hcmd : line_cmd line ∈ ["info", "monitor", "statistics", "fgstatistics", "logfiles"])
    (hc : w.connected = true) (hs : w.should_exit = false) :
    (∃ request,
      parse_command sdk line w (List.replicate k [] ++ [Async.response r] :: rest)
        = ⟨{ w with
              pending := none,
              calls := w.calls ++ [request],
              out := w.out ++ [if r.code = RSP_SUCCESS
                then Msg.result (line_id line) true r.code (some r.json)
                else Msg.result (line_id line) false r.code none] }, rest, true⟩)
      ∧ RSP_SUCCESS_MORE ≠ RSP_SUCCESS := by
  refine ⟨?_, by decide⟩
  unfold parse_command
  simp only [List.mem_cons, List.mem_singleton, List.not_mem_nil, or_false] at hcmd
  rcases hcmd with h | h | h | h | h <;>
    simp only [h, dispatch, hid, false_or, reduceCtorEq, String.reduceEq, if_false, if_true,
      cmd_get_info, cmd_get_monitor_data, cmd_get_statistics, cmd_get_fg_statistics,
      cmd_get_log_files]
  · exact ⟨_, cmd_single_shot_json _ _ _ w k r rest hc hs (fun _ => rfl)⟩
  · exact ⟨_, cmd_single_shot_json _ _ _ w k r rest hc hs (fun _ => rfl)⟩
  · exact ⟨_, cmd_single_shot_json _ _ _ w k r rest hc hs (fun _ => rfl)⟩
  · exact ⟨_, cmd_single_shot_json _ _ _ w k r rest hc hs (fun _ => rfl)⟩
  · exact ⟨_, cmd_single_shot_json _ _ _ w k r rest hc hs (fun _ => rfl)⟩

/-- C15 at `1 info` while Connected, answered with `RSP_SUCCESS_MORE` after two
idle sleeps. -/
theorem C15_single_shot_result_witness :
    (∃ request,
      parse_command sample_sdk "1 info" connected_world
          (List.replicate 2 []
            ++ [Async.response ⟨RSP_SUCCESS_MORE, "\x7b\x7d", none, 0⟩] :: [])
        = ⟨{ connected_world with
              pending := none,
              calls := connected_world.calls ++ [request],
              out := connected_world.out
                ++ [if RSP_SUCCESS_MORE = RSP_SUCCESS
                  then Msg.result (line_id "1 info") true RSP_SUCCESS_MORE (some "\x7b\x7d")
                  else Msg.result (line_id "1 info") false RSP_SUCCESS_MORE none] }, [], true⟩)
      ∧ RSP_SUCCESS_MORE ≠ RSP_SUCCESS :=
  C15_single_shot_result sample_sdk "1 info" connected_world 2
    ⟨RSP_SUCCESS_MORE, "\x7b\x7d", none, 0⟩ [] (by decide) (by decide) rfl rfl

/-- C16, counterexample (a failed request is counted as a sample): a
`stream 100 2` whose first request is answered with `RSP_TIMEOUT` and whose
second with `RSP_SUCCESS`, the connection held and no shutdown raised, issues
two requests and ends having written one monitor event. -/
theorem C16_failed_sample_counterexample :
    Schedule.all Async.isHeld (stream_schedule 100 [(0, timeout_reply), (0, ok_reply)])
    ∧ (cmd_stream_monitor "7" 100 2 connected_world
        (stream_schedule 100 [(0, timeout_reply), (0, ok_reply)])).returned = true
    ∧ (cmd_stream_monitor "7" 100 2 connected_world
        (stream_schedule 100 [(0, timeout_reply), (0, ok_reply)])).world.calls
        = [SdkCall.requestGetMonitorData, SdkCall.requestGetMonitorData]
    ∧ (cmd_stream_monitor "7" 100 2 connected_world
        (stream_schedule 100 [(0, timeout_reply), (0, ok_reply)])).world.out
        = [ok_event, Msg.result "7" true 0 none]
    ∧ ((cmd_stream_monitor "7" 100 2 connected_world
        (stream_schedule 100 [(0, timeout_reply), (0, ok_reply)])).world.out.filter
          Msg.isMonitor).length = 1 := by
  refine ⟨?_, ?_, ?_, ?_, ?_⟩
  · unfold Schedule.all; decide
  · decide
  · decide
  · decide
  · decide

/-- C16, amended. In a `stream` with count `n > 0` issued while Connected the
loop bound counts answered requests.  On every schedule that holds the
connection and raises no shutdown, a handler that returns has issued exactly
`n` data requests and has written events, at most `n` of them monitor events,
and then the Result.  When the requests are answered one by one, with any
codes and after any delays, the handler returns after the `n`-th answer
without a further wait, having written exactly one monitor event for each
answer with `RSP_SUCCESS` and none for a failed one. -/
theorem C16_stream_samples (cmd_id : String) (interval_ms : Int) (n : Nat) (w : World)
    (hn : 0 < n) (hc : w.connected = true) (hs : w.should_exit = false)
    (hp : w.pending = none) :
    (∀ ticks, Schedule.all Async.isHeld ticks →
        (cmd_stream_monitor cmd_id interval_ms n w ticks).returned = true →
        (cmd_stream_monitor cmd_id interval_ms n w ticks).world.calls
            = w.calls ++ List.replicate n SdkCall.requestGetMonitorData
          ∧ ∃ l, (cmd_stream_monitor cmd_id interval_ms n w ticks).world.out
                = w.out ++ l ++ [Msg.result cmd_id true 0 none]
            ∧ (∀ m ∈ l, m.isEvent = true)
            ∧ (l.filter Msg.isMonitor).length ≤ n)
    ∧ (∀ (rs : List (Nat × Reply)) (rest : List Tick), rs.length = n →
        cmd_stream_monitor cmd_id interval_ms n w (stream_schedule interval_ms rs ++ rest)
          = ⟨{ w with
                pending := none,
                calls := w.calls ++ List.replicate n SdkCall.requestGetMonitorData,
                out := w.out ++ monitor_events rs ++ [Msg.result cmd_id true 0 none] },
              List.replicate (interval_ticks interval_ms) [] ++ rest, true⟩) := by
  have h0 : ((0 : Nat) : Int) = 0 := rfl
  constructor
  · intro ticks hall hr
    unfold cmd_stream_monitor at hr ⊢
    simp only [hc, Bool.not_true, Bool.false_eq_true, if_false] at hr ⊢
    rw [← h0] at hr ⊢
    exact stream_loop_held cmd_id interval_ms n w.out w.calls hn (ticks.length + 1) 0 w ticks
      hall hp
      ⟨⟨Or.inl hp, by simp, [], by simp, by simp, by simp [World.owed_monitor, hp]⟩, hc, hs⟩
      (Nat.zero_le _) hr
  · intro rs rest hlen
    cases rs with
    | nil => simp at hlen; omega
    | cons a rs =>
        have hlen' : rs.length + 1 = n := by simpa using hlen
        have hticks : rs.length + 1
            < (stream_schedule interval_ms (a :: rs) ++ rest).length + 1 := by
          have : rs.length + 1 ≤ (stream_schedule interval_ms (a :: rs)).length := by
            clear hlen hlen'
            induction rs generalizing a with
            | nil => simp [stream_schedule]; omega
            | cons b rs ih =>
                have := ih b
                simp only [stream_schedule, List.flatMap_cons, List.length_append,
                  List.length_cons, List.length_replicate] at this ⊢
                omega
          simp only [List.length_append]; omega
        have h := stream_loop_answered cmd_id interval_ms n rest rs a _ 0 w hc hs
          (by omega) hticks
        rw [hlen', h0] at h
        unfold cmd_stream_monitor
        rw [if_neg (by simp [hc])]
        exact h

/-- C16 at interval 100, count 2, the first request answered with
`RSP_TIMEOUT` after one idle sleep and the second with `RSP_SUCCESS`: two
requests, one monitor event, the Result. -/
theorem C16_stream_samples_witness :
    (0 < 2) ∧ connected_world.pending = none
    ∧ cmd_stream_monitor "7" 100 (2 : Nat) connected_world
          (stream_schedule 100 [(1, timeout_reply), (0, ok_reply)] ++ [])
        = ⟨{ connected_world with
              pending := none,
              calls := connected_world.calls
                ++ List.replicate 2 SdkCall.requestGetMonitorData,
              out := connected_world.out
                ++ monitor_events [(1, timeout_reply), (0, ok_reply)]
                ++ [Msg.result "7" true 0 none] },
            List.replicate (interval_ticks 100) [] ++ [], true⟩
    ∧ monitor_events [(1, timeout_reply), (0, ok_reply)] = [ok_event] :=
  ⟨by decide, rfl,
    (C16_stream_samples "7" 100 2 connected_world (by decide) rfl rfl rfl).2
      [(1, timeout_reply), (0, ok_reply)] [] rfl,
    by decide⟩

/-- C17. A `stream` with count 0 issued while Connected does not end on its
own.  On every schedule that holds the connection and raises no shutdown the
handler never returns and writes events only, no Result and no Error.  When
the requests are answered one by one, with any codes and after any delays,
then after `k` answers the request number `k + 1` has been issued and the
handler waits for its answer.  If the handler does return, shutdown is raised
or the connection is lost in the state it returns with; and a loop test that
finds either one writes the Result at once, issues no further request and
sleeps no more. -/
theorem C17_unbounded_stream (cmd_id : String) (interval_ms : Int) (w : World)
    (hc : w.connected = true) (hs : w.should_exit = false) (hp : w.pending = none) :
    (∀ ticks, Schedule.all Async.isHeld ticks →
        (cmd_stream_monitor cmd_id interval_ms 0 w ticks).returned = false
          ∧ ∃ l, (cmd_stream_monitor cmd_id interval_ms 0 w ticks).world.out = w.out ++ l
              ∧ ∀ m ∈ l, m.isEvent = true)
    ∧ (∀ rs : List (Nat × Reply),
        cmd_stream_monitor cmd_id interval_ms 0 w (stream_schedule interval_ms rs)
          = ⟨{ w with
                pending := some .stream_monitor,
                calls := w.calls
                  ++ List.replicate (rs.length + 1) SdkCall.requestGetMonitorData,
                out := w.out ++ monitor_events rs }, [], false⟩)
    ∧ (∀ ticks, (cmd_stream_monitor cmd_id interval_ms 0 w ticks).returned = true →
        (cmd_stream_monitor cmd_id interval_ms 0 w ticks).world.should_exit = true
          ∨ (cmd_stream_monitor cmd_id interval_ms 0 w ticks).world.connected = false)
    ∧ (∀ (fuel : Nat) (samples : Int) (v : World) (ticks : List Tick),
        v.should_exit = true ∨ v.connected = false →
        stream_loop cmd_id interval_ms 0 (fuel + 1) samples v ticks
          = ⟨output_result cmd_id true 0 none v, ticks, true⟩) := by
  have hcmd : ∀ ticks, cmd_stream_monitor cmd_id interval_ms 0 w ticks
      = stream_loop cmd_id interval_ms 0 (ticks.length + 1) 0 w ticks := by
    intro ticks
    unfold cmd_stream_monitor
    rw [if_neg (by simp [hc])]
  refine ⟨?_, ?_, ?_, ?_⟩
  · intro ticks hall
    rw [hcmd]
    obtain ⟨hr, s', _, _, l, hout, hl, _⟩ :=
      stream_loop_unbounded_held cmd_id interval_ms w.out w.calls (ticks.length + 1) 0 0 w ticks
        hall hp
        ⟨⟨Or.inl hp, by simp, [], by simp, by simp, by simp [World.owed_monitor, hp]⟩,
          hc, hs⟩
    exact ⟨hr, l, hout, hl⟩
  · intro rs
    rw [hcmd]
    refine stream_loop_unbounded_answered cmd_id interval_ms rs _ 0 w hc hs ?_
    have : rs.length ≤ (stream_schedule interval_ms rs).length := by
      induction rs with
      | nil => simp
      | cons a rs ih =>
          simp only [stream_schedule, List.flatMap_cons, List.length_append,
            List.length_cons, List.length_replicate] at ih ⊢
          omega
    omega
  · intro ticks hr
    rw [hcmd] at hr ⊢
    exact stream_loop_unbounded_exit cmd_id interval_ms _ _ _ _ hr
  · intro fuel samples v ticks hv
    apply stream_loop_exit
    rcases hv with h | h <;> simp [stream_continues, h]

/-- C17 at interval 100: two answers, one of them a failure, and the third
request is outstanding with no terminal message written. -/
theorem C17_unbounded_stream_witness :
    connected_world.connected = true ∧ connected_world.should_exit = false
    ∧ cmd_stream_monitor "7" 100 0 connected_world
          (stream_schedule 100 [(0, ok_reply), (2, timeout_reply)])
        = ⟨{ connected_world with
              pending := some .stream_monitor,
              calls := connected_world.calls
                ++ List.replicate 3 SdkCall.requestGetMonitorData,
              out := connected_world.out
                ++ monitor_events [(0, ok_reply), (2, timeout_reply)] }, [], false⟩
    ∧ monitor_events [(0, ok_reply), (2, timeout_reply)] = [ok_event] :=
  ⟨rfl, rfl,
    (C17_unbounded_stream "7" 100 connected_world rfl rfl rfl).2.1
      [(0, ok_reply), (2, timeout_reply)],
    by decide⟩

/-- C18, counterexample (the inter-sample wait tests the shutdown flag only):
in a `stream 1000 0` whose first request is answered at once, a disconnect
notification in the first sleep of the wait clears `connected`, and fifty
10 ms sleeps later the handler has still not returned. -/
theorem C18_disconnect_wait_counterexample :
    (cmd_stream_monitor "7" 1000 0 connected_world
        ([Async.response ok_reply] :: [Async.onDisconnect .CLOSED]
          :: List.replicate 50 [])).returned = false
    ∧ (cmd_stream_monitor "7" 1000 0 connected_world
        ([Async.response ok_reply] :: [Async.onDisconnect .CLOSED]
          :: List.replicate 50 [])).world.connected = false
    ∧ (cmd_stream_monitor "7" 1000 0 connected_world
        ([Async.response ok_reply] :: [Async.onDisconnect .CLOSED]
          :: List.replicate 50 [])).world.out
        = [ok_event, Msg.event "disconnected" (some "\"reason\":0")] := by
  decide

/-- C18, amended. Inside the inter-sample wait of a stream only the shutdown
flag is tested.  At any point of the wait (`i` sleeps done, shutdown not yet
raised): a signal during the next 10 ms sleep ends the wait with that sleep,
and the loop test that follows writes the Result without a further request or
sleep, whatever the interval.  Without a signal the wait sleeps through all
that is left of the interval, whether or not the connection is lost
meanwhile, and is not over before; a loss of connection is seen by the loop
test after the wait, which then writes the Result without a further request. -/
theorem C18_wait_cancellation (cmd_id : String) (interval_ms count : Int) (i : Int)
    (w : World) (t : Tick) (ts : List Tick)
    (hi : i < Int.tdiv interval_ms 10) (hs : w.should_exit = false) :
    ((∃ e ∈ t, e.isSignal = true) →
        wait_interval (Int.tdiv interval_ms 10) i w (t :: ts) = ⟨w.usleep t, ts, true⟩
        ∧ ∀ (fuel : Nat) (samples : Int),
            stream_loop cmd_id interval_ms count (fuel + 1) samples (w.usleep t) ts
              = ⟨output_result cmd_id true 0 none (w.usleep t), ts, true⟩)
    ∧ (Schedule.all (fun e => !Async.isSignal e) (t :: ts) →
        ((Int.tdiv interval_ms 10 - i).toNat ≤ (t :: ts).length →
          wait_interval (Int.tdiv interval_ms 10) i w (t :: ts)
            = ⟨((t :: ts).take (Int.tdiv interval_ms 10 - i).toNat).foldl World.usleep w,
                (t :: ts).drop (Int.tdiv interval_ms 10 - i).toNat, true⟩)
        ∧ ((t :: ts).length < (Int.tdiv interval_ms 10 - i).toNat →
            (wait_interval (Int.tdiv interval_ms 10) i w (t :: ts)).returned = false))
    ∧ (∀ (fuel : Nat) (samples : Int) (v : World) (rest : List Tick),
        v.connected = false →
        stream_loop cmd_id interval_ms count (fuel + 1) samples v rest
          = ⟨output_result cmd_id true 0 none v, rest, true⟩) := by
  refine ⟨?_, ?_, ?_⟩
  · intro ht
    refine ⟨wait_interval_signal _ i w t ts hi hs ht, ?_⟩
    intro fuel samples
    apply stream_loop_exit
    simp [stream_continues, usleep_signal t w ht]
  · intro hall
    exact ⟨wait_interval_full _ (t :: ts) i w hall hs,
      wait_interval_short _ (t :: ts) i w hall hs⟩
  · intro fuel samples v rest hv
    apply stream_loop_exit
    simp [stream_continues, hv]

/-- C18 at interval 1000, three sleeps into the wait, with the
connection already lost: a signal in the next sleep ends the wait there, and
without one the 97 sleeps left are all taken. -/
theorem C18_wait_cancellation_witness :
    ((3 : Int) < Int.tdiv 1000 10)
    ∧ wait_interval (Int.tdiv 1000 10) 3 idle_world ([Async.signal] :: [[], []])
        = ⟨idle_world.usleep [Async.signal], [[], []], true⟩
    ∧ stream_loop "7" 1000 0 (2 + 1) 1 (idle_world.usleep [Async.signal]) [[], []]
        = ⟨output_result "7" true 0 none (idle_world.usleep [Async.signal]), [[], []], true⟩
    ∧ (wait_interval (Int.tdiv 1000 10) 3 idle_world ([] :: List.replicate 50 [])).returned
        = false :=
  have h := C18_wait_cancellation "7" 1000 0 3 idle_world
  ⟨by decide,
    ((h [Async.signal] [[], []] (by decide) rfl).1
      ⟨Async.signal, List.mem_singleton.mpr rfl, rfl⟩).1,
    ((h [Async.signal] [[], []] (by decide) rfl).1
      ⟨Async.signal, List.mem_singleton.mpr rfl, rfl⟩).2 2 1,
    ((h [] (List.replicate 50 []) (by decide) rfl).2.1
      (by unfold Schedule.all; decide)).2 (by decide)⟩

/-- C19. At most one correlated request is outstanding at any point of a run
of the command loop started with none outstanding.  Every request of the run
is issued in a state with no request outstanding, and the requests logged are
exactly one per such state; the stream loop issues each of its requests with
none outstanding, that is after the previous callback has fired; a handler
returns with its request unanswered only when shutdown is raised; and with
shutdown raised neither the command loop nor the stream loop issues a further
request: both are left at their next test. -/
theorem C19_one_outstanding (sdk : Sdk) (input : List (Tick × String)) (w : World)
    (ticks : List Tick) (hp : w.pending = none) :
    (∀ u ∈ command_issue_points sdk input w ticks, u.pending = none)
    ∧ request_count (command_loop sdk input w ticks).world.calls
        = request_count w.calls + (command_issue_points sdk input w ticks).length
    ∧ (∀ (interval_ms count : Int) (fuel : Nat) (samples : Int) (v : World) (tk : List Tick),
        v.pending = none →
        ∀ u ∈ stream_issue_points interval_ms count fuel samples v tk, u.pending = none)
    ∧ (∀ (line : String) (v : World) (tk : List Tick), v.pending = none →
        (parse_command sdk line v tk).returned = true →
        (parse_command sdk line v tk).world.pending ≠ none →
        (parse_command sdk line v tk).world.should_exit = true)
    ∧ (∀ (inp : List (Tick × String)) (v : World) (tk : List Tick), v.should_exit = true →
        command_loop sdk inp v tk = ⟨v, tk, true⟩
          ∧ command_issue_points sdk inp v tk = [])
    ∧ (∀ (cmd_id : String) (interval_ms count : Int) (fuel : Nat) (samples : Int) (v : World)
        (tk : List Tick), v.should_exit = true →
        stream_loop cmd_id interval_ms count (fuel + 1) samples v tk
            = ⟨output_result cmd_id true 0 none v, tk, true⟩
          ∧ stream_issue_points interval_ms count (fuel + 1) samples v tk = []) := by
  obtain ⟨h1, h2, _⟩ := command_loop_outstanding sdk input w ticks (Or.inl hp)
  refine ⟨h2, h1, ?_, ?_, ?_, ?_⟩
  · intro interval_ms count fuel samples v tk hv
    exact stream_issue_points_pending interval_ms count fuel samples v tk (Or.inl hv)
  · intro line v tk hv hr hne
    rcases (dispatch_outstanding sdk (line_id line) (line_cmd line) (line_args line) v tk
      hv).2.2 hr with h | h
    · exact absurd h hne
    · exact h
  · intro inp v tk hv
    cases inp with
    | nil => exact ⟨rfl, rfl⟩
    | cons a inp =>
        obtain ⟨before, line⟩ := a
        exact ⟨by rw [command_loop]; simp [hv], by rw [command_issue_points]; simp [hv]⟩
  · intro cmd_id interval_ms count fuel samples v tk hv
    have hcont : stream_continues count samples v = false := by simp [stream_continues, hv]
    exact ⟨stream_loop_exit _ _ _ _ _ _ _ hcont, by rw [stream_issue_points]; simp [hcont]⟩

/-- C19 on a run of five lines (a connect, an `info`, an empty line, a stream
of two samples cut short by a signal, a `status` that is never dispatched):
three requests are issued, each with nothing outstanding. -/
theorem C19_one_outstanding_witness :
    idle_world.pending = none
    ∧ (∀ u ∈ command_issue_points sample_sdk sample_input idle_world sample_ticks,
        u.pending = none)
    ∧ request_count (command_loop sample_sdk sample_input idle_world sample_ticks).world.calls
        = request_count idle_world.calls
          + (command_issue_points sample_sdk sample_input idle_world sample_ticks).length
    ∧ (command_issue_points sample_sdk sample_input idle_world sample_ticks).length = 3
    ∧ (command_loop sample_sdk sample_input idle_world sample_ticks).world.pending
        = some .stream_monitor
    ∧ (command_loop sample_sdk sample_input idle_world sample_ticks).world.should_exit = true :=
  ⟨rfl,
    (C19_one_outstanding sample_sdk sample_input idle_world sample_ticks rfl).1,
    (C19_one_outstanding sample_sdk sample_input idle_world sample_ticks rfl).2.1,
    by decide, by decide, by decide⟩

/-- C21. A line whose first two tokens are an id and a name that is not one
of the fourteen command names (compared exactly, so case matters) makes
`parse_command` write one message, the Error "Unknown command" with that id,
and return at once: the flags, the outstanding request and the log of SDK
calls are as before, and no tick is consumed. -/
theorem C21_unknown_command (sdk : Sdk) (line : String) (w : World) (ticks : List Tick)
    (t1 t2 args : List Char) (h : TwoTokens line.toList t1 t2 args)
    (hname : String.mk t2 ∉ command_names) :
    parse_command sdk line w ticks
        = ⟨output_error (String.mk t1) "Unknown command" w, ticks, true⟩
    ∧ output_error (String.mk t1) "Unknown command" w
        = { w with out := w.out ++ [Msg.error (String.mk t1) "Unknown command"] } := by
  obtain ⟨hid, hcmd, _⟩ := line_two_tokens line t1 t2 args h
  obtain ⟨ws, sep, _, h1, _, _, h2, _, _⟩ := h
  have hid' := token_mk_ne h1
  have hcmd' := token_mk_ne h2
  simp only [command_names, List.mem_cons, List.mem_singleton, List.not_mem_nil, or_false,
    not_or] at hname
  obtain ⟨n1, n2, n3, n4, n5, n6, n7, n8, n9, n10, n11, n12, n13, n14⟩ := hname
  refine ⟨?_, rfl⟩
  unfold parse_command dispatch
  rw [hid, hcmd]
  simp only [hid', hcmd', n1, n2, n3, n4, n5, n6, n7, n8, n9, n10, n11, n12, n13, n14,
    or_self, if_false]

/-- C21 at the line `1 Version`: the name differs from `version` in case. -/
theorem C21_unknown_command_witness :
    TwoTokens "1 Version".toList "1".toList "Version".toList []
    ∧ String.mk "Version".toList ∉ command_names
    ∧ parse_command sample_sdk "1 Version" connected_world [[]]
        = ⟨output_error (String.mk "1".toList) "Unknown command" connected_world, [[]], true⟩
    ∧ (output_error (String.mk "1".toList) "Unknown command" connected_world).out.map
          Msg.render
        = ["\x7b\"type\":\"error\",\"id\":\"1\",\"message\":\"Unknown command\"\x7d\n"] :=
  have hshape : TwoTokens "1 Version".toList "1".toList "Version".toList [] :=
    ⟨[], [' '], by unfold Blank; decide, by unfold Token; decide, by unfold Blank; decide,
      by decide, by unfold Token; decide, by unfold Break; decide, by decide⟩
  ⟨hshape, by decide,
    (C21_unknown_command sample_sdk "1 Version" connected_world [[]] _ _ _ hshape
      (by decide)).1,
    by decide⟩

/-- C22. A line with fewer than two tokens (nothing, white space only, or an
id without a command name) makes `parse_command` return at once with the
state exactly as it was: nothing written, no SDK call, no tick consumed; and
the command loop does nothing else with it.  Every other line has a first and
a second token, which `parse_command` reads as a non-empty id and name. -/
theorem C22_short_line (sdk : Sdk) (line : String) (w : World) (ticks : List Tick)
    (h : Blank line.toList ∨ OneToken line.toList) :
    parse_command sdk line w ticks = ⟨w, ticks, true⟩
    ∧ (∀ before, command_step sdk before line w ticks = ⟨w.usleep before, ticks, true⟩)
    ∧ (∀ other : String, ¬ (Blank other.toList ∨ OneToken other.toList) →
        ∃ t1 t2 args, TwoTokens other.toList t1 t2 args
          ∧ line_id other = String.mk t1 ∧ line_id other ≠ ""
          ∧ line_cmd other = String.mk t2 ∧ line_cmd other ≠ "") := by
  refine ⟨parse_command_short sdk line w ticks h, ?_, ?_⟩
  · intro before
    unfold command_step
    split
    · rfl
    · exact parse_command_short sdk line _ ticks h
  · intro other hno
    rcases line_shape other.toList with hb | ho | ⟨t1, t2, args, ht⟩
    · exact absurd (Or.inl hb) hno
    · exact absurd (Or.inr ho) hno
    · obtain ⟨e1, e2, _⟩ := line_two_tokens other t1 t2 args ht
      obtain ⟨ws, sep, _, h1, _, _, h2, _, _⟩ := ht
      exact ⟨t1, t2, args, ⟨ws, sep, by assumption, h1, by assumption, by assumption, h2,
        by assumption, by assumption⟩, e1, e1 ▸ token_mk_ne h1, e2, e2 ▸ token_mk_ne h2⟩

/-- C22 at a line that holds an id and trailing white space only. -/
theorem C22_short_line_witness :
    OneToken " 7 \t".toList
    ∧ parse_command sample_sdk " 7 \t" connected_world [[]] = ⟨connected_world, [[]], true⟩ :=
  have hshape : OneToken " 7 \t".toList :=
    ⟨[' '], ['7'], [' ', '\t'], by unfold Blank; decide, by unfold Token; decide,
      by unfold Blank; decide, by decide⟩
  ⟨hshape, (C22_short_line sample_sdk " 7 \t" connected_world [[]] (Or.inr hshape)).1⟩

/-- C23. A `quit` or `exit` line that the command loop reads, that is one read
after the lines before it have been handled with shutdown not raised, writes
the Result (success true, code 0) with its id and raises the shutdown flag;
the loop is left at its next test, so whatever follows in the input is never
dispatched and writes nothing; and `main`, started with the SDK instance
created, ends with exit status 0 without waiting for a disconnect. -/
theorem C23_quit (sdk : Sdk) (pre post : List (Tick × String)) (before : Tick)
    (line : String) (w : World) (ticks : List Tick)
    (hid : line_id line ≠ "") (hcmd : line_cmd line = "quit" ∨ line_cmd line = "exit")
    (hpre : (command_loop sdk pre w ticks).returned = true)
    (hs : (command_loop sdk pre w ticks).world.should_exit = false) :
    command_loop sdk (pre ++ (before, line) :: post) w ticks
        = ⟨output_result (line_id line) true 0 none
            { (command_loop sdk pre w ticks).world.usleep before with should_exit := true },
          (command_loop sdk pre w ticks).rest, true⟩
    ∧ (w = output_event "ready" none idle_world →
        (main sdk true (pre ++ (before, line) :: post) ticks).exit_code = some 0
        ∧ (main sdk true (pre ++ (before, line) :: post) ticks).world.out
            = ((command_loop sdk pre w ticks).world.usleep before).out
              ++ [Msg.result (line_id line) true 0 none]
        ∧ (main sdk true (pre ++ (before, line) :: post) ticks).rest
            = (command_loop sdk pre w ticks).rest) := by
  have hline : line ≠ "" := by
    intro h; subst h; exact hid (by decide)
  have hloop : command_loop sdk (pre ++ (before, line) :: post) w ticks
      = ⟨output_result (line_id line) true 0 none
          { (command_loop sdk pre w ticks).world.usleep before with should_exit := true },
        (command_loop sdk pre w ticks).rest, true⟩ := by
    rw [command_loop_append, if_pos hpre, command_loop]
    simp only [hs, Bool.false_eq_true, if_false, command_step, hline, parse_command]
    rw [dispatch_quit sdk _ _ _ _ _ hid hcmd]
    simp only [Bool.not_true, Bool.false_eq_true, if_false]
    exact command_loop_exit sdk post _ _ rfl
  refine ⟨hloop, ?_⟩
  intro hw
  subst hw
  unfold main
  simp only [Bool.not_true, Bool.false_eq_true, if_false, hloop]
  cases hc : ((command_loop sdk pre (output_event "ready" none idle_world) ticks).world.usleep
      before).connected with
  | false =>
      simp [output_result, hc, EXIT_SUCCESS]
  | true =>
      rw [if_pos]
      · rw [wait_disconnected_exit]
        · simp [output_result, World.call, EXIT_SUCCESS]
        · exact Or.inr rfl
      · rfl

/-- C23 on an input with `2 quit` in second place: the lines `3 status` and
`4 exit` after it write nothing, and the exit status is 0. -/
theorem C23_quit_witness :
    line_id "2 quit" ≠ "" ∧ line_cmd "2 quit" = "quit"
    ∧ command_loop sample_sdk ([([], "1 version")] ++ ([], "2 quit")
          :: [([], "3 status"), ([], "4 exit")]) idle_world []
        = ⟨output_result (line_id "2 quit") true 0 none
            { (command_loop sample_sdk [([], "1 version")] idle_world []).world.usleep []
                with should_exit := true },
          (command_loop sample_sdk [([], "1 version")] idle_world []).rest, true⟩
    ∧ (main sample_sdk true quit_input []).exit_code = some 0
    ∧ (main sample_sdk true quit_input []).world.out.map Msg.render
        = ["\x7b\"type\":\"event\",\"event\":\"ready\"\x7d\n",
           "\x7b\"type\":\"result\",\"id\":\"1\",\"success\":true,\"code\":0,\"data\":"
             ++ "\x7b\"major\":1,\"minor\":17,\"string\":\"1.17\"\x7d\x7d\n",
           "\x7b\"type\":\"result\",\"id\":\"2\",\"success\":true,\"code\":0\x7d\n"] :=
  ⟨by decide, by decide,
    (C23_quit sample_sdk [([], "1 version")] [([], "3 status"), ([], "4 exit")] []
      "2 quit" idle_world [] (by decide) (Or.inl (by decide)) (by decide) (by decide)).1,
    by decide, by decide⟩

/-- C24. When the SDK instance cannot be created, `main` writes exactly one
message, the fatal message, then returns `EXIT_FAILURE`, which is not 0: no
`ready` event is written, no input is read, no tick is consumed and no SDK
call is made, whatever the input. -/
theorem C24_fatal (sdk : Sdk) (input : List (Tick × String)) (ticks : List Tick) :
    main sdk false input ticks
        = ⟨{ idle_world with out := [Msg.fatal "Failed to create Powermon instance"] },
          ticks, some EXIT_FAILURE⟩
    ∧ (main sdk false input ticks).world.out.map Msg.render
        = ["\x7b\"type\":\"fatal\",\"message\":\"Failed to create Powermon instance\"\x7d\n"]
    ∧ EXIT_FAILURE ≠ 0
    ∧ (main sdk false input ticks).world.calls = []
    ∧ Msg.event "ready" none ∉ (main sdk false input ticks).world.out := by
  have h : main sdk false input ticks
      = ⟨{ idle_world with out := [Msg.fatal "Failed to create Powermon instance"] },
        ticks, some EXIT_FAILURE⟩ := rfl
  rw [h]
  refine ⟨rfl, ?_, by decide, rfl, ?_⟩
  · show List.map Msg.render [Msg.fatal "Failed to create Powermon instance"] = _
    decide
  · show Msg.event "ready" none ∉ [Msg.fatal "Failed to create Powermon instance"]
    decide

/-- C25. A shutdown while a request is outstanding leaves a callback that
refers to a variable of a handler that has returned.  No duplicate is
written: for each single-shot data command issued with nothing outstanding,
whatever happens during and after the handler, the messages written are
events and at most one terminal message with the command's id.  But at `1 info`
while Connected with the signal in the first sleep, the handler returns
having written nothing, its callback still registered; the answer that comes
afterwards runs that callback, which writes the one Result and then stores
`done = true` into the local variable of the handler that has returned. -/
theorem C25_late_callback :
    (∀ (sdk : Sdk) (line : String) (w : World) (ticks : List Tick) (late : Tick),
        line_id line ≠ "" →
        line_cmd line
          ∈ ["info", "monitor", "statistics", "fgstatistics", "logfiles", "readlog"] →
        w.pending = none →
        ∃ l, ((parse_command sdk line w ticks).world.usleep late).out = w.out ++ l
          ∧ Msg.eventsOrId (line_id line) l ∧ (l.filter Msg.isTerminal).length ≤ 1)
    ∧ (parse_command sample_sdk "1 info" connected_world [[Async.signal]]).returned = true
    ∧ (parse_command sample_sdk "1 info" connected_world [[Async.signal]]).world.out = []
    ∧ (parse_command sample_sdk "1 info" connected_world [[Async.signal]]).world.pending
        = some (.get_info "1")
    ∧ (parse_command sample_sdk "1 info" connected_world [[Async.signal]]).dangling_done = true
    ∧ late_store (parse_command sample_sdk "1 info" connected_world [[Async.signal]])
        (.response ok_reply) = true
    ∧ ((parse_command sample_sdk "1 info" connected_world [[Async.signal]]).world.deliver
          (.response ok_reply)).out
        = [Msg.result "1" true 0 (some "\x7b\x7d")] := by
  refine ⟨?_, by decide, by decide, by decide, by decide, by decide, by decide⟩
  intro sdk line w ticks late hid hcmd hp
  obtain ⟨request, cb, hcb, hd⟩ :=
    dispatch_single_shot sdk (line_id line) (line_cmd line) (line_args line) hid hcmd
  unfold parse_command
  rw [hd w ticks]
  exact cmd_single_shot_late _ request cb hcb w ticks late hp

/-- C26. The binding does not connect over WiFi without Bluetooth.  For an
object whose SDK instance exists and whose BLE initialisation failed
(`initBle()` returned false or threw), `Connect` throws "Bluetooth not
available - cannot connect to devices" whatever the options: `connecting_`
stays false and no SDK connect is issued.  With the sample URL the same call
on an object with BLE available sets `connecting_` and issues the WiFi
connect. -/
theorem C26_connect_needs_ble :
    (∀ (sdk : Sdk) (initBle : Option Bool) (key0 : WifiAccessKey)
        (info : Option ConnectOptions), initBle = none ∨ initBle = some false →
        PowermonWrapper.Connect sdk (PowermonWrapper.new true initBle key0) info
          = (PowermonWrapper.new true initBle key0,
              some "Bluetooth not available - cannot connect to devices"))
    ∧ (PowermonWrapper.Connect sample_sdk (PowermonWrapper.new true (some false) sample_key)
          (some url_options)).1.connecting_ = false
    ∧ (PowermonWrapper.Connect sample_sdk (PowermonWrapper.new true none sample_key)
          (some url_options)).1.calls = []
    ∧ PowermonWrapper.Connect sample_sdk (PowermonWrapper.new true (some true) sample_key)
          (some url_options)
        = ({ PowermonWrapper.new true (some true) sample_key with
              connecting_ := true, calls := [SdkCall.connectWifi sample_key] }, none) := by
  refine ⟨?_, by decide, by decide, by decide⟩
  intro sdk initBle key0 info h
  rcases h with h | h <;> subst h <;> rfl

/-- C27. For every 16-bit value `v`, `checkBCD(v)` is true exactly when each
of the four nibbles of `v` is at most 9, that is exactly when `v` is the BCD
encoding of a number in 0..9999; and exactly 10000 of the 65536 values are
accepted. -/
theorem C27_checkBCD (v : Nat) (hv : v < 65536) :
    (checkBCD v = true
      ↔ nibble v 0 ≤ 9 ∧ nibble v 1 ≤ 9 ∧ nibble v 2 ≤ 9 ∧ nibble v 3 ≤ 9)
    ∧ (checkBCD v = true ↔ ∃ n < 10000, v = bcd_encode n)
    ∧ ((Finset.range 65536).filter (fun u => checkBCD u = true)).card = 10000 :=
  ⟨checkBCD_nibbles v hv, checkBCD_iff_encode v hv, checkBCD_card⟩

/-- C27 at 0x1234, the encoding of 1234, which is accepted, while 0x12A4 is
not. -/
theorem C27_checkBCD_witness :
    0x1234 < 65536
    ∧ (checkBCD 0x1234 = true ↔ ∃ n < 10000, 0x1234 = bcd_encode n)
    ∧ checkBCD 0x1234 = true ∧ bcd_encode 1234 = 0x1234 ∧ checkBCD 0x12A4 = false :=
  ⟨by decide, (C27_checkBCD 0x1234 (by decide)).2.1, by decide, by decide, by decide⟩

/-- C28. The flags `connected` and `connecting` are kept apart by every whole
step: a notification, any other event, a command handler with any events
during its sleeps, and `Connect`, `Disconnect` and the two callbacks of the
binding each leave a state in which the flags are not both true in such a
state.  But the connect callback is two stores, `connected = true` and then
`connecting = false`: after `1 connect pm://good` its first store leaves both
flags true, a `2 status` handled at that moment reports
`"connected":true,"connecting":true`, and only the second store ends it.  The
state can also last: the `connect` whose guard loads `connected` before the
notification and `connecting` after it sets `connecting` while `connected` is
true, with no notification left to clear it.  In the binding the first store of
the connect callback gives a reachable state with `connected_` and
`connecting_` both true. -/
theorem C28_flags_both_true :
    (∀ (w : World) (e : Async), ¬ (w.connected = true ∧ w.connecting = true) →
        ¬ ((w.deliver e).connected = true ∧ (w.deliver e).connecting = true))
    ∧ (∀ (sdk : Sdk) (line : String) (w : World) (ticks : List Tick),
        ¬ (w.connected = true ∧ w.connecting = true) →
        ¬ ((parse_command sdk line w ticks).world.connected = true
            ∧ (parse_command sdk line w ticks).world.connecting = true))
    ∧ (∀ (sdk : Sdk) (self : Wrapper) (info : Option ConnectOptions)
          (reason : DisconnectReason),
        ¬ (self.connected_ = true ∧ self.connecting_ = true) →
        ¬ ((PowermonWrapper.Connect sdk self info).1.connected_ = true
            ∧ (PowermonWrapper.Connect sdk self info).1.connecting_ = true)
          ∧ ¬ ((PowermonWrapper.Disconnect self).connected_ = true
            ∧ (PowermonWrapper.Disconnect self).connecting_ = true)
          ∧ ¬ ((PowermonWrapper.onConnect self).connected_ = true
            ∧ (PowermonWrapper.onConnect self).connecting_ = true)
          ∧ ¬ ((PowermonWrapper.onDisconnect self reason).connected_ = true
            ∧ (PowermonWrapper.onDisconnect self reason).connecting_ = true))
    ∧ (connecting_world
          = { idle_world with connecting := true, out := [Msg.result "1" true 0 none],
                              calls := [.connectWifi sample_key] }
        ∧ onConnect_first connecting_world
          = { idle_world with connected := true, connecting := true,
                              out := [Msg.result "1" true 0 none],
                              calls := [.connectWifi sample_key] }
        ∧ (onConnect_first connecting_world).connected = true
        ∧ (onConnect_first connecting_world).connecting = true
        ∧ (parse_command sample_sdk "2 status" (onConnect_first connecting_world)
              []).world.out.map Msg.render
          = ["\x7b\"type\":\"result\",\"id\":\"1\",\"success\":true,\"code\":0\x7d\n",
             "\x7b\"type\":\"result\",\"id\":\"2\",\"success\":true,\"code\":0,\"data\":\x7b\"connected\":true,\"connecting\":true\x7d\x7d\n"]
        ∧ onConnect_rest (onConnect_first connecting_world)
          = connecting_world.deliver .onConnect)
    ∧ ((cmd_connect_loads sample_sdk "2" "pm://good" connecting_world.connected
            (connecting_world.deliver .onConnect)).connected = true
        ∧ (cmd_connect_loads sample_sdk "2" "pm://good" connecting_world.connected
            (connecting_world.deliver .onConnect)).connecting = true)
    ∧ (Wrapper.Reachable sample_sdk (PowermonWrapper.onConnect_first connecting_wrapper)
        ∧ (PowermonWrapper.onConnect_first connecting_wrapper).connected_ = true
        ∧ (PowermonWrapper.onConnect_first connecting_wrapper).connecting_ = true
        ∧ PowermonWrapper.onConnect_rest (PowermonWrapper.onConnect_first connecting_wrapper)
          = PowermonWrapper.onConnect connecting_wrapper) := by
  refine ⟨deliver_exclusive, ?_, ?_, by decide, by decide, ?_, by decide, by decide, rfl⟩
  · intro sdk line w ticks h
    exact dispatch_exclusive sdk _ _ _ w ticks h
  · intro sdk self info reason h
    refine ⟨connect_exclusive sdk self info h, ?_, ?_, ?_⟩
    · unfold PowermonWrapper.Disconnect
      split <;> exact h
    · simp [PowermonWrapper.onConnect, PowermonWrapper.onConnect_rest]
    · simp [PowermonWrapper.onDisconnect, PowermonWrapper.onDisconnect_rest,
        PowermonWrapper.onDisconnect_first]
  · exact Wrapper.Reachable.store_connected _ true connecting_wrapper_reachable (by decide)

/-- C29. Request accounting of `stream` for a count other than 0, issued while
Connected.  With a negative count the handler issues no request and writes the
Result at once.  On every schedule that holds the connection and raises no
shutdown, a handler that returns has issued exactly `max(count, 0)` data
requests and has written events, at most that many monitor events among them,
and then the Result.  When the requests are answered one by one, with any
codes and after any delays, every answer counts as one sample: the handler
returns after `count` answers, having written one monitor event for each
answer with `RSP_SUCCESS` and none for any other code. -/
theorem C29_stream_requests (cmd_id : String) (interval_ms count : Int) (w : World)
    (hcount : count ≠ 0) (hc : w.connected = true) (hs : w.should_exit = false)
    (hp : w.pending = none) :
    (count < 0 → ∀ ticks,
        cmd_stream_monitor cmd_id interval_ms count w ticks
          = ⟨output_result cmd_id true 0 none w, ticks, true⟩)
    ∧ (∀ ticks, Schedule.all Async.isHeld ticks →
        (cmd_stream_monitor cmd_id interval_ms count w ticks).returned = true →
        (cmd_stream_monitor cmd_id interval_ms count w ticks).world.calls
            = w.calls ++ List.replicate (max count 0).toNat SdkCall.requestGetMonitorData
          ∧ ∃ l, (cmd_stream_monitor cmd_id interval_ms count w ticks).world.out
                = w.out ++ l ++ [Msg.result cmd_id true 0 none]
            ∧ (∀ m ∈ l, m.isEvent = true)
            ∧ (l.filter Msg.isMonitor).length ≤ (max count 0).toNat)
    ∧ (0 < count → ∀ (rs : List (Nat × Reply)) (rest : List Tick),
        rs.length = (max count 0).toNat →
        cmd_stream_monitor cmd_id interval_ms count w (stream_schedule interval_ms rs ++ rest)
          = ⟨{ w with
                pending := none,
                calls := w.calls
                  ++ List.replicate (max count 0).toNat SdkCall.requestGetMonitorData,
                out := w.out ++ monitor_events rs ++ [Msg.result cmd_id true 0 none] },
              List.replicate (interval_ticks interval_ms) [] ++ rest, true⟩) := by
  have h0 : ((0 : Nat) : Int) = 0 := rfl
  refine ⟨fun hneg ticks => cmd_stream_monitor_negative cmd_id interval_ms count w ticks hc hneg,
    ?_, ?_⟩
  · intro ticks hall hr
    rcases lt_or_gt_of_ne hcount with hneg | hpos
    · rw [cmd_stream_monitor_negative cmd_id interval_ms count w ticks hc hneg]
      have hm : (max count 0).toNat = 0 := by omega
      rw [hm]
      exact ⟨by simp [output_result], [], by simp [output_result], by simp, by simp⟩
    · obtain ⟨n, rfl⟩ : ∃ n : Nat, count = (n : Int) := ⟨count.toNat, by omega⟩
      have hn : 0 < n := by omega
      have hm : (max (n : Int) 0).toNat = n := by omega
      rw [hm]
      unfold cmd_stream_monitor at hr ⊢
      simp only [hc, Bool.not_true, Bool.false_eq_true, if_false] at hr ⊢
      rw [← h0] at hr ⊢
      exact stream_loop_held cmd_id interval_ms n w.out w.calls hn (ticks.length + 1) 0 w
        ticks hall hp
        ⟨⟨Or.inl hp, by simp, [], by simp, by simp, by simp [World.owed_monitor, hp]⟩,
          hc, hs⟩
        (Nat.zero_le _) hr
  · intro hpos rs rest hlen
    obtain ⟨n, rfl⟩ : ∃ n : Nat, count = (n : Int) := ⟨count.toNat, by omega⟩
    have hm : (max (n : Int) 0).toNat = n := by omega
    rw [hm] at hlen ⊢
    cases rs with
    | nil => simp at hlen; omega
    | cons a rs =>
        have hlen' : rs.length + 1 = n := by simpa using hlen
        have hticks : rs.length + 1
            < (stream_schedule interval_ms (a :: rs) ++ rest).length + 1 := by
          have := stream_schedule_length interval_ms (a :: rs)
          simp only [List.length_append, List.length_cons] at this ⊢
          omega
        have h := stream_loop_answered cmd_id interval_ms n rest rs a _ 0 w hc hs
          (by omega) hticks
        rw [hlen', h0] at h
        unfold cmd_stream_monitor
        rw [if_neg (by simp [hc])]
        exact h

/-- C29 at `stream 100 3` answered with a success, a timeout and a success
(three requests, two monitor events), and at `stream 100 -1`. -/
theorem C29_stream_requests_witness :
    (3 : Int) ≠ 0 ∧ (0 : Int) < 3
    ∧ cmd_stream_monitor "7" 100 3 connected_world
          (stream_schedule 100 [(0, ok_reply), (1, timeout_reply), (0, ok_reply)] ++ [])
        = ⟨{ connected_world with
              pending := none,
              calls := connected_world.calls
                ++ List.replicate (max (3 : Int) 0).toNat SdkCall.requestGetMonitorData,
              out := connected_world.out
                ++ monitor_events [(0, ok_reply), (1, timeout_reply), (0, ok_reply)]
                ++ [Msg.result "7" true 0 none] },
            List.replicate (interval_ticks 100) [] ++ [], true⟩
    ∧ monitor_events [(0, ok_reply), (1, timeout_reply), (0, ok_reply)] = [ok_event, ok_event]
    ∧ (max (3 : Int) 0).toNat = 3
    ∧ cmd_stream_monitor "7" 100 (-1) connected_world [[]]
        = ⟨output_result "7" true 0 none connected_world, [[]], true⟩ :=
  ⟨by decide, by decide,
    (C29_stream_requests "7" 100 3 connected_world (by decide) rfl rfl rfl).2.2 (by decide)
      [(0, ok_reply), (1, timeout_reply), (0, ok_reply)] [] (by decide),
    by decide, by decide,
    (C29_stream_requests "7" 100 (-1) connected_world (by decide) rfl rfl rfl).1 (by decide)
      [[]]⟩

/-- C30. A line whose first two tokens are an id and `stream` runs
`cmd_stream_monitor` with that id and with: interval 2000 and count 0 when
nothing but white space follows; interval `N` and count 0 when one decimal
integer `N` follows; interval `N` and count `C` when two decimal integers `N`
and `C` follow, in that order (each with an optional minus sign and within
the range of `int`; what comes after `C` is not read). -/
theorem C30_stream_defaults (sdk : Sdk) (line : String) (w : World) (ticks : List Tick)
    (t1 args : List Char) (h : TwoTokens line.toList t1 "stream".toList args) :
    (Blank args →
        parse_command sdk line w ticks = cmd_stream_monitor (String.mk t1) 2000 0 w ticks)
    ∧ (∀ (ws ds ws' : List Char) (neg : Bool),
        Blank ws → Digits ds → InRange neg ds → Blank ws' →
        args = ws ++ (int_text neg ds ++ ws') →
        parse_command sdk line w ticks
          = cmd_stream_monitor (String.mk t1) (int_value neg ds) 0 w ticks)
    ∧ (∀ (ws ds sep ds' rest : List Char) (neg neg' : Bool),
        Blank ws → Digits ds → InRange neg ds → Blank sep → sep ≠ [] →
        Digits ds' → InRange neg' ds' → NoDigit rest →
        args = ws ++ (int_text neg ds ++ (sep ++ (int_text neg' ds' ++ rest))) →
        parse_command sdk line w ticks
          = cmd_stream_monitor (String.mk t1) (int_value neg ds) (int_value neg' ds') w
              ticks) := by
  obtain ⟨hid, hcmd, hargs⟩ := line_two_tokens line t1 _ args h
  have hid' : String.mk t1 ≠ "" := by
    obtain ⟨ws, sep, _, h1, _⟩ := h
    exact token_mk_ne h1
  have hrun : parse_command sdk line w ticks
      = cmd_stream_monitor (String.mk t1) (extract_int 2000 ⟨args, false⟩).1
          (extract_int 0 (extract_int 2000 ⟨args, false⟩).2).1 w ticks := by
    unfold parse_command
    rw [hid, hcmd, hargs]
    exact dispatch_stream sdk _ _ w ticks hid'
  refine ⟨?_, ?_, ?_⟩
  · intro hb
    rw [hrun, extract_int_blank 2000 args hb, extract_int_failed]
  · intro ws ds ws' neg hws hds hin hws' he
    rw [hrun, he, extract_int_literal 2000 ws ds ws' neg hws hds (blank_noDigit hws') hin,
      extract_int_blank 0 ws' hws']
  · intro ws ds sep ds' rest neg neg' hws hds hin hsep hne hds' hin' hrest he
    rw [hrun, he, extract_int_literal 2000 ws ds _ neg hws hds (noDigit_append hsep hne) hin,
      extract_int_literal 0 sep ds' rest neg' hsep hds' hrest hin']

/-- C30 at the lines `3 stream`, `3 stream 500` and `3 stream 500 -2`. -/
theorem C30_stream_defaults_witness :
    parse_command sample_sdk "3 stream" idle_world []
        = cmd_stream_monitor "3" 2000 0 idle_world []
    ∧ parse_command sample_sdk "3 stream 500" idle_world []
        = cmd_stream_monitor "3" 500 0 idle_world []
    ∧ parse_command sample_sdk "3 stream 500 -2" idle_world []
        = cmd_stream_monitor (String.mk "3".toList) (int_value false "500".toList)
            (int_value true "2".toList) idle_world []
    ∧ int_value false "500".toList = 500 ∧ int_value true "2".toList = -2 :=
  have hshape : TwoTokens "3 stream 500 -2".toList "3".toList "stream".toList
      " 500 -2".toList :=
    ⟨[], [' '], by unfold Blank; decide, by unfold Token; decide, by unfold Blank; decide,
      by decide, by unfold Token; decide, by unfold Break; decide, by decide⟩
  ⟨by decide, by decide,
    (C30_stream_defaults sample_sdk "3 stream 500 -2" idle_world [] _ _ hshape).2.2
      [' '] "500".toList [' '] "2".toList [] false true
      (by unfold Blank; decide) (by unfold Digits; decide) (by unfold InRange; decide)
      (by unfold Blank; decide) (by decide) (by unfold Digits; decide)
      (by unfold InRange; decide) (by unfold NoDigit; decide) (by decide),
    by decide, by decide⟩

end Powermon
